import Mathlib

/-!
# Logic Analyzer RP2040-SUMP: capture engine and SUMP protocol

A shallow embedding of `capture.c`, `protocol_sump.c` and the parts of `common.h` and
`main.c` they rely on.  Unsigned 32-bit values (`uint`, `uint32_t`) are natural numbers,
reduced modulo `2^32` wherever the C arithmetic can wrap; `int` values are integers.
Static variables of a translation unit are the fields of a state record, and a C function
that updates them is a function from state to state.
-/

namespace LogicAnalyzer

/-! ## Machine integers -/

/-- The value an integer expression takes when it is stored in a 32-bit unsigned. -/
def u32 (x : Int) : Nat := (x % 4294967296).toNat

/-- The value of a 32-bit pattern read as a signed `int` (two's complement). -/
def toInt32 (n : Nat) : Int :=
  if n % 4294967296 < 2147483648 then ((n % 4294967296 : Nat) : Int)
  else ((n % 4294967296 : Nat) : Int) - 4294967296

/-! ## Single-precision arithmetic -/

/-- The quotient `n / d` rounded to the nearest integer, a tie to the even one. -/
def round_half_even (n d : Nat) : Nat :=
  let f := n / d
  let r := n % d
  if 2 * r < d then f else if d < 2 * r then f + 1 else if f % 2 = 0 then f else f + 1

/-- The number of binary digits of `n`, counted with at most `fuel` halvings. -/
def binary_digits : Nat → Nat → Nat
  | 0, _ => 0
  | fuel + 1, n => if n = 0 then 0 else binary_digits fuel (n / 2) + 1

/-- The value of type `float` nearest to the quotient `n / d` of two positive integers,
as the pair `(m, s)` of an integer significand and an exponent, the value being
`m * 2^s`: `e` is the exponent with `2^e ≤ n / d < 2^(e + 1)`, not below the least normal
exponent -126; the unit in the last place is `2^(e - 23)`, for 24 significant bits; the
quotient is rounded to the nearest multiple of it, a tie to the even one. -/
def float_parts (n d : Nat) : Nat × Int :=
  let e0 : Int := (binary_digits n n : Int) - (binary_digits d d : Int)
  let e : Int := if n * 2 ^ (-e0).toNat < d * 2 ^ e0.toNat then e0 - 1 else e0
  let e : Int := max e (-126)
  let s : Int := e - 23
  (round_half_even (n * 2 ^ (-s).toNat) (d * 2 ^ s.toNat), s)

/-- The value of type `float` (IEEE 754 single precision, rounding to nearest, ties to
even) nearest to the rational `q ≥ 0`, as an exact rational; `none` is `+inf`, the result
from `2^128` on. -/
def float_round (q : ℚ) : Option ℚ :=
  if q ≤ 0 then some 0
  else
    let p := float_parts q.num.toNat q.den
    if 2 ^ 128 ≤ p.1 * 2 ^ p.2.toNat then none else some ((p.1 : ℚ) * (2 : ℚ) ^ p.2)

/-- The division of two non-negative values of type `float`, `none` being `+inf`: the
exact quotient rounded; a division by zero gives `+inf`, `+inf` divided by a finite value
is `+inf` and a finite value divided by `+inf` is 0.  The quotients `0 / 0` and
`inf / inf`, which are not numbers, do not occur in `capture_start`, whose first dividend
is the clock frequency and whose later divisors are 32 and 10. -/
def float_div (a b : Option ℚ) : Option ℚ :=
  match a, b with
  | some x, some y => if y = 0 then none else float_round (x / y)
  | none, some _ => none
  | _, none => some 0

/-! ## common.h -/

/-- The enum `command_t`. -/
inductive command_t where
  | COMMAND_NONE
  | COMMAND_RESET
  | COMMAND_CAPTURE
  deriving DecidableEq

/-- The enum `trigger_match_t`. -/
inductive trigger_match_t where
  | TRIGGER_TYPE_LEVEL_LOW
  | TRIGGER_TYPE_LEVEL_HIGH
  | TRIGGER_TYPE_EDGE_LOW
  | TRIGGER_TYPE_EDGE_HIGH
  deriving DecidableEq

/-- The struct `trigger_t`; the field `match` is spelled `match_`. -/
structure trigger_t where
  is_enabled : Bool
  pin : Nat
  match_ : trigger_match_t
  deriving DecidableEq

/-- The struct `config_t`. -/
structure config_t where
  channels : Nat
  trigger_edge : Bool
  debug : Bool
  deriving DecidableEq

/-- The struct `capture_config_t`; `trigger` is the array `trigger[4]`, a list of four slots. -/
structure capture_config_t where
  total_samples : Nat
  rate : Nat
  pre_trigger_samples : Nat
  channels : Nat
  trigger : List trigger_t
  deriving DecidableEq

/-- `CHANNEL_COUNT`. -/
def CHANNEL_COUNT : Nat := 16

/-- `TRIGGERS_COUNT`. -/
def TRIGGERS_COUNT : Nat := 4

/-! ## capture.c -/

/-- `PRE_TRIGGER_RING_BITS`. -/
def PRE_TRIGGER_RING_BITS : Nat := 10

/-- `PRE_TRIGGER_BUFFER_SIZE`, that is `1 << PRE_TRIGGER_RING_BITS`. -/
def PRE_TRIGGER_BUFFER_SIZE : Nat := 1 <<< PRE_TRIGGER_RING_BITS

/-- `POST_TRIGGER_BUFFER_SIZE`. -/
def POST_TRIGGER_BUFFER_SIZE : Nat := 100000

/-- `MAX_TRIGGER_COUNT`. -/
def MAX_TRIGGER_COUNT : Nat := 4

/-- `RATE_CHANGE_CLK`. -/
def RATE_CHANGE_CLK : Nat := 5000

/-- The static variables of `capture.c` together with the hardware registers the file
reads back.  `pre_trigger_buffer_` and `post_trigger_buffer_` give the word found at a
subscript; the arrays themselves are the subscripts `0 .. 1023` and `0 .. 99999`.
`clk_sys` is `clock_get_hz(clk_sys)`, `transfer_count` is
`dma_hw->ch[dma_channel_pre_trigger_].transfer_count`, `sm_enabled` tells whether the
sampling state machines run, `armed` lists the triggers loaded by `set_trigger`, and
`handler_calls` counts the calls of `handler_`. -/
structure CaptureState where
  pre_trigger_samples_ : Nat
  post_trigger_samples_ : Nat
  pre_trigger_count_ : Nat
  pre_trigger_first_ : Int
  trigger_count_ : Nat
  sm_trigger_mask_ : Nat
  rate_ : Nat
  clk_div_ : ℚ
  pre_trigger_buffer_ : Int → Nat
  post_trigger_buffer_ : Nat → Nat
  is_capturing_ : Bool
  is_aborting_ : Bool
  clk_sys : Nat
  transfer_count : Nat
  sm_enabled : Bool
  armed : List trigger_t
  handler_calls : Nat

/-- The array element one call of `get_sample_index` reads: none (the call returns the
constant 0), `pre_trigger_buffer_[slot]` or `post_trigger_buffer_[slot]`. -/
inductive sample_read where
  | zero
  | pre (slot : Int)
  | post (slot : Nat)
  deriving DecidableEq

/-- The branch `get_sample_index(index)` takes and the subscript it evaluates there.
The comparisons of `index` with the unsigned counters are made in unsigned arithmetic,
the sums with `pre_trigger_first_` in `int`. -/
def get_sample_read (s : CaptureState) (index : Int) : sample_read :=
  if index < 0 ∨ u32 index > (s.pre_trigger_count_ + s.post_trigger_samples_) % 4294967296 then
    sample_read.zero
  else if u32 index < s.pre_trigger_count_ then
    if s.pre_trigger_first_ + index < 0 then
      sample_read.pre ((PRE_TRIGGER_BUFFER_SIZE : Int) + s.pre_trigger_first_ + index)
    else if s.pre_trigger_first_ + index > (PRE_TRIGGER_BUFFER_SIZE : Int) then
      sample_read.pre (s.pre_trigger_first_ + index - (PRE_TRIGGER_BUFFER_SIZE : Int))
    else
      sample_read.pre (s.pre_trigger_first_ + index)
  else
    sample_read.post (u32 (index - (s.pre_trigger_count_ : Int)))

/-- The function `get_sample_index`: the word at the element `get_sample_read` names. -/
def get_sample_index (s : CaptureState) (index : Int) : Nat :=
  match get_sample_read s index with
  | sample_read.zero => 0
  | sample_read.pre slot => s.pre_trigger_buffer_ slot
  | sample_read.post slot => s.post_trigger_buffer_ slot

/-- The function `get_samples_count`. -/
def get_samples_count (s : CaptureState) : Nat :=
  (s.pre_trigger_count_ + s.post_trigger_samples_) % 4294967296

/-- The function `get_pre_trigger_count`. -/
def get_pre_trigger_count (s : CaptureState) : Nat := s.pre_trigger_count_

/-- The function `capture_stop`: every state machine is disabled, the DMA channels are
aborted and the FIFOs and instruction memories cleared. -/
def capture_stop (s : CaptureState) : CaptureState :=
  { s with sm_enabled := false, armed := [] }

/-- The interrupt handler `capture_complete_handler`. -/
def capture_complete_handler (s : CaptureState) : CaptureState :=
  let s := if s.clk_sys ≠ 100000000 then { s with clk_sys := 100000000 } else s
  if !s.is_aborting_ then
    let s := capture_stop s
    let first := toInt32 (u32 (((u32 (0xffffffff - (s.transfer_count : Int)) % PRE_TRIGGER_BUFFER_SIZE : Nat) : Int)
      - (s.pre_trigger_samples_ : Int)))
    let s := { s with pre_trigger_first_ := first, pre_trigger_count_ := s.pre_trigger_samples_ }
    let s :=
      if s.pre_trigger_first_ < 0 ∧ u32 (0xffffffff - (s.transfer_count : Int)) < PRE_TRIGGER_BUFFER_SIZE then
        { s with pre_trigger_first_ := 0,
                 pre_trigger_count_ := u32 (0xffffffff - (s.transfer_count : Int)) }
      else s
    { s with is_capturing_ := false, handler_calls := s.handler_calls + 1 }
  else
    { s with is_aborting_ := false }

/-- The write side of the pre-trigger DMA channel, configured by
`channel_config_set_ring(.., true, PRE_TRIGGER_RING_BITS)` on the aligned buffer: the
word number `n` since arming lands in slot `n mod 1024`. -/
def ring_write (buf : Int → Nat) (n : Nat) (x : Nat) : Int → Nat :=
  fun slot => if slot = ((n % PRE_TRIGGER_BUFFER_SIZE : Nat) : Int) then x else buf slot

/-- The ring after the first `w` words of the stream `words` have been written over the
initial content `buf`. -/
def ring_after (words : Nat → Nat) (buf : Int → Nat) : Nat → Int → Nat
  | 0 => buf
  | w + 1 => ring_write (ring_after words buf w) w (words w)

/-- The failures the C code can run into: an unsigned division by zero, a read of an
array element past the end of the array, and, for the loops of the embedding, a loop
that was given too little fuel to finish. -/
inductive Fault where
  | division_by_zero
  | out_of_bounds
  | out_of_fuel
  deriving DecidableEq

/-- The function `set_trigger`: below four loaded triggers, the trigger is loaded into
the next state machine of `pio1`, whose bit is added to `sm_trigger_mask_`. -/
def set_trigger (s : CaptureState) (trigger : trigger_t) : CaptureState :=
  if s.trigger_count_ < MAX_TRIGGER_COUNT then
    { s with sm_trigger_mask_ := s.sm_trigger_mask_ ||| (1 <<< s.trigger_count_),
             armed := s.armed ++ [trigger],
             trigger_count_ := s.trigger_count_ + 1 }
  else s

/-- The loop `while (capture_config_.trigger[i].is_enabled)` of `capture_start`, run on
the slots from `i` on; an empty list means that `i` is past the array `trigger[4]`. -/
def init_triggers : List trigger_t → CaptureState → Except Fault CaptureState
  | [], _ => Except.error Fault.out_of_bounds
  | t :: rest, s => if t.is_enabled then init_triggers rest (set_trigger s t) else Except.ok s

/-- The clamp `if (clk_div_ > 0xffff) clk_div_ = 0xffff` applied to the `float` computed
before it; `none` is `+inf`, the quotient of a division by a zero rate. -/
def clamp_clk_div (q : Option ℚ) : ℚ :=
  match q with
  | none => 0xffff
  | some q => if q > 0xffff then 0xffff else q

/-- The block "set sys clock" of `capture_start`.  The divisor is computed in `float`:
`(float)clock_get_hz(clk_sys)` converts the clock, the usual arithmetic conversions
convert `rate`, 32 and 10 to `float`, and each division rounds; `clk_div_` holds the
resulting `float` as an exact rational. -/
def set_sys_clock (rate : Nat) (s : CaptureState) : CaptureState :=
  if rate > RATE_CHANGE_CLK then
    let s := if s.clk_sys ≠ 200000000 then { s with clk_sys := 200000000 } else s
    let q : Option ℚ := float_div (float_round (s.clk_sys : ℚ)) (float_round (rate : ℚ))
    { s with clk_div_ := clamp_clk_div q }
  else
    let s := if s.clk_sys ≠ 100000000 then { s with clk_sys := 100000000 } else s
    let q : Option ℚ :=
      float_div
        (float_div (float_div (float_round (s.clk_sys : ℚ)) (float_round (rate : ℚ)))
          (float_round 32))
        (float_round 10)
    { s with clk_div_ := clamp_clk_div q }

/-- The head of `capture_start`: the sample counts and the rate are stored and the counts
clamped to the sizes of the two buffers. -/
def set_sample_counts (samples rate pre_trigger_samples : Nat) (s : CaptureState) :
    CaptureState :=
  let s := { s with pre_trigger_samples_ := pre_trigger_samples,
                    post_trigger_samples_ := u32 ((samples : Int) - (pre_trigger_samples : Int)),
                    rate_ := rate }
  let s := if s.pre_trigger_samples_ > PRE_TRIGGER_BUFFER_SIZE then
      { s with pre_trigger_samples_ := PRE_TRIGGER_BUFFER_SIZE } else s
  if s.post_trigger_samples_ > POST_TRIGGER_BUFFER_SIZE then
    { s with post_trigger_samples_ := POST_TRIGGER_BUFFER_SIZE } else s

/-- The function `capture_start`, reading the trigger slots of `capture_config_`: sample
counts, system clock and divisor, the pre-trigger DMA channel started with the transfer
count `0xffffffff`, the triggers loaded, the state machines enabled. -/
def capture_start (cc : capture_config_t) (samples rate pre_trigger_samples : Nat)
    (s : CaptureState) : Except Fault CaptureState :=
  let s := set_sample_counts samples rate pre_trigger_samples s
  let s := set_sys_clock rate s
  let s := { s with transfer_count := 0xffffffff }
  let s := { s with trigger_count_ := 0, sm_trigger_mask_ := 0, armed := [] }
  match init_triggers cc.trigger s with
  | Except.error e => Except.error e
  | Except.ok s => Except.ok { s with sm_enabled := true, is_capturing_ := true }

/-- The function `capture_abort`. -/
def capture_abort (s : CaptureState) : CaptureState :=
  let s := if s.clk_sys ≠ 100000000 then { s with clk_sys := 100000000 } else s
  let s := { s with is_capturing_ := false, is_aborting_ := true }
  capture_stop s

/-- The function `capture_is_busy`. -/
def capture_is_busy (s : CaptureState) : Bool := s.is_capturing_

/-- The events that act on the capture engine: a call of `capture_start`, a call of
`capture_abort`, and the completion interrupt, which runs `capture_complete_handler`. -/
inductive engine_event where
  | start (cc : capture_config_t) (samples rate pre_trigger_samples : Nat)
  | abort
  | complete

/-- The effect of one event on the engine. -/
def engine_step (s : CaptureState) : engine_event → Except Fault CaptureState
  | engine_event.start cc samples rate pre_trigger_samples =>
    capture_start cc samples rate pre_trigger_samples s
  | engine_event.abort => Except.ok (capture_abort s)
  | engine_event.complete => Except.ok (capture_complete_handler s)

/-- The effect of a sequence of events, first event first. -/
def engine_run : List engine_event → CaptureState → Except Fault CaptureState
  | [], s => Except.ok s
  | e :: rest, s =>
    match engine_step s e with
    | Except.error f => Except.error f
    | Except.ok s => engine_run rest s

/-! ## protocol_sump.c -/

/-- `MAX_TOTAL_SAMPLES`. -/
def MAX_TOTAL_SAMPLES : Nat := 200000

/-- `MAX_SAMPLE_RATE`. -/
def MAX_SAMPLE_RATE : Nat := 200000000

/-- `CLOCK_RATE`. -/
def CLOCK_RATE : Nat := 100000000

/-- `PROTOCOL_VERSION`. -/
def PROTOCOL_VERSION : Nat := 2

/-- `STAGES_COUNT`. -/
def STAGES_COUNT : Nat := 4

/-- `TRIGGER_START`. -/
def TRIGGER_START : Nat := 1 <<< (3 + 24)

/-- `TRIGGER_SERIAL`. -/
def TRIGGER_SERIAL : Nat := 1 <<< (2 + 24)

/-- `TRIGGER_CHANNEL_MASK`. -/
def TRIGGER_CHANNEL_MASK : Nat := 31 <<< (4 + 16)

/-- `TRIGGER_LEVEL_MASK`. -/
def TRIGGER_LEVEL_MASK : Nat := 3 <<< (0 + 24)

/-- `FLAG_DEMUX_MODE`. -/
def FLAG_DEMUX_MODE : Nat := 1 <<< 0

/-- `FLAG_DISABLE_CHANGROUP_1`. -/
def FLAG_DISABLE_CHANGROUP_1 : Nat := 1 <<< 2

/-- `FLAG_DISABLE_CHANGROUP_2`. -/
def FLAG_DISABLE_CHANGROUP_2 : Nat := 1 <<< 3

/-- `FLAG_RLE`. -/
def FLAG_RLE : Nat := 1 <<< 8

/-- `PICO_ERROR_TIMEOUT`. -/
def PICO_ERROR_TIMEOUT : Int := -1

/-- The struct `sump_trigger_t`. -/
structure sump_trigger_t where
  mask : Nat
  values : Nat
  configuration : Nat
  deriving DecidableEq

/-- The static variables of `protocol_sump.c`, the globals `capture_config_` and `config_`
of `main.c`, and the two ends of the host link: `input` holds the outcomes of the coming
calls of `getchar_timeout_us`, a byte or `none` for a timeout (every call past the end of
the list times out), and `output` the bytes written so far by `putchar` and `printf`.
`sump_trigger_` is the array of the `STAGES_COUNT` stage registers. -/
structure SumpState where
  divisor_ : Nat
  flags_ : Nat
  sump_trigger_ : List sump_trigger_t
  capture_config_ : capture_config_t
  config_ : config_t
  input : List (Option Nat)
  output : List Nat
  deriving DecidableEq

/-- The assignment `a[i] = f (a[i])` on an array held as a list. -/
def update_slot {α : Type} : List α → Nat → (α → α) → List α
  | [], _, _ => []
  | x :: xs, 0, f => f x :: xs
  | x :: xs, i + 1, f => x :: update_slot xs i f

/-- The call `getchar_timeout_us`: the next outcome of the link. -/
def getchar_timeout_us (st : SumpState) : Int × SumpState :=
  match st.input with
  | [] => (PICO_ERROR_TIMEOUT, st)
  | none :: rest => (PICO_ERROR_TIMEOUT, { st with input := rest })
  | some b :: rest => (((b % 256 : Nat) : Int), { st with input := rest })

/-- The call `putchar`: the low byte of the argument goes out. -/
def putchar (st : SumpState) (c : Nat) : SumpState :=
  { st with output := st.output ++ [c % 256] }

/-- The call `printf("%s", ..)`: the characters of the string go out. -/
def put_string (st : SumpState) (str : String) : SumpState :=
  { st with output := st.output ++ str.toList.map Char.toNat }

/-- The function `get_uint32`.  A shift of the `int` returned by `getchar_timeout_us`
wraps to 32 bits, so that the timeout value -1 contributes a pattern of one bits. -/
def get_uint32 (st : SumpState) : Nat × SumpState :=
  let r0 := getchar_timeout_us st
  let value := u32 r0.1
  let r1 := getchar_timeout_us r0.2
  let value := value ||| u32 (r1.1 * 2 ^ 8)
  let r2 := getchar_timeout_us r1.2
  let value := value ||| u32 (r2.1 * 2 ^ 16)
  let r3 := getchar_timeout_us r2.2
  let value := value ||| u32 (r3.1 * 2 ^ 24)
  (value, r3.2)

/-- The function `put_uint32`. -/
def put_uint32 (st : SumpState) (value : Nat) : SumpState :=
  let st := putchar st value
  let st := putchar st (value >>> 8)
  let st := putchar st (value >>> 16)
  putchar st (value >>> 24)

/-- The trigger array and the locals of `prepare_adquisition` while it runs; `returned`
is set once a `return` statement has been executed. -/
structure prepare_state where
  trigger : List trigger_t
  trigger_count : Nat
  returned : Bool
  deriving DecidableEq

/-- The body of `if ((mask >> channel) & 1)` in the channel loop up to `trigger_count++`:
slot `trigger_count` is enabled on pin `channel`; its match follows bit `channel` of
`values` (the test `x & 1 == 1` of the source parses as `x & (1 == 1)`, that is `x & 1`)
and the override `config_.trigger_edge`. -/
def set_parallel_trigger (trigger_edge : Bool) (values channel : Nat) (p : prepare_state) :
    prepare_state :=
  let t := update_slot p.trigger p.trigger_count (fun x => { x with is_enabled := true })
  let t := update_slot t p.trigger_count (fun x => { x with pin := channel })
  let t :=
    if !trigger_edge then
      if (values >>> channel) &&& 1 ≠ 0 then
        update_slot t p.trigger_count
          (fun x => { x with match_ := trigger_match_t.TRIGGER_TYPE_LEVEL_HIGH })
      else
        update_slot t p.trigger_count
          (fun x => { x with match_ := trigger_match_t.TRIGGER_TYPE_LEVEL_LOW })
    else
      if (values >>> channel) &&& 1 ≠ 0 then
        update_slot t p.trigger_count
          (fun x => { x with match_ := trigger_match_t.TRIGGER_TYPE_EDGE_HIGH })
      else
        update_slot t p.trigger_count
          (fun x => { x with match_ := trigger_match_t.TRIGGER_TYPE_EDGE_LOW })
  { p with trigger := t, trigger_count := p.trigger_count + 1 }

/-- The loop `for (channel = 0; channel < config_.channels; channel++)` of a parallel
stage, with `n` iterations left from `channel` on. -/
def parallel_channels (trigger_edge : Bool) (mask values : Nat) :
    Nat → Nat → prepare_state → prepare_state
  | 0, _, p => p
  | n + 1, channel, p =>
    if (mask >>> channel) &&& 1 ≠ 0 then
      let p := set_parallel_trigger trigger_edge values channel p
      if p.trigger_count > 3 then { p with returned := true }
      else parallel_channels trigger_edge mask values n (channel + 1) p
    else parallel_channels trigger_edge mask values n (channel + 1) p

/-- The branch "edge triggers (serial, mask 0b11)" of a stage. -/
def serial_edge_stage (sg : sump_trigger_t) (p : prepare_state) : prepare_state :=
  let t := update_slot p.trigger p.trigger_count (fun x => { x with is_enabled := true })
  let t := update_slot t p.trigger_count
    (fun x => { x with pin := (sg.configuration &&& TRIGGER_CHANNEL_MASK) >>> 20 })
  if sg.values &&& 1 = 0 ∧ (sg.values >>> 1) &&& 1 = 1 then
    { p with trigger := update_slot t p.trigger_count
               (fun x => { x with match_ := trigger_match_t.TRIGGER_TYPE_EDGE_HIGH }),
             trigger_count := p.trigger_count + 1 }
  else if sg.values &&& 1 = 1 ∧ (sg.values >>> 1) &&& 1 = 0 then
    { p with trigger := update_slot t p.trigger_count
               (fun x => { x with match_ := trigger_match_t.TRIGGER_TYPE_EDGE_LOW }),
             trigger_count := p.trigger_count + 1 }
  else { p with trigger := t }

/-- The branch of a serial stage with mask `0b1`. -/
def serial_level_stage (sg : sump_trigger_t) (p : prepare_state) : prepare_state :=
  let t := update_slot p.trigger p.trigger_count (fun x => { x with is_enabled := true })
  let t := update_slot t p.trigger_count
    (fun x => { x with pin := (sg.configuration &&& TRIGGER_CHANNEL_MASK) >>> 20 })
  if sg.values &&& 1 = 1 then
    { p with trigger := update_slot t p.trigger_count
               (fun x => { x with match_ := trigger_match_t.TRIGGER_TYPE_LEVEL_HIGH }),
             trigger_count := p.trigger_count + 1 }
  else if sg.values &&& 1 = 0 then
    { p with trigger := update_slot t p.trigger_count
               (fun x => { x with match_ := trigger_match_t.TRIGGER_TYPE_LEVEL_LOW }),
             trigger_count := p.trigger_count + 1 }
  else { p with trigger := t }

/-- The three branches of an active stage: parallel, serial with mask `0b11`, serial with
mask `0b1`. -/
def stage_branch (cfg : config_t) (sg : sump_trigger_t) (p : prepare_state) : prepare_state :=
  if ¬ (sg.configuration &&& TRIGGER_SERIAL ≠ 0) then
    parallel_channels cfg.trigger_edge sg.mask sg.values cfg.channels 0 p
  else if sg.configuration &&& TRIGGER_SERIAL ≠ 0 ∧ sg.mask = 0b11 then
    serial_edge_stage sg p
  else if sg.configuration &&& TRIGGER_SERIAL ≠ 0 ∧ sg.mask = 0b1 then
    serial_level_stage sg p
  else p

/-- The test `if (trigger_count > TRIGGERS_COUNT - 1) return` that closes an active stage,
reached unless the channel loop has returned already. -/
def stage_close (p : prepare_state) : prepare_state :=
  if p.returned then p
  else if p.trigger_count > TRIGGERS_COUNT - 1 then { p with returned := true }
  else p

/-- The body of the stage loop of `prepare_adquisition` for the stage registers `sg`. -/
def prepare_stage (cfg : config_t) (sg : sump_trigger_t) (p : prepare_state) : prepare_state :=
  let t := update_slot p.trigger p.trigger_count (fun x => { x with is_enabled := false })
  let p := { p with trigger := t }
  if sg.mask ≠ 0 ∧ (sg.configuration &&& TRIGGER_START ≠ 0 ∧
      sg.configuration &&& TRIGGER_LEVEL_MASK = 0) then
    stage_close (stage_branch cfg sg p)
  else p

/-- The loop `for (stage = 0; stage < STAGES_COUNT; stage++)` over the stage registers
still to be visited. -/
def prepare_stages (cfg : config_t) : List sump_trigger_t → prepare_state → prepare_state
  | [], p => p
  | sg :: rest, p =>
    let p := prepare_stage cfg sg p
    if p.returned then p else prepare_stages cfg rest p

/-- The run of `prepare_adquisition` from `trigger_count = 0`, with its final
`trigger_count`. -/
def prepare_run (st : SumpState) : prepare_state :=
  prepare_stages st.config_ st.sump_trigger_
    { trigger := st.capture_config_.trigger, trigger_count := 0, returned := false }

/-- The trigger array and the locals of `prepare_adquisition` when its stage loop has
visited the first stages `visited` of the registers, from `trigger_count = 0`. -/
def prepare_upto (st : SumpState) (visited : List sump_trigger_t) : prepare_state :=
  prepare_stages st.config_ visited
    { trigger := st.capture_config_.trigger, trigger_count := 0, returned := false }

/-- The function `prepare_adquisition`. -/
def prepare_adquisition (st : SumpState) : SumpState :=
  { st with capture_config_ := { st.capture_config_ with trigger := (prepare_run st).trigger } }

/-- The assignment `sump_trigger_[stage].mask = get_uint32()` and its two siblings. -/
def read_stage_register (st : SumpState) (stage : Nat)
    (set : Nat → sump_trigger_t → sump_trigger_t) : SumpState :=
  let r := get_uint32 st
  { r.2 with sump_trigger_ := update_slot r.2.sump_trigger_ stage (set r.1) }

/-- The response to "send metadata" (0x04). -/
def send_metadata (st : SumpState) : SumpState :=
  let st := putchar st 0x01
  let st := put_string st "RP2040"
  let st := putchar st 0x00
  let st := putchar st 0x02
  let st := put_string st "v0.1"
  let st := putchar st 0x00
  let st := putchar st 0x21
  let st := put_uint32 st MAX_TOTAL_SAMPLES
  let st := putchar st 0x23
  let st := put_uint32 st MAX_SAMPLE_RATE
  let st := putchar st 0x40
  let st := putchar st st.capture_config_.channels
  let st := putchar st 0x41
  let st := putchar st PROTOCOL_VERSION
  putchar st 0x00

/-- The command "flags" (0x82); the quotient is an unsigned 32-bit division. -/
def read_flags (st : SumpState) : Except Fault SumpState :=
  let r := get_uint32 st
  let st : SumpState := { r.2 with flags_ := r.1 }
  if (st.divisor_ + 1) % 4294967296 = 0 then Except.error Fault.division_by_zero
  else if st.flags_ &&& FLAG_DEMUX_MODE ≠ 0 then
    Except.ok { st with capture_config_ := { st.capture_config_ with
      rate := (2 * CLOCK_RATE) / ((st.divisor_ + 1) % 4294967296) } }
  else
    Except.ok { st with capture_config_ := { st.capture_config_ with
      rate := CLOCK_RATE / ((st.divisor_ + 1) % 4294967296) } }

/-- The function `sump_read`. -/
def sump_read (st : SumpState) : Except Fault (command_t × SumpState) :=
  let r := getchar_timeout_us st
  let c := r.1
  let st := r.2
  if c ≠ PICO_ERROR_TIMEOUT then
    if c = 0x00 then Except.ok (command_t.COMMAND_RESET, st)
    else if c = 0x01 then Except.ok (command_t.COMMAND_CAPTURE, prepare_adquisition st)
    else if c = 0x02 then Except.ok (command_t.COMMAND_NONE, put_string st "1ALS")
    else if c = 0x04 then Except.ok (command_t.COMMAND_NONE, send_metadata st)
    else if c = 0xC0 then Except.ok (command_t.COMMAND_NONE,
      read_stage_register st 0 (fun v x => { x with mask := v }))
    else if c = 0xC1 then Except.ok (command_t.COMMAND_NONE,
      read_stage_register st 0 (fun v x => { x with values := v }))
    else if c = 0xC2 then Except.ok (command_t.COMMAND_NONE,
      read_stage_register st 0 (fun v x => { x with configuration := v }))
    else if c = 0xC4 then Except.ok (command_t.COMMAND_NONE,
      read_stage_register st 1 (fun v x => { x with mask := v }))
    else if c = 0xC5 then Except.ok (command_t.COMMAND_NONE,
      read_stage_register st 1 (fun v x => { x with values := v }))
    else if c = 0xC6 then Except.ok (command_t.COMMAND_NONE,
      read_stage_register st 1 (fun v x => { x with configuration := v }))
    else if c = 0xC8 then Except.ok (command_t.COMMAND_NONE,
      read_stage_register st 2 (fun v x => { x with mask := v }))
    else if c = 0xC9 then Except.ok (command_t.COMMAND_NONE,
      read_stage_register st 2 (fun v x => { x with values := v }))
    else if c = 0xCA then Except.ok (command_t.COMMAND_NONE,
      read_stage_register st 2 (fun v x => { x with configuration := v }))
    else if c = 0xCC then Except.ok (command_t.COMMAND_NONE,
      read_stage_register st 3 (fun v x => { x with mask := v }))
    else if c = 0xCD then Except.ok (command_t.COMMAND_NONE,
      read_stage_register st 3 (fun v x => { x with values := v }))
    else if c = 0xCE then Except.ok (command_t.COMMAND_NONE,
      read_stage_register st 3 (fun v x => { x with configuration := v }))
    else if c = 0x80 then
      let r := get_uint32 st
      Except.ok (command_t.COMMAND_NONE, { r.2 with divisor_ := r.1 })
    else if c = 0x81 then
      let r := get_uint32 st
      let total := (r.1 % 65536) * 4 + 4
      Except.ok (command_t.COMMAND_NONE, { r.2 with capture_config_ := { r.2.capture_config_ with
        total_samples := total,
        pre_trigger_samples := u32 ((total : Int) - ((((r.1 >>> 16) * 4 + 4 : Nat) : Int))) } })
    else if c = 0x82 then
      match read_flags st with
      | Except.error e => Except.error e
      | Except.ok st => Except.ok (command_t.COMMAND_NONE, st)
    else if c = 0x83 then
      let r := get_uint32 st
      Except.ok (command_t.COMMAND_NONE,
        { r.2 with capture_config_ := { r.2.capture_config_ with total_samples := r.1 } })
    else if c = 0x84 then
      let r := get_uint32 st
      Except.ok (command_t.COMMAND_NONE, { r.2 with capture_config_ := { r.2.capture_config_ with
        pre_trigger_samples := u32 ((r.2.capture_config_.total_samples : Int)
          - (((r.1 % 65536) * 4 + 4 : Nat) : Int)) } })
    else Except.ok (command_t.COMMAND_NONE, st)
  else Except.ok (command_t.COMMAND_NONE, st)

/-- The function `sump_reset`. -/
def sump_reset (st : SumpState) : SumpState :=
  let cleared := (List.range STAGES_COUNT).foldl
    (fun a i => update_slot a i (fun _ => { mask := 0, values := 0, configuration := 0 }))
    st.sump_trigger_
  { st with sump_trigger_ := cleared }

/-- The function `send_sample`. -/
def send_sample (st : SumpState) (sample : Nat) : SumpState :=
  let st := if st.flags_ &&& FLAG_DISABLE_CHANGROUP_1 = 0 then putchar st sample else st
  if st.flags_ &&& FLAG_DISABLE_CHANGROUP_2 = 0 then putchar st (sample >>> 8) else st

/-- The function `send_sample_rle`. -/
def send_sample_rle (st : SumpState) (sample count : Nat) : SumpState :=
  if st.flags_ &&& FLAG_DISABLE_CHANGROUP_1 ≠ 0 ∨ st.flags_ &&& FLAG_DISABLE_CHANGROUP_2 ≠ 0 then
    let value := ((1 <<< 7) ||| u32 ((count : Int) - 1)) % 256
    let st := putchar st value
    send_sample st sample
  else
    let value := ((1 <<< 15) ||| u32 ((count : Int) - 1)) % 65536
    let st := putchar st value
    let st := putchar st (value >>> 8)
    send_sample st sample

/-- The locals `index`, `sample`, `sample_prev` and `rle_count` of the run-length branch
of `sump_send_samples`. -/
structure rle_locals where
  index : Int
  sample : Nat
  sample_prev : Nat
  rle_count : Nat
  deriving DecidableEq

/-- The `do .. while` loop that counts one run, with `fuel` bounding its iterations. -/
def rle_run (cap : CaptureState) (channelgroup_mask : Nat) (min_index : Int)
    (rle_max_count : Nat) : Nat → rle_locals → Except Fault rle_locals
  | 0, _ => Except.error Fault.out_of_fuel
  | fuel + 1, l =>
    let l : rle_locals :=
      { index := l.index - 1,
        rle_count := (l.rle_count + 1) % 4294967296,
        sample_prev := l.sample,
        sample := get_sample_index cap (l.index - 1) &&& channelgroup_mask }
    if l.sample = l.sample_prev ∧ l.index ≥ min_index ∧ l.rle_count < rle_max_count then
      rle_run cap channelgroup_mask min_index rle_max_count fuel l
    else Except.ok l

/-- The loop `while (index > min_index)` of the run-length branch, with `fuel` bounding
its iterations. -/
def rle_loop (cap : CaptureState) (channelgroup_mask : Nat) (min_index : Int)
    (rle_max_count : Nat) : Nat → rle_locals → SumpState → Except Fault SumpState
  | 0, l, st => if l.index > min_index then Except.error Fault.out_of_fuel else Except.ok st
  | fuel + 1, l, st =>
    if l.index > min_index then
      match sump_read st with
      | Except.error e => Except.error e
      | Except.ok (cmd, st) =>
        if cmd = command_t.COMMAND_RESET then Except.ok st
        else
          match rle_run cap channelgroup_mask min_index rle_max_count rle_max_count
              { l with rle_count := 0 } with
          | Except.error e => Except.error e
          | Except.ok l =>
            rle_loop cap channelgroup_mask min_index rle_max_count fuel l
              (send_sample_rle st l.sample_prev l.rle_count)
    else Except.ok st

/-- The loop `for (i = get_samples_count() - 1; i >= min_index; i--)` of the raw branch,
with `fuel` bounding its iterations. -/
def raw_loop (cap : CaptureState) (min_index : Int) : Nat → Int → SumpState → Except Fault SumpState
  | 0, i, st => if i ≥ min_index then Except.error Fault.out_of_fuel else Except.ok st
  | fuel + 1, i, st =>
    if i ≥ min_index then
      match sump_read st with
      | Except.error e => Except.error e
      | Except.ok (cmd, st) =>
        if cmd = command_t.COMMAND_RESET then Except.ok st
        else raw_loop cap min_index fuel (i - 1) (send_sample st (get_sample_index cap i))
    else Except.ok st

/-- The function `sump_send_samples`.  `uninit` is the indeterminate initial value of the
local `channelgroup_mask`, which the source leaves uninitialised.  Each loop is given the
number of iterations it can make at most as fuel. -/
def sump_send_samples (uninit : Nat) (cap : CaptureState) (st : SumpState) :
    Except Fault SumpState :=
  let min_index : Int :=
    toInt32 (u32 ((get_samples_count cap : Int) - (st.capture_config_.total_samples : Int)))
  if st.flags_ &&& FLAG_RLE ≠ 0 then
    let channelgroup_mask := uninit
    let channelgroup_mask :=
      if st.flags_ &&& FLAG_DISABLE_CHANGROUP_1 = 0 then 0xff else channelgroup_mask
    let channelgroup_mask :=
      if st.flags_ &&& FLAG_DISABLE_CHANGROUP_2 = 0 then channelgroup_mask ||| (0xff <<< 8)
      else channelgroup_mask
    let samples_count : Int := toInt32 (get_samples_count cap)
    let index : Int := samples_count - 1
    let sample := get_sample_index cap index &&& channelgroup_mask
    let rle_max_count :=
      if st.flags_ &&& FLAG_DISABLE_CHANGROUP_1 ≠ 0 ∨ st.flags_ &&& FLAG_DISABLE_CHANGROUP_2 ≠ 0
      then (0xff >>> 1) + 1 else (0xffff >>> 1) + 1
    rle_loop cap channelgroup_mask min_index rle_max_count (index - min_index).toNat
      { index := index, sample := sample, sample_prev := sample, rle_count := 0 } st
  else
    let i : Int := toInt32 (u32 ((get_samples_count cap : Int) - 1))
    raw_loop cap min_index (i - min_index + 1).toNat i st

/-- The decoder of the run-length stream for two enabled channel groups: a 2-byte
little-endian header `0x8000 | (count - 1)` gives `count`, the next 2 bytes give the
value, and the value is put out `count` times; the decoder stops where fewer than four
bytes are left or the header lacks the marker bit. -/
def rle_decode : Nat → List Nat → List Nat
  | fuel + 1, h0 :: h1 :: v0 :: v1 :: rest =>
    if (h0 + 256 * h1) &&& 0x8000 ≠ 0 then
      List.replicate ((h0 + 256 * h1) % 0x8000 + 1) (v0 + 256 * v1) ++ rle_decode fuel rest
    else []
  | _, _ => []

/-- The bytes of one sample in the raw encoding, as the transport is described: the low
byte when channel group 1 is enabled, then the high byte when channel group 2 is enabled. -/
def raw_sample_bytes (flags sample : Nat) : List Nat :=
  (if flags &&& FLAG_DISABLE_CHANGROUP_1 = 0 then [sample % 256] else []) ++
  (if flags &&& FLAG_DISABLE_CHANGROUP_2 = 0 then [sample / 256 % 256] else [])

/-- The engine trigger a parallel stage describes for channel `c`: enabled, on pin `c`,
level-high or level-low after bit `c` of the value register when the edge override is
disabled, edge-high or edge-low when it is enabled. -/
def parallel_trigger (trigger_edge : Bool) (values c : Nat) : trigger_t :=
  { is_enabled := true, pin := c,
    match_ :=
      if trigger_edge then
        (if values.testBit c then trigger_match_t.TRIGGER_TYPE_EDGE_HIGH
         else trigger_match_t.TRIGGER_TYPE_EDGE_LOW)
      else
        (if values.testBit c then trigger_match_t.TRIGGER_TYPE_LEVEL_HIGH
         else trigger_match_t.TRIGGER_TYPE_LEVEL_LOW) }

/-- The engine triggers a parallel stage describes: one per set mask bit among the
channels `first .. first + count - 1`, in ascending order. -/
def parallel_candidates (trigger_edge : Bool) (mask values first count : Nat) : List trigger_t :=
  ((List.range' first count).filter (fun c => mask.testBit c)).map
    (parallel_trigger trigger_edge values)

/-- The engine triggers one stage describes, after the run-command translation of the
specification: nothing unless the mask is non-zero and the configuration has the start
bit and trigger level 0; a parallel stage gives its set mask bits; a serial stage with
mask `0b11` gives one edge-high trigger for the value bits (0,1), one edge-low trigger
for (1,0) and nothing otherwise; a serial stage with mask `0b1` gives one level trigger. -/
def stage_candidates (cfg : config_t) (sg : sump_trigger_t) : List trigger_t :=
  if sg.mask ≠ 0 ∧ sg.configuration &&& TRIGGER_START ≠ 0 ∧
      sg.configuration &&& TRIGGER_LEVEL_MASK = 0 then
    if sg.configuration &&& TRIGGER_SERIAL = 0 then
      parallel_candidates cfg.trigger_edge sg.mask sg.values 0 cfg.channels
    else if sg.mask = 0b11 then
      if sg.values.testBit 0 = false ∧ sg.values.testBit 1 = true then
        [{ is_enabled := true, pin := (sg.configuration &&& TRIGGER_CHANNEL_MASK) >>> 20,
           match_ := trigger_match_t.TRIGGER_TYPE_EDGE_HIGH }]
      else if sg.values.testBit 0 = true ∧ sg.values.testBit 1 = false then
        [{ is_enabled := true, pin := (sg.configuration &&& TRIGGER_CHANNEL_MASK) >>> 20,
           match_ := trigger_match_t.TRIGGER_TYPE_EDGE_LOW }]
      else []
    else if sg.mask = 0b1 then
      [{ is_enabled := true, pin := (sg.configuration &&& TRIGGER_CHANNEL_MASK) >>> 20,
         match_ := if sg.values.testBit 0 then trigger_match_t.TRIGGER_TYPE_LEVEL_HIGH
                   else trigger_match_t.TRIGGER_TYPE_LEVEL_LOW }]
    else []
  else []

/-- The relation between the state `p` of the translation before a step and the state
`r` after it, when the step had the candidate triggers `cands` to add: the array keeps
its four slots, the triggers produced so far are extended by the candidates up to four
in all, and `returned` is set exactly when the fourth trigger is reached. -/
def extends_by (p r : prepare_state) (cands : List trigger_t) : Prop :=
  r.trigger.length = 4 ∧
  r.trigger_count = min 4 (p.trigger_count + cands.length) ∧
  r.trigger.take r.trigger_count
    = p.trigger.take p.trigger_count ++ cands.take (4 - p.trigger_count) ∧
  (r.returned = true ↔ 3 < r.trigger_count)

/-- The candidate triggers of all stage registers, in ascending (stage, channel) order. -/
def all_candidates (st : SumpState) : List trigger_t :=
  st.sump_trigger_.flatMap (stage_candidates st.config_)

/-! ## main.c -/

/-- The function `capture` of `main.c`. -/
def capture (st : SumpState) (cap : CaptureState) : Except Fault CaptureState :=
  capture_start st.capture_config_ st.capture_config_.total_samples st.capture_config_.rate
    st.capture_config_.pre_trigger_samples cap

/-- The dispatch of the main loop on the command `sump_read` returned: a capture is
started, or a busy engine is aborted and the protocol state reset. -/
def main_dispatch (command : command_t) (cap : CaptureState) (st : SumpState) :
    Except Fault (CaptureState × SumpState) :=
  if command = command_t.COMMAND_CAPTURE then
    match capture st cap with
    | Except.error e => Except.error e
    | Except.ok cap => Except.ok (cap, st)
  else if command = command_t.COMMAND_RESET then
    let cap := if capture_is_busy cap then capture_abort cap else cap
    Except.ok (cap, sump_reset st)
  else Except.ok (cap, st)

/-- One poll of the main loop: `sump_read`, then the dispatch on its result. -/
def main_poll (cap : CaptureState) (st : SumpState) : Except Fault (CaptureState × SumpState) :=
  match sump_read st with
  | Except.error e => Except.error e
  | Except.ok (command, st) => main_dispatch command cap st

/-! ## Formats of the specification -/

/-- The four bytes of a 32-bit value, least significant first. -/
def le32 (v : Nat) : List Nat :=
  [v % 256, v / 256 % 256, v / 65536 % 256, v / 16777216 % 256]

/-- The metadata response in which the channel count and the protocol version take one
byte each. -/
def metadata_bytes (channels : Nat) : List Nat :=
  [0x01] ++ "RP2040".toList.map Char.toNat ++ [0x00] ++
  [0x02] ++ "v0.1".toList.map Char.toNat ++ [0x00] ++
  [0x21] ++ le32 200000 ++
  [0x23] ++ le32 200000000 ++
  [0x40, channels % 256] ++
  [0x41, 2] ++
  [0x00]

/-- The metadata response in which every numeric field, the channel count and the
protocol version included, takes four bytes, least significant first. -/
def metadata_bytes_wide (channels : Nat) : List Nat :=
  [0x01] ++ "RP2040".toList.map Char.toNat ++ [0x00] ++
  [0x02] ++ "v0.1".toList.map Char.toNat ++ [0x00] ++
  [0x21] ++ le32 200000 ++
  [0x23] ++ le32 200000000 ++
  [0x40] ++ le32 channels ++
  [0x41] ++ le32 2 ++
  [0x00]

/-- A capture engine at rest, before any capture. -/
def idle_capture : CaptureState :=
  { pre_trigger_samples_ := 0, post_trigger_samples_ := 0, pre_trigger_count_ := 0,
    pre_trigger_first_ := 0, trigger_count_ := 0, sm_trigger_mask_ := 0, rate_ := 0,
    clk_div_ := 0, pre_trigger_buffer_ := fun _ => 0, post_trigger_buffer_ := fun _ => 0,
    is_capturing_ := false, is_aborting_ := false, clk_sys := 100000000,
    transfer_count := 0xffffffff, sm_enabled := false, armed := [], handler_calls := 0 }

/-- A completed capture of two post-trigger samples, 5 then 7, with no pre-trigger
samples; the rest of the post-trigger buffer still holds the word 0xABCD of an earlier,
longer capture. -/
def two_sample_capture : CaptureState :=
  { idle_capture with
    post_trigger_samples_ := 2,
    post_trigger_buffer_ := fun k => if k = 0 then 5 else if k = 1 then 7 else 0xABCD }

/-- A capture interrupted after 1500 words went into the ring, 1000 pre-trigger samples
requested; word number `n` has the value `n mod 65536`. -/
def wrapped_capture : CaptureState :=
  { idle_capture with
    pre_trigger_samples_ := 1000, post_trigger_samples_ := 8, is_capturing_ := true,
    sm_enabled := true, transfer_count := 0xffffffff - 1500,
    pre_trigger_buffer_ := ring_after (fun n => n % 65536) (fun _ => 0) 1500 }

/-- The protocol state after start-up: registers zero, sixteen channels, no trigger, no
pending input. -/
def idle_sump : SumpState :=
  { divisor_ := 0, flags_ := 0,
    sump_trigger_ := List.replicate 4 { mask := 0, values := 0, configuration := 0 },
    capture_config_ :=
      { total_samples := 0, rate := 0, pre_trigger_samples := 0, channels := CHANNEL_COUNT,
        trigger := List.replicate 4
          { is_enabled := false, pin := 0, match_ := trigger_match_t.TRIGGER_TYPE_LEVEL_LOW } },
    config_ := { channels := CHANNEL_COUNT, trigger_edge := false, debug := false },
    input := [], output := [] }

/-- A request for `total` samples with the flags word `flags`. -/
def sample_request (flags total : Nat) : SumpState :=
  { idle_sump with
    flags_ := flags,
    capture_config_ := { idle_sump.capture_config_ with total_samples := total } }

/-- The protocol state after start-up in which stage `stage` holds the registers of a
serial stage on channel 5 (start bit, trigger level 0, serial bit) with the given mask and
values. -/
def serial_stage_request (stage mask values : Nat) : SumpState :=
  { idle_sump with
    sump_trigger_ := update_slot idle_sump.sump_trigger_ stage
      (fun _ => { mask := mask, values := values,
                  configuration := TRIGGER_START ||| TRIGGER_SERIAL ||| (5 <<< 20) }) }

/-- The protocol state after start-up with two parallel stages (start bit, trigger level
0): stage 0 with mask `0b111` and values `0b101`, stage 2 with mask `0b11000` and values
`0b01000`; five set mask bits in all. -/
def five_bit_request : SumpState :=
  { idle_sump with
    sump_trigger_ :=
      [{ mask := 0b111, values := 0b101, configuration := TRIGGER_START },
       { mask := 0, values := 0, configuration := 0 },
       { mask := 0b11000, values := 0b01000, configuration := TRIGGER_START },
       { mask := 0, values := 0, configuration := 0 }] }

/-- The protocol state after start-up with the sample counts `total` and `pre` stored
and the outcomes `input` pending on the link. -/
def size_request (total pre : Nat) (input : List (Option Nat)) : SumpState :=
  { idle_sump with
    capture_config_ :=
      { idle_sump.capture_config_ with total_samples := total, pre_trigger_samples := pre },
    input := input }

/-- The start of a capture of 8 samples at 1000 Hz, 3 of them before the trigger, with no
trigger configured. -/
def start_event : engine_event :=
  engine_event.start idle_sump.capture_config_ 8 1000 3

/-- The protocol state after start-up with one parallel stage (start bit, trigger level
0) on stage 0: mask `0b11` and values `0b01`, two set mask bits. -/
def two_bit_request : SumpState :=
  { idle_sump with
    sump_trigger_ :=
      [{ mask := 0b11, values := 0b01, configuration := TRIGGER_START },
       { mask := 0, values := 0, configuration := 0 },
       { mask := 0, values := 0, configuration := 0 },
       { mask := 0, values := 0, configuration := 0 }] }

/-- The protocol state of a second run: the trigger array is the one the run command
left for `two_bit_request`, the stage registers are zero but for stage `stage`, a parallel
stage (start bit, trigger level 0) with mask `0b100` and values 0. -/
def second_run_request (stage : Nat) : SumpState :=
  { prepare_adquisition two_bit_request with
    sump_trigger_ := update_slot
      (List.replicate 4 { mask := 0, values := 0, configuration := 0 }) stage
      (fun _ => { mask := 0b100, values := 0, configuration := TRIGGER_START }) }

/-- The protocol state after start-up with one parallel stage (start bit, trigger level
0) on stage 0 with mask `0b1111` and values `0b0101`, four set mask bits, and the run
command pending on the link. -/
def four_bit_run : SumpState :=
  { idle_sump with
    sump_trigger_ :=
      [{ mask := 0b1111, values := 0b0101, configuration := TRIGGER_START },
       { mask := 0, values := 0, configuration := 0 },
       { mask := 0, values := 0, configuration := 0 },
       { mask := 0, values := 0, configuration := 0 }],
    input := [some 0x01] }

theorem PRE_TRIGGER_BUFFER_SIZE_eq : PRE_TRIGGER_BUFFER_SIZE = 1024 := rfl

/-- A slot of the ring holds the last word written to it. -/
theorem ring_after_recent (words : Nat → Nat) (buf : Int → Nat) (w n : Nat)
    (hn : n < w) (hw : w ≤ n + 1024) :
    ring_after words buf w ((n % 1024 : Nat) : Int) = words n := by
  induction w with
  | zero => omega
  | succ k ih =>
    simp only [ring_after, ring_write, PRE_TRIGGER_BUFFER_SIZE_eq]
    by_cases hk : n = k
    · subst hk
      simp
    · have h1 : n < k := by omega
      have h2 : (n % 1024) ≠ (k % 1024) := by omega
      have h3 : ¬ (((n % 1024 : Nat) : Int) = ((k % 1024 : Nat) : Int)) := by
        intro h
        exact h2 (by exact_mod_cast h)
      rw [if_neg h3]
      exact ih h1 (by omega)

theorem u32_eq (x : Int) (h0 : 0 ≤ x) (h1 : x < 4294967296) : ((u32 x : Nat) : Int) = x := by
  unfold u32
  omega

theorem toInt32_u32 (x : Int) (h0 : -2147483648 ≤ x) (h1 : x < 2147483648) :
    toInt32 (u32 x) = x := by
  unfold toInt32 u32
  split <;> omega

/-- The window `capture_complete_handler` records, for `w` words written since arming. -/
theorem handler_window (s : CaptureState) (w : Nat) (hw : w ≤ 0xffffffff)
    (htc : s.transfer_count = 0xffffffff - w) (hpts : s.pre_trigger_samples_ ≤ 1024)
    (hab : s.is_aborting_ = false) :
    ((s.pre_trigger_samples_ ≤ w →
        (capture_complete_handler s).pre_trigger_count_ = s.pre_trigger_samples_ ∧
        (capture_complete_handler s).pre_trigger_first_
          = ((w % 1024 : Nat) : Int) - (s.pre_trigger_samples_ : Int)) ∧
      (w < s.pre_trigger_samples_ →
        (capture_complete_handler s).pre_trigger_count_ = w ∧
        (capture_complete_handler s).pre_trigger_first_ = 0)) ∧
    (capture_complete_handler s).pre_trigger_buffer_ = s.pre_trigger_buffer_ ∧
    (capture_complete_handler s).post_trigger_buffer_ = s.post_trigger_buffer_ ∧
    (capture_complete_handler s).post_trigger_samples_ = s.post_trigger_samples_ := by
  have hwr : u32 (0xffffffff - ((0xffffffff - w : Nat) : Int)) = w := by
    unfold u32
    omega
  have hfirst : toInt32 (u32 (((w % 1024 : Nat) : Int) - (s.pre_trigger_samples_ : Int)))
      = ((w % 1024 : Nat) : Int) - (s.pre_trigger_samples_ : Int) := by
    apply toInt32_u32 <;> omega
  obtain ⟨pts, post, cnt, fst, tc, mask, rate, clk, pre, postb, cap, ab, sys, tcount, sm,
    armed, calls⟩ := s
  simp only at htc hab hpts hfirst
  subst htc hab
  simp only [capture_complete_handler, capture_stop, PRE_TRIGGER_BUFFER_SIZE_eq]
  by_cases hc : sys = 100000000
  · simp only [hc, ne_eq, not_true_eq_false, if_false, Bool.not_false, if_true, hwr, hfirst]
    by_cases hlt : ((w % 1024 : Nat) : Int) - (pts : Int) < 0 ∧ w < 1024
    · rw [if_pos hlt]
      refine ⟨⟨fun h => ?_, fun h => ?_⟩, rfl, rfl, rfl⟩
      · dsimp only at h ⊢
        constructor <;> omega
      · dsimp only at h ⊢
        constructor <;> omega
    · rw [if_neg hlt]
      refine ⟨⟨fun h => ?_, fun h => ?_⟩, rfl, rfl, rfl⟩
      · dsimp only at h ⊢
        constructor <;> omega
      · dsimp only at h ⊢
        constructor <;> omega
  · simp only [hc, ne_eq, not_false_eq_true, if_true, Bool.not_false, hwr, hfirst]
    by_cases hlt : ((w % 1024 : Nat) : Int) - (pts : Int) < 0 ∧ w < 1024
    · rw [if_pos hlt]
      refine ⟨⟨fun h => ?_, fun h => ?_⟩, rfl, rfl, rfl⟩
      · dsimp only at h ⊢
        constructor <;> omega
      · dsimp only at h ⊢
        constructor <;> omega
    · rw [if_neg hlt]
      refine ⟨⟨fun h => ?_, fun h => ?_⟩, rfl, rfl, rfl⟩
      · dsimp only at h ⊢
        constructor <;> omega
      · dsimp only at h ⊢
        constructor <;> omega

theorem u32_natCast (i : Nat) (h : i < 4294967296) : u32 (i : Int) = i := by
  unfold u32
  omega

/-- A logical index below the pre-trigger count is read from the ring. -/
theorem get_sample_read_pre (s : CaptureState) (i : Nat) (hi : i < s.pre_trigger_count_)
    (hcnt : s.pre_trigger_count_ + s.post_trigger_samples_ < 4294967296) :
    get_sample_read s (i : Int) =
      if s.pre_trigger_first_ + (i : Int) < 0 then
        sample_read.pre (1024 + s.pre_trigger_first_ + (i : Int))
      else if s.pre_trigger_first_ + (i : Int) > 1024 then
        sample_read.pre (s.pre_trigger_first_ + (i : Int) - 1024)
      else sample_read.pre (s.pre_trigger_first_ + (i : Int)) := by
  have hu : u32 (i : Int) = i := u32_natCast i (by omega)
  have h1 : ¬ ((i : Int) < 0 ∨
      u32 (i : Int) > (s.pre_trigger_count_ + s.post_trigger_samples_) % 4294967296) := by
    rw [hu]
    omega
  have h2 : u32 (i : Int) < s.pre_trigger_count_ := by
    rw [hu]
    exact hi
  unfold get_sample_read
  rw [if_neg h1, if_pos h2]
  simp only [PRE_TRIGGER_BUFFER_SIZE_eq, Nat.cast_ofNat]

/-- C3: after `capture_complete_handler` (not aborting) on a ring that received `w` words,
`get_sample_index i` for `i` below `get_pre_trigger_count` is the word number
`w - get_pre_trigger_count + i`; it is read from a slot inside the ring, and
`pre_trigger_first_ + i` stays below the ring size, so that a window across the end of
the ring always shows as a negative `pre_trigger_first_`. -/
theorem ring_read_back (s : CaptureState) (words : Nat → Nat) (buf : Int → Nat) (w : Nat)
    (hw : w ≤ 0xffffffff) (htc : s.transfer_count = 0xffffffff - w)
    (hpts : s.pre_trigger_samples_ ≤ PRE_TRIGGER_BUFFER_SIZE)
    (hpost : s.post_trigger_samples_ ≤ POST_TRIGGER_BUFFER_SIZE)
    (hab : s.is_aborting_ = false)
    (hbuf : s.pre_trigger_buffer_ = ring_after words buf w)
    (i : Nat) (hi : i < get_pre_trigger_count (capture_complete_handler s)) :
    get_sample_index (capture_complete_handler s) (i : Int)
      = words (w - get_pre_trigger_count (capture_complete_handler s) + i) ∧
    (∃ slot : Nat, slot < PRE_TRIGGER_BUFFER_SIZE ∧
      get_sample_read (capture_complete_handler s) (i : Int) = sample_read.pre (slot : Int)) ∧
    (capture_complete_handler s).pre_trigger_first_ + (i : Int) < PRE_TRIGGER_BUFFER_SIZE := by
  simp only [PRE_TRIGGER_BUFFER_SIZE_eq, POST_TRIGGER_BUFFER_SIZE] at hpts hpost ⊢
  obtain ⟨⟨hfull, hshort⟩, hpre, -, hps⟩ := handler_window s w hw htc hpts hab
  unfold get_pre_trigger_count at hi ⊢
  have hcount : (capture_complete_handler s).pre_trigger_count_ ≤ 1024 := by
    by_cases h : s.pre_trigger_samples_ ≤ w
    · rw [(hfull h).1]
      exact hpts
    · rw [(hshort (by omega)).1]
      omega
  have hcw : (capture_complete_handler s).pre_trigger_count_ ≤ w := by
    by_cases h : s.pre_trigger_samples_ ≤ w
    · rw [(hfull h).1]
      exact h
    · rw [(hshort (by omega)).1]
  have hslot : (if (capture_complete_handler s).pre_trigger_first_ + (i : Int) < 0 then
        sample_read.pre (1024 + (capture_complete_handler s).pre_trigger_first_ + (i : Int))
      else if (capture_complete_handler s).pre_trigger_first_ + (i : Int) > 1024 then
        sample_read.pre ((capture_complete_handler s).pre_trigger_first_ + (i : Int) - 1024)
      else sample_read.pre ((capture_complete_handler s).pre_trigger_first_ + (i : Int)))
      = sample_read.pre
          (((w - (capture_complete_handler s).pre_trigger_count_ + i) % 1024 : Nat) : Int) := by
    by_cases h : s.pre_trigger_samples_ ≤ w
    · obtain ⟨h1, h2⟩ := hfull h
      rw [h1] at hi
      rw [h1, h2]
      split_ifs <;> congr 1 <;> omega
    · obtain ⟨h1, h2⟩ := hshort (by omega)
      rw [h1] at hi
      rw [h1, h2]
      split_ifs <;> congr 1 <;> omega
  have hread := get_sample_read_pre (capture_complete_handler s) i hi (by rw [hps]; omega)
  rw [hslot] at hread
  refine ⟨?_, ?_, ?_⟩
  · unfold get_sample_index
    rw [hread]
    simp only
    rw [hpre, hbuf]
    exact ring_after_recent words buf w _ (by omega) (by omega)
  · exact ⟨(w - (capture_complete_handler s).pre_trigger_count_ + i) % 1024,
      Nat.mod_lt _ (by norm_num), hread⟩
  · by_cases h : s.pre_trigger_samples_ ≤ w
    · obtain ⟨h1, h2⟩ := hfull h
      rw [h1] at hi
      rw [h2]
      omega
    · obtain ⟨h1, h2⟩ := hshort (by omega)
      rw [h1] at hi
      rw [h2]
      omega

/-- C3 at a capture with 1500 words written and 1000 requested, for logical index 700,
which lies past the wrap of the ring. -/
theorem ring_read_back_witness :
    get_sample_index (capture_complete_handler wrapped_capture) ((700 : Nat) : Int)
      = (fun n => n % 65536)
          (1500 - get_pre_trigger_count (capture_complete_handler wrapped_capture) + 700) ∧
    (∃ slot : Nat, slot < PRE_TRIGGER_BUFFER_SIZE ∧
      get_sample_read (capture_complete_handler wrapped_capture) ((700 : Nat) : Int)
        = sample_read.pre (slot : Int)) ∧
    (capture_complete_handler wrapped_capture).pre_trigger_first_ + ((700 : Nat) : Int)
      < PRE_TRIGGER_BUFFER_SIZE :=
  ring_read_back wrapped_capture (fun n => n % 65536) (fun _ => 0) 1500 (by decide) rfl
    (by decide) (by decide) rfl rfl 700 (by decide)

/-- C4: `capture_complete_handler` (not aborting) delivers `pre_trigger_samples_`
pre-trigger samples when at least that many words were written, and the `w` written
words from slot 0 on otherwise; it never delivers more than `w`. -/
theorem pre_trigger_underrun (s : CaptureState) (w : Nat) (hw : w ≤ 0xffffffff)
    (htc : s.transfer_count = 0xffffffff - w)
    (hpts : s.pre_trigger_samples_ ≤ PRE_TRIGGER_BUFFER_SIZE)
    (hab : s.is_aborting_ = false) :
    (s.pre_trigger_samples_ ≤ w →
      get_pre_trigger_count (capture_complete_handler s) = s.pre_trigger_samples_) ∧
    (w < s.pre_trigger_samples_ →
      get_pre_trigger_count (capture_complete_handler s) = w ∧
      (capture_complete_handler s).pre_trigger_first_ = 0) ∧
    get_pre_trigger_count (capture_complete_handler s) ≤ w := by
  simp only [PRE_TRIGGER_BUFFER_SIZE_eq] at hpts
  obtain ⟨⟨hfull, hshort⟩, -, -, -⟩ := handler_window s w hw htc hpts hab
  unfold get_pre_trigger_count
  refine ⟨fun h => (hfull h).1, hshort, ?_⟩
  by_cases h : s.pre_trigger_samples_ ≤ w
  · rw [(hfull h).1]
    exact h
  · rw [(hshort (by omega)).1]

/-- C4 at an underrun: 300 words written, 1000 requested. -/
theorem pre_trigger_underrun_witness :
    ((1000 ≤ 300 →
      get_pre_trigger_count (capture_complete_handler
        { wrapped_capture with transfer_count := 0xffffffff - 300 }) = 1000) ∧
    (300 < 1000 →
      get_pre_trigger_count (capture_complete_handler
        { wrapped_capture with transfer_count := 0xffffffff - 300 }) = 300 ∧
      (capture_complete_handler
        { wrapped_capture with transfer_count := 0xffffffff - 300 }).pre_trigger_first_ = 0) ∧
    get_pre_trigger_count (capture_complete_handler
        { wrapped_capture with transfer_count := 0xffffffff - 300 }) ≤ 300) :=
  pre_trigger_underrun { wrapped_capture with transfer_count := 0xffffffff - 300 } 300
    (by decide) rfl (by decide) rfl

/-- An index outside `0 .. get_samples_count` reads no buffer and yields 0. -/
theorem get_sample_index_outside (s : CaptureState) (index : Int)
    (hidx : index < 0 ∨ (get_samples_count s : Int) < index) (hmax : index < 2147483648) :
    get_sample_read s index = sample_read.zero ∧ get_sample_index s index = 0 := by
  have h : get_sample_read s index = sample_read.zero := by
    unfold get_sample_read
    rw [if_pos]
    unfold get_samples_count at hidx
    rcases hidx with h | h
    · exact Or.inl h
    · right
      unfold u32
      omega
  exact ⟨h, by unfold get_sample_index; rw [h]⟩

/-- C5 (defect): the index `get_samples_count`, the first one past the valid range, is not
rejected.  On a capture of two samples, index 2 reads `post_trigger_buffer_[2]` and
returns the stale word found there instead of 0. -/
theorem get_sample_index_at_count :
    get_samples_count two_sample_capture = 2 ∧
    get_sample_read two_sample_capture 2 = sample_read.post 2 ∧
    get_sample_index two_sample_capture 2 = 0xABCD := by
  decide

/-! ## Sample transport -/

/-- A poll of the link on which no byte arrives returns "no command". -/
theorem sump_read_quiet (st : SumpState) (hq : ∀ o ∈ st.input, o = none) :
    sump_read st = Except.ok (command_t.COMMAND_NONE, { st with input := st.input.tail }) := by
  obtain ⟨d, f, sg, cc, cfg, inp, out⟩ := st
  cases inp with
  | nil => simp [sump_read, getchar_timeout_us]
  | cons o rest =>
    have ho : o = none := hq o (by simp)
    subst ho
    simp [sump_read, getchar_timeout_us]

theorem send_sample_eq (st : SumpState) (sample : Nat) :
    send_sample st sample
      = { st with output := st.output ++ raw_sample_bytes st.flags_ sample } := by
  unfold send_sample raw_sample_bytes putchar
  by_cases h1 : st.flags_ &&& FLAG_DISABLE_CHANGROUP_1 = 0 <;>
    by_cases h2 : st.flags_ &&& FLAG_DISABLE_CHANGROUP_2 = 0 <;>
    simp [h1, h2, Nat.shiftRight_eq_div_pow]

/-- The raw loop on a silent link sends the `n` samples from index `i` downwards. -/
theorem raw_loop_quiet (cap : CaptureState) (min_index : Int) (n : Nat) :
    ∀ (i : Int) (st : SumpState), (∀ o ∈ st.input, o = none) → i = min_index + n - 1 →
      raw_loop cap min_index n i st = Except.ok
        { st with
          input := st.input.drop n,
          output := st.output ++ (List.range n).flatMap
            (fun k => raw_sample_bytes st.flags_ (get_sample_index cap (i - (k : Int)))) } := by
  induction n with
  | zero =>
    intro i st _ hi
    have h : ¬ i ≥ min_index := by omega
    simp [raw_loop, h]
  | succ n ih =>
    intro i st hq hi
    have h : i ≥ min_index := by omega
    have hq2 : ∀ o ∈ (send_sample { st with input := st.input.tail }
        (get_sample_index cap i)).input, o = none := by
      intro o ho
      rw [send_sample_eq] at ho
      exact hq o (List.mem_of_mem_tail ho)
    rw [raw_loop, if_pos h, sump_read_quiet st hq]
    simp only [reduceCtorEq, if_false]
    rw [ih (i - 1) _ hq2 (by omega)]
    rw [send_sample_eq]
    simp only [List.range_succ_eq_map, List.flatMap_cons, List.flatMap_map, Function.comp_def,
      List.append_assoc, List.drop_succ_cons, Nat.cast_zero, sub_zero, Nat.cast_succ,
      Nat.cast_add, Nat.cast_one, List.tail_drop, List.drop_tail]
    have hf : (fun k : Nat => raw_sample_bytes st.flags_ (get_sample_index cap (i - 1 - (k : Int))))
        = fun a : Nat => raw_sample_bytes st.flags_ (get_sample_index cap (i - ((a : Int) + 1))) := by
      funext k
      congr 2
      omega
    rw [hf]

/-- With channel group 1 enabled the uninitialised local is overwritten before use. -/
theorem sump_send_samples_uninit (uninit : Nat) (cap : CaptureState) (st : SumpState)
    (h : st.flags_ &&& FLAG_DISABLE_CHANGROUP_1 = 0) :
    sump_send_samples uninit cap st = sump_send_samples 0 cap st := by
  unfold sump_send_samples
  simp only [h, if_true]

/-- C1 (defect): the run-length branch leaves out the oldest sample, the one at index
`get_samples_count - total_samples`, whenever it does not continue the run before it.
For the two captured samples 5 and 7, RLE flag set and both channel groups enabled, the
bytes sent decode to `[7]` while the samples from newest to oldest are `[7, 5]`; and a
transfer of a single sample sends nothing at all. -/
theorem rle_oldest_sample_dropped (uninit : Nat) :
    Except.map SumpState.output
        (sump_send_samples uninit two_sample_capture (sample_request 0x100 2))
      = Except.ok [0x00, 0x80, 0x07, 0x00] ∧
    rle_decode 4 [0x00, 0x80, 0x07, 0x00] = [7] ∧
    (List.range 2).map (fun k => get_sample_index two_sample_capture
        ((get_samples_count two_sample_capture : Int) - 1 - (k : Int))) = [7, 5] ∧
    Except.map SumpState.output
        (sump_send_samples uninit two_sample_capture (sample_request 0x100 1))
      = Except.ok [] := by
  rw [sump_send_samples_uninit uninit _ _ (by decide),
    sump_send_samples_uninit uninit _ _ (by decide)]
  exact ⟨rfl, rfl, rfl, rfl⟩

/-- C2, as amended: with the RLE flag clear, a silent link and `total_samples` below
`2^31`, `sump_send_samples` sends the `total_samples` samples
`get_sample_index (get_samples_count - 1 - k)`, `k` from 0, each as the bytes of its
enabled channel groups, and consumes one poll per sample; a negative logical index is
sent as the sample 0. -/
theorem raw_transport (uninit : Nat) (cap : CaptureState) (st : SumpState)
    (hrle : st.flags_ &&& FLAG_RLE = 0) (hq : ∀ o ∈ st.input, o = none)
    (hpre : cap.pre_trigger_count_ ≤ PRE_TRIGGER_BUFFER_SIZE)
    (hpost : cap.post_trigger_samples_ ≤ POST_TRIGGER_BUFFER_SIZE)
    (htot : st.capture_config_.total_samples < 2147483648) :
    sump_send_samples uninit cap st = Except.ok
      { st with
        input := st.input.drop st.capture_config_.total_samples,
        output := st.output ++ (List.range st.capture_config_.total_samples).flatMap
          (fun k => raw_sample_bytes st.flags_
            (get_sample_index cap ((get_samples_count cap : Int) - 1 - (k : Int)))) } ∧
    ∀ i : Int, i < 0 → get_sample_index cap i = 0 := by
  simp only [PRE_TRIGGER_BUFFER_SIZE_eq, POST_TRIGGER_BUFFER_SIZE] at hpre hpost
  have hcount : get_samples_count cap = cap.pre_trigger_count_ + cap.post_trigger_samples_ := by
    unfold get_samples_count
    omega
  have hi : toInt32 (u32 ((get_samples_count cap : Int) - 1)) = (get_samples_count cap : Int) - 1 :=
    toInt32_u32 _ (by omega) (by omega)
  have hmin : toInt32 (u32 ((get_samples_count cap : Int) - (st.capture_config_.total_samples : Int)))
      = (get_samples_count cap : Int) - (st.capture_config_.total_samples : Int) :=
    toInt32_u32 _ (by omega) (by omega)
  constructor
  · unfold sump_send_samples
    simp only [hrle, ne_eq, not_true_eq_false, if_false, hi, hmin]
    have hfuel : ((get_samples_count cap : Int) - 1
        - ((get_samples_count cap : Int) - (st.capture_config_.total_samples : Int)) + 1).toNat
        = st.capture_config_.total_samples := by omega
    rw [hfuel]
    exact raw_loop_quiet cap _ _ _ st hq (by omega)
  · intro i hneg
    exact (get_sample_index_outside cap i (Or.inl hneg) (by omega)).2

/-- C2, as amended, on the capture of the samples 5 and 7 with four samples requested:
the two captured samples go out newest first, followed by two zero samples. -/
theorem raw_transport_witness :
    sump_send_samples 0 two_sample_capture (sample_request 0 4) = Except.ok
      { sample_request 0 4 with
        input := (sample_request 0 4).input.drop (sample_request 0 4).capture_config_.total_samples,
        output := (sample_request 0 4).output ++
          (List.range (sample_request 0 4).capture_config_.total_samples).flatMap
            (fun k => raw_sample_bytes (sample_request 0 4).flags_
              (get_sample_index two_sample_capture
                ((get_samples_count two_sample_capture : Int) - 1 - (k : Int)))) } ∧
    ∀ i : Int, i < 0 → get_sample_index two_sample_capture i = 0 :=
  raw_transport 0 two_sample_capture (sample_request 0 4) (by decide) (by decide) (by decide)
    (by decide) (by decide)

/-- C2 fails for a sample count of `2^31` or more, which the size command 0x83 stores
like any other: with 3000000000 samples requested of the capture of the samples 5 and 7,
`min_index = 2 - 3000000000` wraps to the positive `int` 1294967298, the loop condition
`i >= min_index` fails at once and no sample is sent, on a silent link with the RLE flag
clear. -/
theorem raw_transport_total_wrap :
    (sample_request 0 3000000000).flags_ &&& FLAG_RLE = 0 ∧
    (sample_request 0 3000000000).input = [] ∧
    (sample_request 0 3000000000).capture_config_.total_samples = 3000000000 ∧
    toInt32 (u32 ((get_samples_count two_sample_capture : Int) - (3000000000 : Nat)))
      = 1294967298 ∧
    sump_send_samples 0 two_sample_capture (sample_request 0 3000000000)
      = Except.ok (sample_request 0 3000000000) ∧
    Except.map SumpState.output
        (sump_send_samples 0 two_sample_capture (sample_request 0 3000000000))
      = Except.ok [] ∧
    (List.range 2).flatMap
        (fun k => raw_sample_bytes 0 (get_sample_index two_sample_capture
          ((get_samples_count two_sample_capture : Int) - 1 - (k : Int))))
      = [7, 0, 5, 0] := by
  refine ⟨by decide, rfl, rfl, by decide, rfl, rfl, by decide⟩

/-! ## Stage translation -/

/-- C6 (defect): a serial stage with mask `0b11` whose two value bits are `00` or `11`
enables the slot before it looks at the values and never disables it again, so that on
the last stage the engine arms a trigger with a stale match, where the same registers
with mask zero arm none.  On an earlier stage the next stage clears the slot. -/
theorem serial_edge_last_stage_phantom :
    Except.map CaptureState.armed
        (capture_start (prepare_adquisition (serial_stage_request 3 0b11 0b00)).capture_config_
          8 1000 3 idle_capture)
      = Except.ok [{ is_enabled := true, pin := 5,
                     match_ := trigger_match_t.TRIGGER_TYPE_LEVEL_LOW }] ∧
    Except.map CaptureState.armed
        (capture_start (prepare_adquisition (serial_stage_request 3 0b11 0b11)).capture_config_
          8 1000 3 idle_capture)
      = Except.ok [{ is_enabled := true, pin := 5,
                     match_ := trigger_match_t.TRIGGER_TYPE_LEVEL_LOW }] ∧
    Except.map CaptureState.armed
        (capture_start (prepare_adquisition (serial_stage_request 3 0 0b00)).capture_config_
          8 1000 3 idle_capture)
      = Except.ok [] ∧
    Except.map CaptureState.armed
        (capture_start (prepare_adquisition (serial_stage_request 2 0b11 0b00)).capture_config_
          8 1000 3 idle_capture)
      = Except.ok [] :=
  ⟨rfl, rfl, rfl, rfl⟩

theorem shiftRight_and_one (m c : Nat) : ((m >>> c) &&& 1 ≠ 0) ↔ m.testBit c = true := by
  rw [Nat.testBit_to_div_mod, Nat.shiftRight_eq_div_pow, Nat.and_one_is_mod]
  simp only [ne_eq, decide_eq_true_eq]
  omega

theorem update_slot_length {α : Type} (l : List α) (i : Nat) (f : α → α) :
    (update_slot l i f).length = l.length := by
  induction l generalizing i with
  | nil => rfl
  | cons x xs ih =>
    cases i with
    | zero => rfl
    | succ i => simp [update_slot, ih]

theorem update_slot_comp {α : Type} (l : List α) (i : Nat) (f g : α → α) :
    update_slot (update_slot l i f) i g = update_slot l i (fun x => g (f x)) := by
  induction l generalizing i with
  | nil => rfl
  | cons x xs ih =>
    cases i with
    | zero => rfl
    | succ i => simp [update_slot, ih]

theorem update_slot_take {α : Type} (l : List α) (i j : Nat) (f : α → α) (h : j ≤ i) :
    (update_slot l i f).take j = l.take j := by
  induction l generalizing i j with
  | nil => rfl
  | cons x xs ih =>
    cases i with
    | zero =>
      have : j = 0 := by omega
      subst this
      rfl
    | succ i =>
      cases j with
      | zero => rfl
      | succ j => simp [update_slot, ih i j (by omega)]

theorem update_slot_take_succ {α : Type} (l : List α) (i : Nat) (c : α) (h : i < l.length) :
    (update_slot l i (fun _ => c)).take (i + 1) = l.take i ++ [c] := by
  induction l generalizing i with
  | nil => simp at h
  | cons x xs ih =>
    cases i with
    | zero => simp [update_slot]
    | succ i =>
      simp only [List.length_cons, Nat.add_lt_add_iff_right] at h
      simp [update_slot, ih i h]

/-- The three assignments of a parallel trigger amount to one write of the slot. -/
theorem set_parallel_trigger_eq (trigger_edge : Bool) (values c : Nat) (p : prepare_state) :
    set_parallel_trigger trigger_edge values c p =
      { p with
        trigger := update_slot p.trigger p.trigger_count
          (fun _ => parallel_trigger trigger_edge values c),
        trigger_count := p.trigger_count + 1 } := by
  unfold set_parallel_trigger parallel_trigger
  have hv := shiftRight_and_one values c
  by_cases hb : values.testBit c = true
  · have h1 : (values >>> c) &&& 1 ≠ 0 := hv.mpr hb
    cases trigger_edge <;>
      simp only [h1, hb, if_true, ne_eq, not_false_eq_true, Bool.not_false, Bool.not_true,
        update_slot_comp, Bool.false_eq_true, if_false]
  · have h1 : ¬ ((values >>> c) &&& 1 ≠ 0) := fun h => hb (hv.mp h)
    cases trigger_edge <;>
      simp only [h1, hb, if_true, ne_eq, not_false_eq_true, Bool.not_false, Bool.not_true,
        update_slot_comp, Bool.false_eq_true, if_false]

theorem parallel_candidates_zero (te : Bool) (mask values c : Nat) :
    parallel_candidates te mask values c 0 = [] := rfl

theorem parallel_candidates_succ (te : Bool) (mask values c n : Nat) :
    parallel_candidates te mask values c (n + 1) =
      if mask.testBit c = true then
        parallel_trigger te values c :: parallel_candidates te mask values (c + 1) n
      else parallel_candidates te mask values (c + 1) n := by
  unfold parallel_candidates
  rw [List.range'_succ, List.filter_cons]
  split <;> simp

/-- The channel loop of a parallel stage appends the triggers of the set mask bits to the
triggers produced so far, up to four in all, and returns once the fourth is written. -/
theorem parallel_channels_spec (te : Bool) (mask values : Nat) (n : Nat) :
    ∀ (c : Nat) (p : prepare_state), p.trigger.length = 4 → p.trigger_count < 4 →
      p.returned = false →
      (parallel_channels te mask values n c p).trigger.length = 4 ∧
      (parallel_channels te mask values n c p).trigger_count
        = min 4 (p.trigger_count + (parallel_candidates te mask values c n).length) ∧
      (parallel_channels te mask values n c p).trigger.take
          (parallel_channels te mask values n c p).trigger_count
        = p.trigger.take p.trigger_count
          ++ (parallel_candidates te mask values c n).take (4 - p.trigger_count) ∧
      ((parallel_channels te mask values n c p).returned = true ↔
        3 < (parallel_channels te mask values n c p).trigger_count) := by
  induction n with
  | zero =>
    intro c p hl ht hr
    simp only [parallel_channels, parallel_candidates_zero, List.length_nil, Nat.add_zero,
      List.take_nil, List.append_nil, hr]
    refine ⟨hl, by omega, trivial, ?_⟩
    constructor
    · intro h
      cases h
    · intro h
      omega
  | succ n ih =>
    intro c p hl ht hr
    rw [parallel_channels, parallel_candidates_succ]
    by_cases hb : mask.testBit c = true
    · have h1 : (mask >>> c) &&& 1 ≠ 0 := (shiftRight_and_one mask c).mpr hb
      rw [if_pos h1, if_pos hb, set_parallel_trigger_eq]
      by_cases h3 : p.trigger_count + 1 > 3
      · have h4 : p.trigger_count = 3 := by omega
        simp only [h3, if_true, update_slot_length, hl, List.length_cons, true_and]
        refine ⟨by omega, ?_, trivial⟩
        rw [update_slot_take_succ _ _ _ (by omega), h4]
        rfl
      · simp only [h3, if_false]
        obtain ⟨a, b, d, e⟩ := ih (c + 1)
          { p with
            trigger := update_slot p.trigger p.trigger_count (fun _ => parallel_trigger te values c),
            trigger_count := p.trigger_count + 1 }
          (by simp only [update_slot_length, hl]) (by simp only; omega) hr
        refine ⟨a, ?_, ?_, e⟩
        · rw [b]
          simp only [List.length_cons]
          omega
        · rw [d]
          simp only
          rw [update_slot_take_succ _ _ _ (by omega)]
          have h5 : 4 - p.trigger_count = (4 - (p.trigger_count + 1)) + 1 := by omega
          rw [h5, List.take_succ_cons, List.append_assoc]
          rfl
    · have h1 : ¬ ((mask >>> c) &&& 1 ≠ 0) := fun h => hb ((shiftRight_and_one mask c).mp h)
      rw [if_neg h1, if_neg hb]
      exact ih (c + 1) p hl ht hr

theorem and_one_eq_zero (v : Nat) : v &&& 1 = 0 ↔ v.testBit 0 = false := by
  rw [Nat.and_one_is_mod, Nat.testBit_to_div_mod]
  simp only [pow_zero, Nat.div_one, decide_eq_false_iff_not]
  omega

theorem and_one_eq_one (v : Nat) : v &&& 1 = 1 ↔ v.testBit 0 = true := by
  rw [Nat.and_one_is_mod, Nat.testBit_to_div_mod]
  simp only [pow_zero, Nat.div_one, decide_eq_true_eq]

/-- A step that only rewrites the slot `trigger_count` adds no trigger. -/
theorem extends_by_nil (p : prepare_state) (f : trigger_t → trigger_t)
    (hl : p.trigger.length = 4) (ht : p.trigger_count < 4) (hr : p.returned = false) :
    extends_by p { p with trigger := update_slot p.trigger p.trigger_count f } [] := by
  refine ⟨by simp only [update_slot_length, hl], by simp only [List.length_nil]; omega, ?_, ?_⟩
  · simp only [List.take_nil, List.append_nil]
    exact update_slot_take _ _ _ _ (Nat.le_refl _)
  · simp only [hr]
    constructor
    · intro h
      cases h
    · intro h
      omega

/-- A step that writes the trigger `t` to the slot `trigger_count`, counts it and returns
when it was the fourth adds the one trigger `t`. -/
theorem extends_by_one (p : prepare_state) (t : trigger_t) (ret : Bool)
    (hl : p.trigger.length = 4) (ht : p.trigger_count < 4)
    (hret : ret = true ↔ 3 < p.trigger_count + 1) :
    extends_by p
      { trigger := update_slot p.trigger p.trigger_count (fun _ => t),
        trigger_count := p.trigger_count + 1, returned := ret } [t] := by
  refine ⟨by simp only [update_slot_length, hl], by simp only [List.length_singleton]; omega,
    ?_, hret⟩
  simp only
  rw [update_slot_take_succ _ _ _ (by omega)]
  have h5 : 4 - p.trigger_count = (3 - p.trigger_count) + 1 := by omega
  rw [h5, List.take_succ_cons, List.take_nil]

/-- Clearing `is_enabled` of the slot `trigger_count` at the head of a stage does not
change the triggers produced so far. -/
theorem extends_by_clear (p r : prepare_state) (f : trigger_t → trigger_t)
    (cands : List trigger_t)
    (h : extends_by { p with trigger := update_slot p.trigger p.trigger_count f } r cands) :
    extends_by p r cands := by
  obtain ⟨a, b, c, d⟩ := h
  refine ⟨a, b, ?_, d⟩
  rw [c]
  simp only
  rw [update_slot_take _ _ _ _ (Nat.le_refl _)]

/-- The closing test of a stage changes nothing once `returned` tells whether the fourth
trigger is reached. -/
theorem stage_close_eq (q : prepare_state) (h : q.returned = true ↔ 3 < q.trigger_count) :
    stage_close q = q := by
  unfold stage_close
  by_cases hq : q.returned = true
  · rw [if_pos hq]
  · rw [if_neg hq, if_neg]
    intro h3
    exact hq (h.mpr h3)

/-- The closing test of a stage after a serial branch that wrote one trigger. -/
theorem stage_close_one (p : prepare_state) (t : trigger_t) (f : trigger_t → trigger_t)
    (hf : ∀ x, f x = t)
    (hl : p.trigger.length = 4) (ht : p.trigger_count < 4) (hr : p.returned = false) :
    extends_by p
      (stage_close
        { p with
          trigger := update_slot p.trigger p.trigger_count f,
          trigger_count := p.trigger_count + 1 }) [t] := by
  have hfe : f = fun _ => t := funext hf
  subst hfe
  unfold stage_close
  simp only [hr, Bool.false_eq_true, if_false, TRIGGERS_COUNT]
  by_cases h3 : p.trigger_count + 1 > 4 - 1
  · rw [if_pos h3]
    exact extends_by_one p t true hl ht (by simp only [true_iff]; omega)
  · rw [if_neg h3]
    refine extends_by_one p t false hl ht ?_
    constructor
    · intro h
      cases h
    · intro h
      omega

/-- The closing test of a stage after a branch that produced no trigger. -/
theorem stage_close_nil (p : prepare_state) (f : trigger_t → trigger_t)
    (hl : p.trigger.length = 4) (ht : p.trigger_count < 4) (hr : p.returned = false) :
    extends_by p (stage_close { p with trigger := update_slot p.trigger p.trigger_count f }) [] := by
  have h := extends_by_nil p f hl ht hr
  rw [stage_close_eq _ h.2.2.2]
  exact h

theorem update_slot_id {α : Type} (l : List α) (i : Nat) : update_slot l i (fun x => x) = l := by
  induction l generalizing i with
  | nil => rfl
  | cons x xs ih =>
    cases i with
    | zero => rfl
    | succ i => simp [update_slot, ih]

/-- The branch of a serial stage with mask `0b11`, closed, adds its candidate. -/
theorem serial_edge_stage_spec (sg : sump_trigger_t) (p : prepare_state)
    (hl : p.trigger.length = 4) (ht : p.trigger_count < 4) (hr : p.returned = false) :
    extends_by p (stage_close (serial_edge_stage sg p))
      (if sg.values.testBit 0 = false ∧ sg.values.testBit 1 = true then
        [{ is_enabled := true, pin := (sg.configuration &&& TRIGGER_CHANNEL_MASK) >>> 20,
           match_ := trigger_match_t.TRIGGER_TYPE_EDGE_HIGH }]
      else if sg.values.testBit 0 = true ∧ sg.values.testBit 1 = false then
        [{ is_enabled := true, pin := (sg.configuration &&& TRIGGER_CHANNEL_MASK) >>> 20,
           match_ := trigger_match_t.TRIGGER_TYPE_EDGE_LOW }]
      else []) := by
  unfold serial_edge_stage
  simp only [and_one_eq_zero, and_one_eq_one, Nat.testBit_shiftRight, Nat.add_zero,
    update_slot_comp]
  by_cases h1 : sg.values.testBit 0 = false ∧ sg.values.testBit 1 = true
  · rw [if_pos h1, if_pos h1]
    exact stage_close_one p _ _ (fun _ => rfl) hl ht hr
  · rw [if_neg h1, if_neg h1]
    by_cases h2 : sg.values.testBit 0 = true ∧ sg.values.testBit 1 = false
    · rw [if_pos h2, if_pos h2]
      exact stage_close_one p _ _ (fun _ => rfl) hl ht hr
    · rw [if_neg h2, if_neg h2]
      exact stage_close_nil p _ hl ht hr

/-- The branch of a serial stage with mask `0b1`, closed, adds its candidate. -/
theorem serial_level_stage_spec (sg : sump_trigger_t) (p : prepare_state)
    (hl : p.trigger.length = 4) (ht : p.trigger_count < 4) (hr : p.returned = false) :
    extends_by p (stage_close (serial_level_stage sg p))
      [{ is_enabled := true, pin := (sg.configuration &&& TRIGGER_CHANNEL_MASK) >>> 20,
         match_ := if sg.values.testBit 0 = true then trigger_match_t.TRIGGER_TYPE_LEVEL_HIGH
                   else trigger_match_t.TRIGGER_TYPE_LEVEL_LOW }] := by
  unfold serial_level_stage
  simp only [and_one_eq_zero, and_one_eq_one, update_slot_comp]
  by_cases h1 : sg.values.testBit 0 = true
  · rw [if_pos h1, if_pos h1]
    exact stage_close_one p _ _ (fun _ => rfl) hl ht hr
  · have h2 : sg.values.testBit 0 = false := by simpa using h1
    rw [if_neg h1, if_pos h2, if_neg h1]
    exact stage_close_one p _ _ (fun _ => rfl) hl ht hr

/-- One stage of the translation adds the candidate triggers of the stage. -/
theorem prepare_stage_spec (cfg : config_t) (sg : sump_trigger_t) (p : prepare_state)
    (hl : p.trigger.length = 4) (ht : p.trigger_count < 4) (hr : p.returned = false) :
    extends_by p (prepare_stage cfg sg p) (stage_candidates cfg sg) := by
  apply extends_by_clear p _ (fun x => { x with is_enabled := false })
  have hl0 : (update_slot p.trigger p.trigger_count
      (fun x => { x with is_enabled := false })).length = 4 := by
    rw [update_slot_length, hl]
  unfold prepare_stage stage_candidates
  simp only
  generalize hp0 : prepare_state.mk
    (update_slot p.trigger p.trigger_count (fun x => { x with is_enabled := false }))
    p.trigger_count p.returned = p0
  have hl1 : p0.trigger.length = 4 := by
    rw [← hp0]
    exact hl0
  have ht1 : p0.trigger_count < 4 := by
    rw [← hp0]
    exact ht
  have hr1 : p0.returned = false := by
    rw [← hp0]
    exact hr
  have hnil : extends_by p0 p0 [] := by
    have h := extends_by_nil p0 (fun x => x) hl1 ht1 hr1
    rw [update_slot_id] at h
    exact h
  by_cases hact : sg.mask ≠ 0 ∧ (sg.configuration &&& TRIGGER_START ≠ 0 ∧
      sg.configuration &&& TRIGGER_LEVEL_MASK = 0)
  · rw [if_pos hact, if_pos hact]
    unfold stage_branch
    by_cases hser : sg.configuration &&& TRIGGER_SERIAL = 0
    · have hser2 : ¬ (sg.configuration &&& TRIGGER_SERIAL ≠ 0) := fun h => h hser
      rw [if_pos hser2, if_pos hser]
      have h := parallel_channels_spec cfg.trigger_edge sg.mask sg.values cfg.channels 0 p0
        hl1 ht1 hr1
      rw [stage_close_eq _ h.2.2.2]
      exact h
    · have hser2 : ¬ ¬ (sg.configuration &&& TRIGGER_SERIAL ≠ 0) := fun h => h hser
      rw [if_neg hser2, if_neg hser]
      by_cases hm3 : sg.mask = 3
      · rw [if_pos ⟨hser, hm3⟩, if_pos hm3]
        exact serial_edge_stage_spec sg p0 hl1 ht1 hr1
      · rw [if_neg (fun h => hm3 h.2), if_neg hm3]
        by_cases hm1 : sg.mask = 1
        · rw [if_pos ⟨hser, hm1⟩, if_pos hm1]
          exact serial_level_stage_spec sg p0 hl1 ht1 hr1
        · rw [if_neg (fun h => hm1 h.2), if_neg hm1]
          rw [stage_close_eq _ hnil.2.2.2]
          exact hnil
  · rw [if_neg hact, if_neg hact]
    exact hnil

/-- The stage loop adds the candidate triggers of the stages it visits, up to four. -/
theorem prepare_stages_spec (cfg : config_t) (sgs : List sump_trigger_t) :
    ∀ p : prepare_state, p.trigger.length = 4 → p.trigger_count < 4 → p.returned = false →
      (prepare_stages cfg sgs p).trigger.length = 4 ∧
      (prepare_stages cfg sgs p).trigger_count
        = min 4 (p.trigger_count + (sgs.flatMap (stage_candidates cfg)).length) ∧
      (prepare_stages cfg sgs p).trigger.take (prepare_stages cfg sgs p).trigger_count
        = p.trigger.take p.trigger_count
          ++ (sgs.flatMap (stage_candidates cfg)).take (4 - p.trigger_count) := by
  induction sgs with
  | nil =>
    intro p hl ht _
    simp only [prepare_stages, List.flatMap_nil, List.length_nil, Nat.add_zero, List.take_nil,
      List.append_nil]
    exact ⟨hl, by omega, trivial⟩
  | cons sg rest ih =>
    intro p hl ht hr
    obtain ⟨a, b, c, d⟩ := prepare_stage_spec cfg sg p hl ht hr
    simp only [prepare_stages, List.flatMap_cons, List.length_append]
    by_cases hret : (prepare_stage cfg sg p).returned = true
    · rw [if_pos hret]
      have h4 := d.mp hret
      refine ⟨a, by omega, ?_⟩
      rw [c, List.take_append_of_le_length (by omega)]
    · rw [if_neg hret]
      have h4 : ¬ 3 < (prepare_stage cfg sg p).trigger_count := fun h => hret (d.mpr h)
      obtain ⟨a2, b2, c2⟩ := ih (prepare_stage cfg sg p) a (by omega) (by simpa using hret)
      refine ⟨a2, by omega, ?_⟩
      rw [c2, c, List.append_assoc]
      congr 1
      have h5 : (stage_candidates cfg sg).length ≤ 4 - p.trigger_count := by omega
      rw [List.take_of_length_le h5, List.take_append_eq_append_take,
        List.take_of_length_le h5]
      congr 2
      omega

/-- The body of the stage loop on a parallel stage (non-zero mask, start bit, trigger
level 0, serial bit clear) reached with fewer than four triggers produced adds one
trigger per set mask bit `c < 16`, in ascending `c`, on pin `c`, whose match follows bit
`c` of `values` and the edge override, until four triggers are produced. -/
theorem prepare_stage_parallel (cfg : config_t) (sg : sump_trigger_t) (p : prepare_state)
    (hch : cfg.channels = CHANNEL_COUNT)
    (hl : p.trigger.length = 4) (ht : p.trigger_count < 4) (hr : p.returned = false)
    (hmask : sg.mask ≠ 0) (hstart : sg.configuration &&& TRIGGER_START ≠ 0)
    (hlevel : sg.configuration &&& TRIGGER_LEVEL_MASK = 0)
    (hser : sg.configuration &&& TRIGGER_SERIAL = 0) :
    (prepare_stage cfg sg p).trigger_count
      = min 4 (p.trigger_count + ((List.range 16).filter (fun c => sg.mask.testBit c)).length) ∧
    (prepare_stage cfg sg p).trigger.take (prepare_stage cfg sg p).trigger_count
      = p.trigger.take p.trigger_count ++
        (((List.range 16).filter (fun c => sg.mask.testBit c)).map
          (fun c =>
            ({ is_enabled := true, pin := c,
               match_ :=
                if cfg.trigger_edge then
                  (if sg.values.testBit c then trigger_match_t.TRIGGER_TYPE_EDGE_HIGH
                   else trigger_match_t.TRIGGER_TYPE_EDGE_LOW)
                else
                  (if sg.values.testBit c then trigger_match_t.TRIGGER_TYPE_LEVEL_HIGH
                   else trigger_match_t.TRIGGER_TYPE_LEVEL_LOW) } : trigger_t))).take
          (4 - p.trigger_count) := by
  obtain ⟨-, b, c, -⟩ := prepare_stage_spec cfg sg p hl ht hr
  have hc : stage_candidates cfg sg
      = parallel_candidates cfg.trigger_edge sg.mask sg.values 0 16 := by
    unfold stage_candidates
    rw [if_pos ⟨hmask, hstart, hlevel⟩, if_pos hser, hch]
    rfl
  rw [hc] at b c
  unfold parallel_candidates at b c
  rw [← List.range_eq_range'] at b c
  rw [List.length_map] at b
  exact ⟨b, c⟩

/-- The body of the stage loop on a stage with mask `0b111` and values `0b101`, reached
with two triggers produced: the slots 2 and 3 receive the triggers of the channels 0
and 1. -/
theorem prepare_stage_parallel_witness :
    (prepare_stage idle_sump.config_
        { mask := 0b111, values := 0b101, configuration := TRIGGER_START }
        { trigger := idle_sump.capture_config_.trigger, trigger_count := 2,
          returned := false }).trigger_count
      = min 4 (2 + ((List.range 16).filter (fun c => (0b111 : Nat).testBit c)).length) ∧
    (prepare_stage idle_sump.config_
        { mask := 0b111, values := 0b101, configuration := TRIGGER_START }
        { trigger := idle_sump.capture_config_.trigger, trigger_count := 2,
          returned := false }).trigger.take
        (prepare_stage idle_sump.config_
          { mask := 0b111, values := 0b101, configuration := TRIGGER_START }
          { trigger := idle_sump.capture_config_.trigger, trigger_count := 2,
            returned := false }).trigger_count
      = idle_sump.capture_config_.trigger.take 2 ++
        (((List.range 16).filter (fun c => (0b111 : Nat).testBit c)).map
          (fun c =>
            ({ is_enabled := true, pin := c,
               match_ :=
                if idle_sump.config_.trigger_edge then
                  (if (0b101 : Nat).testBit c then trigger_match_t.TRIGGER_TYPE_EDGE_HIGH
                   else trigger_match_t.TRIGGER_TYPE_EDGE_LOW)
                else
                  (if (0b101 : Nat).testBit c then trigger_match_t.TRIGGER_TYPE_LEVEL_HIGH
                   else trigger_match_t.TRIGGER_TYPE_LEVEL_LOW) } : trigger_t))).take
          (4 - 2) :=
  prepare_stage_parallel idle_sump.config_
    { mask := 0b111, values := 0b101, configuration := TRIGGER_START }
    { trigger := idle_sump.capture_config_.trigger, trigger_count := 2, returned := false }
    rfl rfl (by decide) rfl (by decide) (by decide) (by decide) (by decide)

/-- C8: `prepare_adquisition` produces at most four triggers, namely the first four
candidate triggers of the stage registers in ascending (stage, channel) order; when the
stages hold more than four candidates the trigger array is exactly these four. -/
theorem four_trigger_cap (st : SumpState) (hl : st.capture_config_.trigger.length = 4) :
    (prepare_run st).trigger_count ≤ 4 ∧
    (prepare_run st).trigger_count = min 4 (all_candidates st).length ∧
    (prepare_run st).trigger.take (prepare_run st).trigger_count = (all_candidates st).take 4 ∧
    (4 < (all_candidates st).length →
      (prepare_adquisition st).capture_config_.trigger = (all_candidates st).take 4) := by
  obtain ⟨a, b, c⟩ := prepare_stages_spec st.config_ st.sump_trigger_
    { trigger := st.capture_config_.trigger, trigger_count := 0, returned := false }
    hl (Nat.zero_lt_succ 3) rfl
  simp only [Nat.zero_add, List.take_zero, List.nil_append, Nat.sub_zero] at b c
  unfold all_candidates prepare_adquisition prepare_run
  refine ⟨by omega, b, c, ?_⟩
  intro h5
  simp only
  rw [← c, List.take_of_length_le (by omega)]

/-- C8 on five set parallel mask bits spread over the stages 0 and 2: four triggers. -/
theorem four_trigger_cap_witness :
    (all_candidates five_bit_request).length = 5 ∧
    (prepare_adquisition five_bit_request).capture_config_.trigger =
      [{ is_enabled := true, pin := 0, match_ := trigger_match_t.TRIGGER_TYPE_LEVEL_HIGH },
       { is_enabled := true, pin := 1, match_ := trigger_match_t.TRIGGER_TYPE_LEVEL_LOW },
       { is_enabled := true, pin := 2, match_ := trigger_match_t.TRIGGER_TYPE_LEVEL_HIGH },
       { is_enabled := true, pin := 3, match_ := trigger_match_t.TRIGGER_TYPE_LEVEL_HIGH }] ∧
    (prepare_run five_bit_request).trigger_count ≤ 4 ∧
    (prepare_run five_bit_request).trigger_count = min 4 (all_candidates five_bit_request).length ∧
    (prepare_run five_bit_request).trigger.take (prepare_run five_bit_request).trigger_count
      = (all_candidates five_bit_request).take 4 ∧
    (4 < (all_candidates five_bit_request).length →
      (prepare_adquisition five_bit_request).capture_config_.trigger
        = (all_candidates five_bit_request).take 4) :=
  ⟨by decide, by decide, four_trigger_cap five_bit_request rfl⟩

/-! ## Rate and clock -/

/-- A positive rational whose numerator and denominator are known is rounded through
`float_parts`. -/
theorem float_round_eval (q : ℚ) (n d m : Nat) (e : Int) (hq : 0 < q)
    (hn : q.num = (n : Int)) (hd : q.den = d) (hp : float_parts n d = (m, e))
    (hfin : ¬ 2 ^ 128 ≤ m * 2 ^ e.toNat) :
    float_round q = some ((m : ℚ) * (2 : ℚ) ^ e) := by
  unfold float_round
  rw [if_neg (not_le.mpr hq), hn, hd, Int.toNat_ofNat, hp]
  simp only
  rw [if_neg hfin]

/-- The clock frequencies and the constants 32 and 10 are values of type `float`. -/
theorem float_round_constants :
    float_round 200000000 = some 200000000 ∧ float_round 100000000 = some 100000000 ∧
    float_round 32 = some 32 ∧ float_round 10 = some 10 := by
  refine ⟨?_, ?_, ?_, ?_⟩
  · rw [float_round_eval 200000000 200000000 1 12500000 4 (by norm_num) (by norm_num)
      (by norm_num) (by decide) (by decide)]
    norm_num
  · rw [float_round_eval 100000000 100000000 1 12500000 3 (by norm_num) (by norm_num)
      (by norm_num) (by decide) (by decide)]
    norm_num
  · rw [float_round_eval 32 32 1 8388608 (-18) (by norm_num) (by norm_num)
      (by norm_num) (by decide) (by decide)]
    norm_num
  · rw [float_round_eval 10 10 1 10485760 (-20) (by norm_num) (by norm_num)
      (by norm_num) (by decide) (by decide)]
    norm_num

theorem set_sys_clock_fast (rate : Nat) (s : CaptureState) (h : RATE_CHANGE_CLK < rate) :
    (set_sys_clock rate s).clk_sys = 200000000 ∧
    (set_sys_clock rate s).clk_div_
      = clamp_clk_div (float_div (some 200000000) (float_round (rate : ℚ))) := by
  unfold set_sys_clock
  rw [if_pos h, ← float_round_constants.1]
  by_cases hc : s.clk_sys = 200000000
  · simp [hc]
  · simp [hc]

theorem set_sys_clock_slow (rate : Nat) (s : CaptureState) (h : ¬ RATE_CHANGE_CLK < rate) :
    (set_sys_clock rate s).clk_sys = 100000000 ∧
    (set_sys_clock rate s).clk_div_
      = clamp_clk_div
          (float_div (float_div (float_div (some 100000000) (float_round (rate : ℚ)))
            (some 32)) (some 10)) := by
  unfold set_sys_clock
  rw [if_neg h, ← float_round_constants.2.1, ← float_round_constants.2.2.1,
    ← float_round_constants.2.2.2]
  by_cases hc : s.clk_sys = 100000000
  · simp [hc]
  · simp [hc]

/-- The clock and the divisor chosen depend on the requested rate alone. -/
theorem set_sys_clock_indep (rate : Nat) (s t : CaptureState) :
    (set_sys_clock rate s).clk_sys = (set_sys_clock rate t).clk_sys ∧
    (set_sys_clock rate s).clk_div_ = (set_sys_clock rate t).clk_div_ := by
  by_cases h : RATE_CHANGE_CLK < rate
  · rw [(set_sys_clock_fast rate s h).1, (set_sys_clock_fast rate s h).2,
      (set_sys_clock_fast rate t h).1, (set_sys_clock_fast rate t h).2]
    exact ⟨rfl, rfl⟩
  · rw [(set_sys_clock_slow rate s h).1, (set_sys_clock_slow rate s h).2,
      (set_sys_clock_slow rate t h).1, (set_sys_clock_slow rate t h).2]
    exact ⟨rfl, rfl⟩

theorem clamp_clk_div_le (q : Option ℚ) : clamp_clk_div q ≤ 65535 := by
  unfold clamp_clk_div
  cases q with
  | none => norm_num
  | some q =>
    simp only
    split
    · norm_num
    · linarith

theorem set_trigger_clock (s : CaptureState) (t : trigger_t) :
    (set_trigger s t).clk_sys = s.clk_sys ∧ (set_trigger s t).clk_div_ = s.clk_div_ := by
  unfold set_trigger
  split <;> exact ⟨rfl, rfl⟩

theorem init_triggers_clock (l : List trigger_t) :
    ∀ s s' : CaptureState, init_triggers l s = Except.ok s' →
      s'.clk_sys = s.clk_sys ∧ s'.clk_div_ = s.clk_div_ := by
  induction l with
  | nil =>
    intro s s' h
    simp [init_triggers] at h
  | cons t rest ih =>
    intro s s' h
    unfold init_triggers at h
    by_cases ht : t.is_enabled = true
    · rw [if_pos ht] at h
      obtain ⟨a, b⟩ := ih _ _ h
      obtain ⟨c, d⟩ := set_trigger_clock s t
      exact ⟨a.trans c, b.trans d⟩
    · rw [if_neg ht] at h
      cases h
      exact ⟨rfl, rfl⟩

/-- The trigger loop of `capture_start` ends inside the array when a slot is disabled. -/
theorem init_triggers_returns (l : List trigger_t) :
    ∀ s : CaptureState, (∃ t ∈ l, t.is_enabled = false) →
      ∃ s' : CaptureState, init_triggers l s = Except.ok s' := by
  induction l with
  | nil =>
    intro s h
    obtain ⟨t, ht, -⟩ := h
    cases ht
  | cons t rest ih =>
    intro s h
    unfold init_triggers
    by_cases hen : t.is_enabled = true
    · rw [if_pos hen]
      apply ih
      obtain ⟨u, hu, hdis⟩ := h
      rcases List.mem_cons.mp hu with h1 | h1
      · subst h1
        rw [hen] at hdis
        cases hdis
      · exact ⟨u, h1, hdis⟩
    · rw [if_neg hen]
      exact ⟨s, rfl⟩

/-- The function `capture_start` returns when a trigger slot is disabled. -/
theorem capture_start_returns (cc : capture_config_t) (samples rate pre : Nat)
    (s : CaptureState) (h : ∃ t ∈ cc.trigger, t.is_enabled = false) :
    ∃ s' : CaptureState, capture_start cc samples rate pre s = Except.ok s' := by
  unfold capture_start
  simp only
  obtain ⟨s2, hs2⟩ := init_triggers_returns cc.trigger
    { set_sys_clock rate (set_sample_counts samples rate pre s) with
      transfer_count := 0xffffffff, trigger_count_ := 0, sm_trigger_mask_ := 0, armed := [] } h
  rw [hs2]
  exact ⟨_, rfl⟩

/-- The clock and the divisor `capture_start` leaves are those of its block "set sys
clock". -/
theorem capture_start_clock (cc : capture_config_t) (samples rate pre : Nat)
    (s s' : CaptureState) (h : capture_start cc samples rate pre s = Except.ok s') :
    s'.clk_sys = (set_sys_clock rate s).clk_sys ∧
    s'.clk_div_ = (set_sys_clock rate s).clk_div_ := by
  unfold capture_start at h
  simp only at h
  split at h
  · cases h
  · rename_i s2 heq
    cases h
    obtain ⟨a, b⟩ := init_triggers_clock _ _ _ heq
    obtain ⟨c, d⟩ := set_sys_clock_indep rate (set_sample_counts samples rate pre s) s
    simp only at a b ⊢
    exact ⟨a.trans c, b.trans d⟩

theorem float_div_some (x y : ℚ) (hy : y ≠ 0) :
    float_div (some x) (some y) = float_round (x / y) := by
  unfold float_div
  simp only
  rw [if_neg hy]

theorem binary_digits_bounds (fuel : Nat) :
    ∀ n : Nat, n ≤ fuel → 0 < n →
      1 ≤ binary_digits fuel n ∧ 2 ^ (binary_digits fuel n - 1) ≤ n ∧
      n < 2 ^ binary_digits fuel n := by
  induction fuel with
  | zero =>
    intro n h1 h2
    omega
  | succ fuel ih =>
    intro n h1 h2
    have hn : ¬ n = 0 := by omega
    unfold binary_digits
    rw [if_neg hn]
    by_cases h : n / 2 = 0
    · have h1n : n = 1 := by omega
      subst h1n
      cases fuel with
      | zero => simp [binary_digits]
      | succ f => simp [binary_digits]
    · obtain ⟨a, b, c⟩ := ih (n / 2) (by omega) (by omega)
      refine ⟨by omega, ?_, ?_⟩
      · have e : binary_digits fuel (n / 2) + 1 - 1 = (binary_digits fuel (n / 2) - 1) + 1 := by
          omega
        rw [e, pow_succ]
        omega
      · rw [pow_succ]
        omega

theorem round_half_even_near (n d : Nat) (hd : 0 < d) :
    2 * (round_half_even n d * d) ≤ 2 * n + d ∧ 2 * n ≤ 2 * (round_half_even n d * d) + d := by
  have h := Nat.div_add_mod n d
  have hr := Nat.mod_lt n hd
  have hm : n / d * d = d * (n / d) := Nat.mul_comm _ _
  unfold round_half_even
  simp only
  split_ifs <;> simp only [Nat.add_mul, Nat.one_mul, hm] <;> omega

theorem two_zpow (x : Int) :
    (2 : ℚ) ^ x = (2 : ℚ) ^ x.toNat / (2 : ℚ) ^ (-x).toNat := by
  rcases le_or_lt 0 x with h | h
  · have h2 : (-x).toNat = 0 := by omega
    rw [h2, pow_zero, div_one]
    conv_lhs => rw [← Int.toNat_of_nonneg h]
    rw [zpow_natCast]
  · have h2 : x.toNat = 0 := by omega
    rw [h2, pow_zero]
    have h3 : x = -((-x).toNat : Int) := by omega
    conv_lhs => rw [h3]
    rw [zpow_neg, zpow_natCast, one_div]

theorem nat_lt_two_zpow (n : Nat) (hn : 0 < n) :
    (2 : ℚ) ^ ((binary_digits n n : Int) - 1) ≤ (n : ℚ) ∧
    (n : ℚ) < (2 : ℚ) ^ (binary_digits n n : Int) := by
  obtain ⟨a1, a2, a3⟩ := binary_digits_bounds n n le_rfl hn
  constructor
  · have h : ((binary_digits n n : Int) - 1) = ((binary_digits n n - 1 : Nat) : Int) := by omega
    rw [h, zpow_natCast]
    exact_mod_cast a2
  · rw [zpow_natCast]
    exact_mod_cast a3

theorem float_exponent_bounds (n d : Nat) (hn : 0 < n) (hd : 0 < d) (e0 e : Int)
    (he0 : e0 = (binary_digits n n : Int) - (binary_digits d d : Int))
    (he : e = if n * 2 ^ (-e0).toNat < d * 2 ^ e0.toNat then e0 - 1 else e0) :
    (2 : ℚ) ^ e ≤ (n : ℚ) / d ∧ (n : ℚ) / d < (2 : ℚ) ^ (e + 1) := by
  obtain ⟨n1, n2⟩ := nat_lt_two_zpow n hn
  obtain ⟨d1, d2⟩ := nat_lt_two_zpow d hd
  have hdq : (0 : ℚ) < (d : ℚ) := by exact_mod_cast hd
  have hnq : (0 : ℚ) < (n : ℚ) := by exact_mod_cast hn
  have h2 : (2 : ℚ) ≠ 0 := by norm_num
  have hlo : (2 : ℚ) ^ (e0 - 1) < (n : ℚ) / d := by
    have e1 : e0 - 1 = ((binary_digits n n : Int) - 1) - (binary_digits d d : Int) := by omega
    rw [e1, zpow_sub₀ h2, div_lt_div_iff₀ (zpow_pos (by norm_num) _) hdq]
    calc (2 : ℚ) ^ ((binary_digits n n : Int) - 1) * d
        ≤ n * d := by exact mul_le_mul_of_nonneg_right n1 hdq.le
      _ < n * (2 : ℚ) ^ (binary_digits d d : Int) := by
          exact mul_lt_mul_of_pos_left d2 hnq
  have hhi : (n : ℚ) / d < (2 : ℚ) ^ (e0 + 1) := by
    have e1 : e0 + 1 = (binary_digits n n : Int) - ((binary_digits d d : Int) - 1) := by omega
    rw [e1, zpow_sub₀ h2, div_lt_div_iff₀ hdq (zpow_pos (by norm_num) _)]
    calc (n : ℚ) * (2 : ℚ) ^ ((binary_digits d d : Int) - 1)
        ≤ n * d := by exact mul_le_mul_of_nonneg_left d1 hnq.le
      _ < (2 : ℚ) ^ (binary_digits n n : Int) * d := by
          exact mul_lt_mul_of_pos_right n2 hdq
  have htest : (n * 2 ^ (-e0).toNat < d * 2 ^ e0.toNat) ↔ (n : ℚ) / d < (2 : ℚ) ^ e0 := by
    rw [two_zpow e0, div_lt_div_iff₀ hdq (pow_pos (by norm_num) _)]
    constructor
    · intro h
      have : ((n * 2 ^ (-e0).toNat : Nat) : ℚ) < ((d * 2 ^ e0.toNat : Nat) : ℚ) := by
        exact_mod_cast h
      push_cast at this
      linarith
    · intro h
      have : ((n * 2 ^ (-e0).toNat : Nat) : ℚ) < ((d * 2 ^ e0.toNat : Nat) : ℚ) := by
        push_cast
        linarith
      exact_mod_cast this
  by_cases ht : n * 2 ^ (-e0).toNat < d * 2 ^ e0.toNat
  · rw [if_pos ht] at he
    subst he
    refine ⟨hlo.le, ?_⟩
    have : e0 - 1 + 1 = e0 := by omega
    rw [this]
    exact htest.mp ht
  · rw [if_neg ht] at he
    subst he
    refine ⟨?_, hhi⟩
    exact not_lt.mp (fun h => ht (htest.mpr h))

/-- The parts of the rounding of a value `q` of the normal range: an exponent `e` with
`2^e ≤ q < 2^(e + 1)` and a significand `m` with `m * 2^(e - 23)` within `q / 2^24` of
`q`. -/
theorem float_round_core (q : ℚ) (hq : (2 : ℚ) ^ (-126 : Int) ≤ q) :
    ∃ (m : Nat) (e : Int), -126 ≤ e ∧ (2 : ℚ) ^ e ≤ q ∧ q < (2 : ℚ) ^ (e + 1) ∧
      |(m : ℚ) * (2 : ℚ) ^ (e - 23) - q| ≤ q / 2 ^ 24 ∧
      float_round q
        = if 2 ^ 128 ≤ m * 2 ^ (e - 23).toNat then none
          else some ((m : ℚ) * (2 : ℚ) ^ (e - 23)) := by
  have hpos : 0 < q := lt_of_lt_of_le (zpow_pos (by norm_num) _) hq
  have hnum : 0 < q.num := Rat.num_pos.mpr hpos
  have hn : 0 < q.num.toNat := by omega
  have hd : 0 < q.den := q.den_pos
  have hqe : ((q.num.toNat : Nat) : ℚ) / (q.den : ℚ) = q := by
    have h1 : ((q.num.toNat : Nat) : ℚ) = ((q.num : Int) : ℚ) := by
      have : ((q.num.toNat : Nat) : Int) = q.num := Int.toNat_of_nonneg hnum.le
      exact_mod_cast congrArg (fun z : Int => (z : ℚ)) this
    rw [h1]
    exact Rat.num_div_den q
  unfold float_round
  rw [if_neg (not_le.mpr hpos)]
  unfold float_parts
  simp only
  generalize q.num.toNat = n at hn hqe ⊢
  generalize q.den = d at hd hqe ⊢
  obtain ⟨e1, e2⟩ := float_exponent_bounds n d hn hd _ _ rfl rfl
  rw [hqe] at e1 e2
  generalize (if n * 2 ^ (-((binary_digits n n : Int) - (binary_digits d d : Int))).toNat
      < d * 2 ^ ((binary_digits n n : Int) - (binary_digits d d : Int)).toNat
    then (binary_digits n n : Int) - (binary_digits d d : Int) - 1
    else (binary_digits n n : Int) - (binary_digits d d : Int)) = e at e1 e2 ⊢
  have he : -126 ≤ e := by
    have h := lt_of_le_of_lt hq e2
    have := (zpow_lt_zpow_iff_right₀ (by norm_num : (1 : ℚ) < 2)).mp h
    omega
  rw [max_eq_left he]
  refine ⟨round_half_even (n * 2 ^ (-(e - 23)).toNat) (d * 2 ^ (e - 23).toNat), e, he, e1, e2,
    ?_, rfl⟩
  have hD : 0 < d * 2 ^ (e - 23).toNat := Nat.mul_pos hd (pow_pos (by norm_num) _)
  obtain ⟨b1, b2⟩ := round_half_even_near (n * 2 ^ (-(e - 23)).toNat)
    (d * 2 ^ (e - 23).toNat) hD
  generalize round_half_even (n * 2 ^ (-(e - 23)).toNat) (d * 2 ^ (e - 23).toNat) = m
    at b1 b2 ⊢
  have c1 : (2 : ℚ) * ((m : ℚ) * ((d : ℚ) * 2 ^ (e - 23).toNat))
      ≤ 2 * ((n : ℚ) * 2 ^ (-(e - 23)).toNat) + (d : ℚ) * 2 ^ (e - 23).toNat := by
    exact_mod_cast b1
  have c2 : (2 : ℚ) * ((n : ℚ) * 2 ^ (-(e - 23)).toNat)
      ≤ 2 * ((m : ℚ) * ((d : ℚ) * 2 ^ (e - 23).toNat)) + (d : ℚ) * 2 ^ (e - 23).toNat := by
    exact_mod_cast b2
  have hdq : (0 : ℚ) < (d : ℚ) := by exact_mod_cast hd
  have hA : (0 : ℚ) < (2 : ℚ) ^ (-(e - 23)).toNat := pow_pos (by norm_num) _
  have hB : (0 : ℚ) < (2 : ℚ) ^ (e - 23).toNat := pow_pos (by norm_num) _
  have hs : (2 : ℚ) ^ (e - 23) = (2 : ℚ) ^ (e - 23).toNat / (2 : ℚ) ^ (-(e - 23)).toNat :=
    two_zpow _
  have hn' : (n : ℚ) = q * d := by
    rw [← hqe]
    field_simp
  have he24 : (2 : ℚ) ^ e = (2 : ℚ) ^ (e - 23) * 2 ^ 23 := by
    have : e = (e - 23) + 23 := by omega
    conv_lhs => rw [this]
    rw [zpow_add₀ (by norm_num : (2 : ℚ) ≠ 0)]
    norm_num
  rw [hs] at he24 ⊢
  rw [he24] at e1
  rw [hn'] at c1 c2
  generalize (2 : ℚ) ^ (e - 23).toNat = B at *
  generalize (2 : ℚ) ^ (-(e - 23)).toNat = A at *
  have k1 : (m : ℚ) * B ≤ q * A + B / 2 := by
    have := c1
    nlinarith
  have k2 : q * A ≤ (m : ℚ) * B + B / 2 := by
    have := c2
    nlinarith
  have k3 : B * 2 ^ 23 ≤ q * A := by
    rw [div_mul_eq_mul_div, div_le_iff₀ hA] at e1
    exact e1
  have k4 : B / 2 ≤ q * A / 2 ^ 24 := by
    rw [div_le_div_iff₀ (by norm_num) (by norm_num)]
    nlinarith
  have h1 : (m : ℚ) * (B / A) - q = ((m : ℚ) * B - q * A) / A := by
    field_simp
    ring
  have h2 : q / 2 ^ 24 = (q * A / 2 ^ 24) / A := by
    field_simp
    ring
  rw [h1, h2, abs_div, abs_of_pos hA]
  apply div_le_div_of_nonneg_right _ hA.le
  rw [abs_le]
  constructor <;> linarith

/-- Rounding to `float` moves a value of the normal range by at most half a unit in the
last place: a relative error of at most `2^-24`. -/
theorem float_round_near (q r : ℚ) (hq : (2 : ℚ) ^ (-126 : Int) ≤ q)
    (hr : float_round q = some r) : |r - q| ≤ q / 2 ^ 24 := by
  obtain ⟨m, e, _, _, _, h4, h5⟩ := float_round_core q hq
  rw [h5] at hr
  split at hr
  · cases hr
  · cases hr
    exact h4

/-- A value of the normal range below `2^127` rounds to a finite `float`. -/
theorem float_round_finite (q : ℚ) (hq : (2 : ℚ) ^ (-126 : Int) ≤ q)
    (hlt : q < (2 : ℚ) ^ (127 : Int)) : ∃ r : ℚ, float_round q = some r := by
  obtain ⟨m, e, h1, h2, h3, h4, h5⟩ := float_round_core q hq
  have hpos : 0 < q := lt_of_lt_of_le (zpow_pos (by norm_num) _) hq
  have he : e < 127 := by
    have h := lt_of_le_of_lt h2 hlt
    exact (zpow_lt_zpow_iff_right₀ (by norm_num : (1 : ℚ) < 2)).mp h
  rw [h5]
  refine ⟨(m : ℚ) * (2 : ℚ) ^ (e - 23), ?_⟩
  rw [if_neg]
  intro hbig
  have hs := two_zpow (e - 23)
  have hA : (0 : ℚ) < (2 : ℚ) ^ (-(e - 23)).toNat := pow_pos (by norm_num) _
  have hB : (0 : ℚ) < (2 : ℚ) ^ (e - 23).toNat := pow_pos (by norm_num) _
  have hbq : (2 : ℚ) ^ 128 ≤ (m : ℚ) * (2 : ℚ) ^ (e - 23).toNat := by
    have h := (Nat.cast_le (α := ℚ)).mpr hbig
    rw [Nat.cast_mul, Nat.cast_pow, Nat.cast_pow, Nat.cast_ofNat] at h
    exact h
  clear hbig h5
  rw [abs_le] at h4
  have hup : (m : ℚ) * (2 : ℚ) ^ (e - 23) ≤ q + q / 2 ^ 24 := by linarith [h4.2]
  rcases le_or_lt 23 e with hc | hc
  · have hz : (-(e - 23)).toNat = 0 := by omega
    rw [hz, pow_zero, div_one] at hs
    rw [hs] at hup
    have h127 : (2 : ℚ) ^ (127 : Int) = 2 ^ 127 := by
      rw [← zpow_natCast]
      rfl
    have h128 : (2 : ℚ) ^ 128 = 2 * 2 ^ 127 := by
      rw [pow_succ]
      ring
    rw [h127] at hlt
    rw [h128] at hbq
    generalize (2 : ℚ) ^ 127 = T at hlt hbq
    have : q / 2 ^ 24 ≤ q := by
      rw [div_le_iff₀ (by norm_num)]
      exact le_mul_of_one_le_right hpos.le (by norm_num)
    linarith
  · have hz : (e - 23).toNat = 0 := by omega
    rw [hz, pow_zero, mul_one] at hbq
    rw [hz, pow_zero] at hs
    rw [hs, mul_one_div, div_le_iff₀ hA] at hup
    have h24 : q * (2 : ℚ) ^ (-(e - 23)).toNat < 2 ^ 24 := by
      have e3 : (2 : ℚ) ^ (e + 1) = (2 : ℚ) ^ (e - 23) * 2 ^ 24 := by
        have : e + 1 = (e - 23) + 24 := by omega
        rw [this, zpow_add₀ (by norm_num : (2 : ℚ) ≠ 0)]
        norm_num
      rw [e3, hs, div_mul_eq_mul_div, lt_div_iff₀ hA, one_mul] at h3
      exact h3
    have h25 : (2 : ℚ) ^ 25 ≤ 2 ^ 128 := pow_le_pow_right₀ (by norm_num) (by norm_num)
    generalize (2 : ℚ) ^ 128 = T at hbq h25
    have hx : (q + q / 2 ^ 24) * (2 : ℚ) ^ (-(e - 23)).toNat
        = q * (2 : ℚ) ^ (-(e - 23)).toNat + q * (2 : ℚ) ^ (-(e - 23)).toNat / 2 ^ 24 := by
      ring
    rw [hx] at hup
    generalize q * (2 : ℚ) ^ (-(e - 23)).toNat = X at hup h24
    norm_num at h25 h24 hup
    linarith

/-- A value between `2^-20` and `2^40` rounds to a `float` within the relative error
`2^-24`. -/
theorem float_round_rel (q : ℚ) (h1 : 1 / 2 ^ 20 ≤ q) (h2 : q ≤ 2 ^ 40) :
    ∃ r : ℚ, float_round q = some r ∧ q * (1 - 1 / 2 ^ 24) ≤ r ∧ r ≤ q * (1 + 1 / 2 ^ 24) := by
  have hlo : (2 : ℚ) ^ (-126 : Int) ≤ q := by
    have h : (2 : ℚ) ^ (-126 : Int) ≤ (2 : ℚ) ^ (-20 : Int) :=
      zpow_le_zpow_right₀ (by norm_num) (by norm_num)
    have e : (2 : ℚ) ^ (-20 : Int) = 1 / 2 ^ 20 := by norm_num
    rw [e] at h
    exact le_trans h h1
  have hhi : q < (2 : ℚ) ^ (127 : Int) := by
    have h : (2 : ℚ) ^ (41 : Int) ≤ (2 : ℚ) ^ (127 : Int) :=
      zpow_le_zpow_right₀ (by norm_num) (by norm_num)
    have e : (2 : ℚ) ^ (41 : Int) = 2 ^ 41 := by norm_num
    rw [e] at h
    have : q < 2 ^ 41 := lt_of_le_of_lt h2 (by norm_num)
    exact lt_of_lt_of_le this h
  obtain ⟨r, hr⟩ := float_round_finite q hlo hhi
  have hn := float_round_near q r hlo hr
  rw [abs_le] at hn
  refine ⟨r, hr, ?_, ?_⟩
  · have : q * (1 - 1 / 2 ^ 24) = q - q / 2 ^ 24 := by ring
    rw [this]
    linarith [hn.1]
  · have : q * (1 + 1 / 2 ^ 24) = q + q / 2 ^ 24 := by ring
    rw [this]
    linarith [hn.2]

/-- The divisor of the fast regime is within the relative error `2^-22` of the exact
quotient, and below the clamp. -/
theorem fast_divisor_near (rate : Nat) (h : 5000 < rate) (h32 : rate < 4294967296) :
    |clamp_clk_div (float_div (some 200000000) (float_round (rate : ℚ)))
        - 200000000 / (rate : ℚ)| ≤ 200000000 / (rate : ℚ) / 2 ^ 22 := by
  have hr1 : (5000 : ℚ) < (rate : ℚ) := by exact_mod_cast h
  have hr2 : (rate : ℚ) < 4294967296 := by exact_mod_cast h32
  obtain ⟨R, hR, a1, a2⟩ := float_round_rel (rate : ℚ) (by norm_num; linarith)
    (by norm_num; linarith)
  have hRpos : 0 < R := by
    have : (0 : ℚ) < (rate : ℚ) * (1 - 1 / 2 ^ 24) := by
      apply mul_pos (by linarith)
      norm_num
    linarith
  have hR1 : 5000 ≤ R := by
    have : (5000 : ℚ) ≤ (rate : ℚ) * (1 - 1 / 2 ^ 24) := by
      have h5 : (5001 : ℚ) ≤ (rate : ℚ) := by exact_mod_cast h
      nlinarith
    linarith
  have hR2 : R ≤ 2 ^ 33 := by
    have : (rate : ℚ) * (1 + 1 / 2 ^ 24) ≤ 2 ^ 33 := by nlinarith
    linarith
  have hq1 : 1 / 2 ^ 20 ≤ 200000000 / R := by
    rw [le_div_iff₀ hRpos]
    norm_num at hR2 ⊢
    linarith
  have hq2 : 200000000 / R ≤ 2 ^ 40 := by
    rw [div_le_iff₀ hRpos]
    norm_num
    linarith
  obtain ⟨r, hr, b1, b2⟩ := float_round_rel (200000000 / R) hq1 hq2
  rw [hR, float_div_some _ _ hRpos.ne', hr]
  have c1 : 200000000 * (1 - 1 / 2 ^ 24) ≤ r * R := by
    have := mul_le_mul_of_nonneg_right b1 hRpos.le
    have e : 200000000 / R * (1 - 1 / 2 ^ 24) * R = 200000000 * (1 - 1 / 2 ^ 24) := by
      field_simp
      ring
    linarith
  have c2 : r * R ≤ 200000000 * (1 + 1 / 2 ^ 24) := by
    have := mul_le_mul_of_nonneg_right b2 hRpos.le
    have e : 200000000 / R * (1 + 1 / 2 ^ 24) * R = 200000000 * (1 + 1 / 2 ^ 24) := by
      field_simp
      ring
    linarith
  have hrpos : 0 < r := by
    have : 0 < r * R := by
      have : (0 : ℚ) < 200000000 * (1 - 1 / 2 ^ 24) := by norm_num
      linarith
    exact pos_of_mul_pos_left this hRpos.le
  have hrate : (0 : ℚ) < (rate : ℚ) := by linarith
  have d1 : r * ((rate : ℚ) * (1 - 1 / 2 ^ 24)) ≤ r * R :=
    mul_le_mul_of_nonneg_left a1 hrpos.le
  have d2 : r * R ≤ r * ((rate : ℚ) * (1 + 1 / 2 ^ 24)) :=
    mul_le_mul_of_nonneg_left a2 hrpos.le
  have f1 : r * (rate : ℚ) ≤ 200000000 * (1 + 1 / 2 ^ 22) := by
    have e : r * ((rate : ℚ) * (1 - 1 / 2 ^ 24)) = (r * (rate : ℚ)) * (1 - 1 / 2 ^ 24) := by ring
    rw [e] at d1
    generalize r * (rate : ℚ) = P at d1
    norm_num at d1 c2 ⊢
    linarith
  have f2 : 200000000 * (1 - 1 / 2 ^ 22) ≤ r * (rate : ℚ) := by
    have e : r * ((rate : ℚ) * (1 + 1 / 2 ^ 24)) = (r * (rate : ℚ)) * (1 + 1 / 2 ^ 24) := by ring
    rw [e] at d2
    generalize r * (rate : ℚ) = P at d2
    norm_num at d2 c1 ⊢
    linarith
  have hsmall : ¬ r > 0xffff := by
    intro hbig
    have : (65535 : ℚ) * 5000 < r * (rate : ℚ) := by
      have h1 : (65535 : ℚ) * 5000 < r * 5000 := by
        have : (65535 : ℚ) < r := hbig
        linarith
      have h2 : r * 5000 ≤ r * (rate : ℚ) := mul_le_mul_of_nonneg_left hr1.le hrpos.le
      linarith
    norm_num at f1
    linarith
  unfold clamp_clk_div
  simp only
  rw [if_neg hsmall, abs_le]
  have g1 : r ≤ 200000000 * (1 + 1 / 2 ^ 22) / (rate : ℚ) := (le_div_iff₀ hrate).mpr f1
  have g2 : 200000000 * (1 - 1 / 2 ^ 22) / (rate : ℚ) ≤ r := (div_le_iff₀ hrate).mpr f2
  have e1 : 200000000 * (1 + 1 / 2 ^ 22) / (rate : ℚ)
      = 200000000 / (rate : ℚ) + 200000000 / (rate : ℚ) / 2 ^ 22 := by ring
  have e2 : 200000000 * (1 - 1 / 2 ^ 22) / (rate : ℚ)
      = 200000000 / (rate : ℚ) - 200000000 / (rate : ℚ) / 2 ^ 22 := by ring
  rw [e1] at g1
  rw [e2] at g2
  constructor <;> linarith

/-- A `float` division whose exact quotient lies between `2^-20` and `2^40` gives a
positive `float` within the relative error `2^-24` of the quotient. -/
theorem float_div_rel (x y : ℚ) (hx : 0 < x) (hy : 0 < y) (h1 : 1 / 2 ^ 20 ≤ x / y)
    (h2 : x / y ≤ 2 ^ 40) :
    ∃ r : ℚ, float_div (some x) (some y) = some r ∧ 0 < r ∧
      x * (1 - 1 / 2 ^ 24) ≤ r * y ∧ r * y ≤ x * (1 + 1 / 2 ^ 24) := by
  obtain ⟨r, hr, b1, b2⟩ := float_round_rel (x / y) h1 h2
  have c1 : x * (1 - 1 / 2 ^ 24) ≤ r * y := by
    have := mul_le_mul_of_nonneg_right b1 hy.le
    have e : x / y * (1 - 1 / 2 ^ 24) * y = x * (1 - 1 / 2 ^ 24) := by
      field_simp
      ring
    linarith
  have c2 : r * y ≤ x * (1 + 1 / 2 ^ 24) := by
    have := mul_le_mul_of_nonneg_right b2 hy.le
    have e : x / y * (1 + 1 / 2 ^ 24) * y = x * (1 + 1 / 2 ^ 24) := by
      field_simp
      ring
    linarith
  have hrpos : 0 < r := by
    have : 0 < r * y := by
      have : (0 : ℚ) < x * (1 - 1 / 2 ^ 24) := mul_pos hx (by norm_num)
      linarith
    exact pos_of_mul_pos_left this hy.le
  exact ⟨r, by rw [float_div_some _ _ hy.ne', hr], hrpos, c1, c2⟩

/-- The divisor of the slow regime is the clamp 65535 or within the relative error
`2^-21` of the exact quotient. -/
theorem slow_divisor_near (rate : Nat) (h0 : 0 < rate) (h : rate ≤ 5000) :
    clamp_clk_div (float_div (float_div (float_div (some 100000000) (float_round (rate : ℚ)))
        (some 32)) (some 10)) = 65535 ∨
    |clamp_clk_div (float_div (float_div (float_div (some 100000000) (float_round (rate : ℚ)))
        (some 32)) (some 10)) - 100000000 / (rate : ℚ) / 32 / 10|
      ≤ 100000000 / (rate : ℚ) / 32 / 10 / 2 ^ 21 := by
  have hr1 : (1 : ℚ) ≤ (rate : ℚ) := by exact_mod_cast h0
  have hr2 : (rate : ℚ) ≤ 5000 := by exact_mod_cast h
  have hrate : (0 : ℚ) < (rate : ℚ) := by linarith
  obtain ⟨R, hR, a1, a2⟩ := float_round_rel (rate : ℚ) (by norm_num; linarith)
    (by norm_num; linarith)
  have hRlo : 1 / 2 ≤ R := by nlinarith
  have hRhi : R ≤ 5001 := by nlinarith
  have hRpos : 0 < R := by linarith
  obtain ⟨r1, e1, p1, b1, c1⟩ := float_div_rel 100000000 R (by norm_num) hRpos
    (by rw [le_div_iff₀ hRpos]; norm_num; linarith)
    (by rw [div_le_iff₀ hRpos]; norm_num; linarith)
  have r1lo : 1 ≤ r1 := by
    by_contra hn
    have hlt : r1 < 1 := not_le.mp hn
    have : r1 * R < 1 * 5001 := by
      calc r1 * R ≤ r1 * 5001 := mul_le_mul_of_nonneg_left hRhi p1.le
        _ < 1 * 5001 := by linarith
    norm_num at b1
    linarith
  have r1hi : r1 ≤ 2 ^ 28 := by
    by_contra hn
    have hlt : 2 ^ 28 < r1 := not_le.mp hn
    have : (2 : ℚ) ^ 28 * (1 / 2) < r1 * R := by
      calc (2 : ℚ) ^ 28 * (1 / 2) < r1 * (1 / 2) := by linarith
        _ ≤ r1 * R := mul_le_mul_of_nonneg_left hRlo p1.le
    norm_num at c1 this
    linarith
  obtain ⟨r2, e2, p2, b2, c2⟩ := float_div_rel r1 32 p1 (by norm_num)
    (by rw [le_div_iff₀ (by norm_num)]; norm_num; linarith)
    (by rw [div_le_iff₀ (by norm_num)]; norm_num at r1hi ⊢; linarith)
  have r2lo : 1 / 64 ≤ r2 := by
    norm_num at b2 ⊢
    linarith
  have r2hi : r2 ≤ 2 ^ 24 := by
    norm_num at c2 r1hi ⊢
    linarith
  obtain ⟨r3, e3, p3, b3, c3⟩ := float_div_rel r2 10 p2 (by norm_num)
    (by rw [le_div_iff₀ (by norm_num)]; norm_num; linarith)
    (by rw [div_le_iff₀ (by norm_num)]; norm_num at r2hi ⊢; linarith)
  rw [hR, e1, e2, e3]
  unfold clamp_clk_div
  simp only
  by_cases hbig : r3 > 0xffff
  · left
    rw [if_pos hbig]
  · right
    rw [if_neg hbig]
    have d1 : r1 * ((rate : ℚ) * (1 - 1 / 2 ^ 24)) ≤ r1 * R :=
      mul_le_mul_of_nonneg_left a1 p1.le
    have d2 : r1 * R ≤ r1 * ((rate : ℚ) * (1 + 1 / 2 ^ 24)) :=
      mul_le_mul_of_nonneg_left a2 p1.le
    have f1 := mul_le_mul_of_nonneg_right b2 hrate.le
    have f2 := mul_le_mul_of_nonneg_right c2 hrate.le
    have g1 := mul_le_mul_of_nonneg_right b3 hrate.le
    have g2 := mul_le_mul_of_nonneg_right c3 hrate.le
    have x1 : r1 * ((rate : ℚ) * (1 - 1 / 2 ^ 24)) = (r1 * (rate : ℚ)) * (1 - 1 / 2 ^ 24) := by
      ring
    have x2 : r1 * ((rate : ℚ) * (1 + 1 / 2 ^ 24)) = (r1 * (rate : ℚ)) * (1 + 1 / 2 ^ 24) := by
      ring
    have x3 : r1 * (1 - 1 / 2 ^ 24) * (rate : ℚ) = (r1 * (rate : ℚ)) * (1 - 1 / 2 ^ 24) := by
      ring
    have x4 : r1 * (1 + 1 / 2 ^ 24) * (rate : ℚ) = (r1 * (rate : ℚ)) * (1 + 1 / 2 ^ 24) := by
      ring
    have x5 : r2 * 32 * (rate : ℚ) = (r2 * (rate : ℚ)) * 32 := by ring
    have x6 : r2 * (1 - 1 / 2 ^ 24) * (rate : ℚ) = (r2 * (rate : ℚ)) * (1 - 1 / 2 ^ 24) := by
      ring
    have x7 : r2 * (1 + 1 / 2 ^ 24) * (rate : ℚ) = (r2 * (rate : ℚ)) * (1 + 1 / 2 ^ 24) := by
      ring
    have x8 : r3 * 10 * (rate : ℚ) = (r3 * (rate : ℚ)) * 10 := by ring
    rw [x1] at d1
    rw [x2] at d2
    rw [x3, x5] at f1
    rw [x4, x5] at f2
    rw [x6, x8] at g1
    rw [x7, x8] at g2
    have k1 : r3 * (rate : ℚ) ≤ 100000000 / 32 / 10 * (1 + 1 / 2 ^ 21) := by
      generalize r1 * (rate : ℚ) = P1 at d1 d2 f1 f2
      generalize r2 * (rate : ℚ) = P2 at f1 f2 g1 g2
      generalize r3 * (rate : ℚ) = P3 at g1 g2 ⊢
      norm_num at d1 d2 f1 f2 g1 g2 b1 c1 ⊢
      linarith
    have k2 : 100000000 / 32 / 10 * (1 - 1 / 2 ^ 21) ≤ r3 * (rate : ℚ) := by
      generalize r1 * (rate : ℚ) = P1 at d1 d2 f1 f2
      generalize r2 * (rate : ℚ) = P2 at f1 f2 g1 g2
      generalize r3 * (rate : ℚ) = P3 at g1 g2 ⊢
      norm_num at d1 d2 f1 f2 g1 g2 b1 c1 ⊢
      linarith
    have g1' : r3 ≤ 100000000 / 32 / 10 * (1 + 1 / 2 ^ 21) / (rate : ℚ) :=
      (le_div_iff₀ hrate).mpr k1
    have g2' : 100000000 / 32 / 10 * (1 - 1 / 2 ^ 21) / (rate : ℚ) ≤ r3 :=
      (div_le_iff₀ hrate).mpr k2
    have y1 : 100000000 / 32 / 10 * (1 + 1 / 2 ^ 21) / (rate : ℚ)
        = 100000000 / (rate : ℚ) / 32 / 10 + 100000000 / (rate : ℚ) / 32 / 10 / 2 ^ 21 := by
      ring
    have y2 : 100000000 / 32 / 10 * (1 - 1 / 2 ^ 21) / (rate : ℚ)
        = 100000000 / (rate : ℚ) / 32 / 10 - 100000000 / (rate : ℚ) / 32 / 10 / 2 ^ 21 := by
      ring
    rw [y1] at g1'
    rw [y2] at g2'
    rw [abs_le]
    constructor <;> linarith

/-- The divisor of the fast regime at 5001 Hz: `200000000 / 5001` rounds to 39992. -/
theorem clk_div_5001 (s : CaptureState) : (set_sys_clock 5001 s).clk_div_ = 39992 := by
  rw [(set_sys_clock_fast 5001 s (by decide)).2]
  have h1 : float_round ((5001 : Nat) : ℚ) = some 5001 := by
    rw [float_round_eval _ 5001 1 10242048 (-11) (by norm_num) (by norm_num) (by norm_num)
      (by decide) (by decide)]
    norm_num
  rw [h1, float_div_some _ _ (by norm_num)]
  rw [float_round_eval _ 200000000 5001 10237952 (-8) (by norm_num) (by norm_num)
    (by norm_num) (by decide) (by decide)]
  norm_num [clamp_clk_div]

/-- The divisor of the slow regime at 5000 Hz: `100000000 / 5000 / 32 / 10 = 62.5`, each
quotient a `float`. -/
theorem clk_div_5000 (s : CaptureState) : (set_sys_clock 5000 s).clk_div_ = 125 / 2 := by
  rw [(set_sys_clock_slow 5000 s (by decide)).2]
  have h1 : float_round ((5000 : Nat) : ℚ) = some 5000 := by
    rw [float_round_eval _ 5000 1 10240000 (-11) (by norm_num) (by norm_num) (by norm_num)
      (by decide) (by decide)]
    norm_num
  have h2 : float_round ((100000000 : ℚ) / 5000) = some 20000 := by
    rw [float_round_eval _ 20000 1 10240000 (-9) (by norm_num) (by norm_num) (by norm_num)
      (by decide) (by decide)]
    norm_num
  have h3 : float_round ((20000 : ℚ) / 32) = some 625 := by
    rw [float_round_eval _ 625 1 10240000 (-14) (by norm_num) (by norm_num) (by norm_num)
      (by decide) (by decide)]
    norm_num
  have h4 : float_round ((625 : ℚ) / 10) = some (125 / 2) := by
    rw [float_round_eval _ 125 2 16384000 (-18) (by norm_num) (by norm_num) (by norm_num)
      (by decide) (by decide)]
    norm_num
  rw [h1, float_div_some _ _ (by norm_num), h2, float_div_some _ _ (by norm_num), h3,
    float_div_some _ _ (by norm_num), h4]
  norm_num [clamp_clk_div]

/-- The divisor at rate 0: the quotient is `+inf` and the clamp replaces it. -/
theorem clk_div_zero (s : CaptureState) : (set_sys_clock 0 s).clk_div_ = 65535 := by
  rw [(set_sys_clock_slow 0 s (by decide)).2]
  have h1 : float_round ((0 : Nat) : ℚ) = some 0 := by
    unfold float_round
    simp
  rw [h1]
  simp [float_div, clamp_clk_div]

/-- C9 fails for the divisor: it is not the exact quotient but a `float`.  At 5001 Hz,
in the fast regime, `200000000 / 5001 = 39992.0016..` is rounded to the `float` 39992. -/
theorem rate_divisor_rounded :
    (5000 : Nat) < 5001 ∧
    (set_sys_clock 5001 idle_capture).clk_sys = 200000000 ∧
    (set_sys_clock 5001 idle_capture).clk_div_ = 39992 ∧
    (set_sys_clock 5001 idle_capture).clk_div_ ≠ (200000000 : ℚ) / ((5001 : Nat) : ℚ) := by
  refine ⟨by decide, (set_sys_clock_fast 5001 idle_capture (by decide)).1,
    clk_div_5001 idle_capture, ?_⟩
  rw [clk_div_5001 idle_capture]
  norm_num

/-- C9, as amended: `capture_start` runs the system clock at 200 MHz exactly when
`rate > 5000` and at 100 MHz otherwise, so that 5000 Hz and 5001 Hz fall into different
regimes.  The divisor is computed in `float`: in the fast regime it is the quotient
`200000000 / rate`, in the slow regime `100000000 / rate / 32 / 10`, with `rate`
converted to `float` and every division rounded to the nearest `float`; a result above
65535, the infinite quotient of the rate 0 included, is replaced by 65535.  For a 32-bit
rate the divisor of the fast regime is within the relative error `2^-22` of the exact
quotient, and the divisor of the slow regime is 65535 or within `2^-21` of it.  The
divisor, as an exact rational, never exceeds 65535.  The block "set sys clock" decides both, and
`capture_start` returns with its clock and divisor whenever the trigger array holds a
disabled slot. -/
theorem rate_regime (rate : Nat) (s : CaptureState) :
    (5000 < rate →
      (set_sys_clock rate s).clk_sys = 200000000 ∧
      (set_sys_clock rate s).clk_div_
        = clamp_clk_div (float_div (some 200000000) (float_round (rate : ℚ))) ∧
      (rate < 4294967296 →
        |(set_sys_clock rate s).clk_div_ - 200000000 / (rate : ℚ)|
          ≤ 200000000 / (rate : ℚ) / 2 ^ 22)) ∧
    (rate ≤ 5000 →
      (set_sys_clock rate s).clk_sys = 100000000 ∧
      (set_sys_clock rate s).clk_div_
        = clamp_clk_div
            (float_div (float_div (float_div (some 100000000) (float_round (rate : ℚ)))
              (some 32)) (some 10)) ∧
      (rate = 0 → (set_sys_clock rate s).clk_div_ = 65535) ∧
      (0 < rate →
        (set_sys_clock rate s).clk_div_ = 65535 ∨
        |(set_sys_clock rate s).clk_div_ - 100000000 / (rate : ℚ) / 32 / 10|
          ≤ 100000000 / (rate : ℚ) / 32 / 10 / 2 ^ 21)) ∧
    (set_sys_clock rate s).clk_div_ ≤ 65535 ∧
    (set_sys_clock 5000 s).clk_sys = 100000000 ∧
    (set_sys_clock 5001 s).clk_sys = 200000000 ∧
    (∀ (cc : capture_config_t) (samples pre : Nat),
      (∃ t ∈ cc.trigger, t.is_enabled = false) →
      ∃ s' : CaptureState, capture_start cc samples rate pre s = Except.ok s' ∧
        s'.clk_sys = (set_sys_clock rate s).clk_sys ∧
        s'.clk_div_ = (set_sys_clock rate s).clk_div_) := by
  refine ⟨?_, ?_, ?_, ?_, ?_, ?_⟩
  · intro h
    obtain ⟨a, b⟩ := set_sys_clock_fast rate s h
    refine ⟨a, b, ?_⟩
    intro h32
    rw [b]
    exact fast_divisor_near rate h h32
  · intro h
    have h2 : ¬ RATE_CHANGE_CLK < rate := by
      unfold RATE_CHANGE_CLK
      omega
    obtain ⟨a, b⟩ := set_sys_clock_slow rate s h2
    refine ⟨a, b, ?_, ?_⟩
    · intro h0
      subst h0
      exact clk_div_zero s
    · intro h0
      rw [b]
      exact slow_divisor_near rate h0 h
  · by_cases h : RATE_CHANGE_CLK < rate
    · rw [(set_sys_clock_fast rate s h).2]
      exact clamp_clk_div_le _
    · rw [(set_sys_clock_slow rate s h).2]
      exact clamp_clk_div_le _
  · exact (set_sys_clock_slow 5000 s (by decide)).1
  · exact (set_sys_clock_fast 5001 s (by decide)).1
  · intro cc samples pre h
    obtain ⟨s', hs'⟩ := capture_start_returns cc samples rate pre s h
    exact ⟨s', hs', capture_start_clock cc samples rate pre s s' hs'⟩

/-- C9, as amended, at the two sides of the threshold and at the rate 0: the divisor is
39992 at 5001 Hz, 62.5 at 5000 Hz and the clamp 65535 at rate 0. -/
theorem rate_regime_witness :
    ((set_sys_clock 5001 idle_capture).clk_sys = 200000000 ∧
      (set_sys_clock 5001 idle_capture).clk_div_
        = clamp_clk_div (float_div (some 200000000) (float_round ((5001 : Nat) : ℚ))) ∧
      ((5001 : Nat) < 4294967296 →
        |(set_sys_clock 5001 idle_capture).clk_div_ - 200000000 / ((5001 : Nat) : ℚ)|
          ≤ 200000000 / ((5001 : Nat) : ℚ) / 2 ^ 22)) ∧
    (set_sys_clock 5001 idle_capture).clk_div_ = 39992 ∧
    (set_sys_clock 5000 idle_capture).clk_sys = 100000000 ∧
    (set_sys_clock 5000 idle_capture).clk_div_ = 125 / 2 ∧
    (set_sys_clock 0 idle_capture).clk_div_ = 65535 ∧
    (set_sys_clock 1 idle_capture).clk_div_ ≤ 65535 ∧
    (∃ s' : CaptureState,
      capture_start idle_sump.capture_config_ 8 5001 3 idle_capture = Except.ok s' ∧
      s'.clk_sys = (set_sys_clock 5001 idle_capture).clk_sys ∧
      s'.clk_div_ = (set_sys_clock 5001 idle_capture).clk_div_) :=
  ⟨(rate_regime 5001 idle_capture).1 (by decide),
   clk_div_5001 idle_capture,
   ((rate_regime 5000 idle_capture).2.1 (by decide)).1,
   clk_div_5000 idle_capture,
   ((rate_regime 0 idle_capture).2.1 (by decide)).2.2.1 rfl,
   (rate_regime 1 idle_capture).2.2.1,
   (rate_regime 5001 idle_capture).2.2.2.2.2 idle_sump.capture_config_ 8 3
     ⟨{ is_enabled := false, pin := 0, match_ := trigger_match_t.TRIGGER_TYPE_LEVEL_LOW },
      by decide, rfl⟩⟩

/-! ## Commands -/

theorem getchar_timeout_us_snd (st : SumpState) :
    (getchar_timeout_us st).2 = { st with input := st.input.tail } := by
  obtain ⟨d, f, sg, cc, cfg, inp, out⟩ := st
  unfold getchar_timeout_us
  cases inp with
  | nil => rfl
  | cons o rest =>
    cases o <;> rfl

/-- The four reads of `get_uint32` take four outcomes off the link and leave the rest of
the state alone. -/
theorem get_uint32_snd (st : SumpState) :
    (get_uint32 st).2 = { st with input := st.input.tail.tail.tail.tail } := by
  unfold get_uint32
  simp only [getchar_timeout_us_snd]

theorem getchar_timeout_us_some (st : SumpState) (b : Nat) (rest : List (Option Nat))
    (h : st.input = some b :: rest) :
    getchar_timeout_us st = (((b % 256 : Nat) : Int), { st with input := rest }) := by
  unfold getchar_timeout_us
  rw [h]

/-- The command "flags" is handled by `read_flags`. -/
theorem sump_read_flags (st : SumpState) (rest : List (Option Nat))
    (h : st.input = some 0x82 :: rest) :
    sump_read st =
      match read_flags { st with input := rest } with
      | Except.error e => Except.error e
      | Except.ok st => Except.ok (command_t.COMMAND_NONE, st) := by
  unfold sump_read
  rw [getchar_timeout_us_some st 0x82 rest h]
  simp [PICO_ERROR_TIMEOUT]

/-- The command "divisor" stores its payload in `divisor_` and nothing else. -/
theorem sump_read_divisor (st : SumpState) (rest : List (Option Nat))
    (h : st.input = some 0x80 :: rest) :
    sump_read st = Except.ok (command_t.COMMAND_NONE,
      { st with divisor_ := (get_uint32 { st with input := rest }).1,
                input := rest.tail.tail.tail.tail }) := by
  unfold sump_read
  rw [getchar_timeout_us_some st 0x80 rest h]
  simp [PICO_ERROR_TIMEOUT, get_uint32_snd]

/-- For a stored divisor other than `0xFFFFFFFF`, the flags command (0x82) with payload
`f` stores `f` and sets the rate to `2 * 100000000 / (divisor + 1)` when bit 0 of `f` is
set and to `100000000 / (divisor + 1)` otherwise (200000000 for demux and divisor 0),
leaving the divisor alone; and the divisor command (0x80) stores its payload without
touching the rate. -/
theorem flags_rate :
    (∀ (st : SumpState) (rest : List (Option Nat)),
      st.input = some 0x82 :: rest → st.divisor_ < 0xFFFFFFFF →
      ∃ st' : SumpState,
        sump_read st = Except.ok (command_t.COMMAND_NONE, st') ∧
        st'.flags_ = (get_uint32 { st with input := rest }).1 ∧
        st'.divisor_ = st.divisor_ ∧
        st'.capture_config_.rate
          = (if st'.flags_ % 2 = 1 then 2 * 100000000 / (st.divisor_ + 1)
             else 100000000 / (st.divisor_ + 1)) ∧
        (st'.flags_ % 2 = 1 → st.divisor_ = 0 → st'.capture_config_.rate = 200000000)) ∧
    (∀ (st : SumpState) (rest : List (Option Nat)),
      st.input = some 0x80 :: rest →
      ∃ st' : SumpState,
        sump_read st = Except.ok (command_t.COMMAND_NONE, st') ∧
        st'.divisor_ = (get_uint32 { st with input := rest }).1 ∧
        st'.capture_config_ = st.capture_config_) := by
  constructor
  · intro st rest hin hdiv
    have hmod : (st.divisor_ + 1) % 4294967296 = st.divisor_ + 1 := by omega
    have hne : ¬ (st.divisor_ + 1 = 0) := by omega
    rw [sump_read_flags st rest hin]
    unfold read_flags
    simp only [get_uint32_snd, hmod, hne, if_false, FLAG_DEMUX_MODE, CLOCK_RATE,
      Nat.shiftLeft_zero, Nat.and_one_is_mod]
    by_cases hb : (get_uint32 { st with input := rest }).1 % 2 = 1
    · have hb2 : (get_uint32 { st with input := rest }).1 % 2 ≠ 0 := by omega
      rw [if_pos hb2]
      refine ⟨_, rfl, rfl, rfl, ?_, ?_⟩
      · simp only [hb, if_true]
      · intro _ h0
        simp only [h0]
    · have hb2 : ¬ (get_uint32 { st with input := rest }).1 % 2 ≠ 0 := by omega
      rw [if_neg hb2]
      refine ⟨_, rfl, rfl, rfl, ?_, ?_⟩
      · simp only [hb, if_false]
      · intro h1
        exact absurd h1 hb
  · intro st rest hin
    rw [sump_read_divisor st rest hin]
    exact ⟨_, rfl, rfl, rfl⟩

/-- The flags command with the demultiplex bit set after the divisor 0: the rate is
200 MHz. -/
theorem flags_rate_witness :
    ∃ st' : SumpState,
      sump_read { idle_sump with input := [some 0x82, some 1, some 0, some 0, some 0] }
        = Except.ok (command_t.COMMAND_NONE, st') ∧
      st'.flags_ = (get_uint32 { idle_sump with input := [some 1, some 0, some 0, some 0] }).1 ∧
      st'.divisor_ = 0 ∧
      st'.capture_config_.rate
        = (if st'.flags_ % 2 = 1 then 2 * 100000000 / (0 + 1) else 100000000 / (0 + 1)) ∧
      (st'.flags_ % 2 = 1 → (0 : Nat) = 0 → st'.capture_config_.rate = 200000000) :=
  flags_rate.1 { idle_sump with input := [some 0x82, some 1, some 0, some 0, some 0] }
    [some 1, some 0, some 0, some 0] rfl (by decide)

/-- C10 (defect): the divisor command stores `0xFFFFFFFF` like any other payload; the
flags command then computes `divisor_ + 1`, which wraps to 0, and divides by zero, where
the rate formula gives `100000000 / 4294967296 = 0`.  No rate is stored. -/
theorem flags_rate_divisor_max :
    sump_read { idle_sump with
        input := [some 0x80, some 0xFF, some 0xFF, some 0xFF, some 0xFF] }
      = Except.ok (command_t.COMMAND_NONE, { idle_sump with divisor_ := 0xFFFFFFFF }) ∧
    sump_read { idle_sump with
        divisor_ := 0xFFFFFFFF, input := [some 0x82, some 0, some 0, some 0, some 0] }
      = Except.error Fault.division_by_zero ∧
    ¬ ∃ st' : SumpState,
      sump_read { idle_sump with
          divisor_ := 0xFFFFFFFF, input := [some 0x82, some 0, some 0, some 0, some 0] }
        = Except.ok (command_t.COMMAND_NONE, st') := by
  refine ⟨rfl, rfl, ?_⟩
  rintro ⟨st', h⟩
  have h2 : sump_read { idle_sump with
      divisor_ := 0xFFFFFFFF, input := [some 0x82, some 0, some 0, some 0, some 0] }
      = Except.error Fault.division_by_zero := rfl
  rw [h2] at h
  cases h

theorem u32_lt (x : Int) : u32 x < 4294967296 := by
  unfold u32
  omega

/-- The value `get_uint32` returns fits 32 bits. -/
theorem get_uint32_lt (st : SumpState) : (get_uint32 st).1 < 4294967296 := by
  unfold get_uint32
  simp only
  have h : ∀ a b : Nat, a < 2 ^ 32 → b < 2 ^ 32 → a ||| b < 2 ^ 32 :=
    fun a b ha hb => Nat.or_lt_two_pow ha hb
  exact h _ _ (h _ _ (h _ _ (u32_lt _) (u32_lt _)) (u32_lt _)) (u32_lt _)

theorem getchar_timeout_us_fst (st st' : SumpState) (h : st.input = st'.input) :
    (getchar_timeout_us st).1 = (getchar_timeout_us st').1 := by
  unfold getchar_timeout_us
  rw [h]
  rcases st'.input with _ | ⟨o, rest⟩
  · rfl
  · cases o <;> rfl

/-- The value `get_uint32` returns depends on the link alone. -/
theorem get_uint32_fst (st st' : SumpState) (h : st.input = st'.input) :
    (get_uint32 st).1 = (get_uint32 st').1 := by
  unfold get_uint32
  simp only [getchar_timeout_us_snd]
  rw [getchar_timeout_us_fst st st' h,
    getchar_timeout_us_fst { st with input := st.input.tail }
      { st' with input := st'.input.tail } (by simp only [h]),
    getchar_timeout_us_fst { st with input := st.input.tail.tail }
      { st' with input := st'.input.tail.tail } (by simp only [h]),
    getchar_timeout_us_fst { st with input := st.input.tail.tail.tail }
      { st' with input := st'.input.tail.tail.tail } (by simp only [h])]

/-- The command "sample size and pre-trigger size" (0x81). -/
theorem sump_read_legacy_size (st : SumpState) (rest : List (Option Nat))
    (h : st.input = some 0x81 :: rest) :
    sump_read st = Except.ok (command_t.COMMAND_NONE,
      { st with
        capture_config_ :=
          { st.capture_config_ with
            total_samples := ((get_uint32 { st with input := rest }).1 % 65536) * 4 + 4,
            pre_trigger_samples :=
              u32 (((((get_uint32 { st with input := rest }).1 % 65536) * 4 + 4 : Nat) : Int)
                - (((((get_uint32 { st with input := rest }).1 >>> 16) * 4 + 4 : Nat)) : Int)) },
        input := rest.tail.tail.tail.tail }) := by
  unfold sump_read
  rw [getchar_timeout_us_some st 0x81 rest h]
  simp [PICO_ERROR_TIMEOUT, get_uint32_snd]

/-- C11: the command 0x81 with payload `v` sets `total_samples` to `(v mod 65536) * 4 + 4`
and `pre_trigger_samples` to `total_samples - ((v >> 16) * 4 + 4)` modulo `2^32`, leaves
the rest of `capture_config_` alone, and both results are the same whatever values the
two fields held before. -/
theorem legacy_size_command (st : SumpState) (rest : List (Option Nat))
    (hin : st.input = some 0x81 :: rest) :
    (∃ st' : SumpState,
      sump_read st = Except.ok (command_t.COMMAND_NONE, st') ∧
      st'.capture_config_.total_samples
        = ((get_uint32 { st with input := rest }).1 % 65536) * 4 + 4 ∧
      st'.capture_config_.pre_trigger_samples
        = (((get_uint32 { st with input := rest }).1 % 65536) * 4 + 4 + 4294967296
            - (((get_uint32 { st with input := rest }).1 / 65536) * 4 + 4)) % 4294967296 ∧
      st'.capture_config_.rate = st.capture_config_.rate ∧
      st'.capture_config_.channels = st.capture_config_.channels ∧
      st'.capture_config_.trigger = st.capture_config_.trigger) ∧
    (∀ t n : Nat, ∃ st' st'' : SumpState,
      sump_read st = Except.ok (command_t.COMMAND_NONE, st') ∧
      sump_read { st with capture_config_ :=
          { st.capture_config_ with total_samples := t, pre_trigger_samples := n } }
        = Except.ok (command_t.COMMAND_NONE, st'') ∧
      st''.capture_config_.total_samples = st'.capture_config_.total_samples ∧
      st''.capture_config_.pre_trigger_samples = st'.capture_config_.pre_trigger_samples) := by
  constructor
  · refine ⟨_, sump_read_legacy_size st rest hin, rfl, ?_, rfl, rfl, rfl⟩
    have hv := get_uint32_lt { st with input := rest }
    simp only [Nat.shiftRight_eq_div_pow]
    unfold u32
    omega
  · intro t n
    have hv : (get_uint32
        { ({ st with capture_config_ :=
            { st.capture_config_ with total_samples := t, pre_trigger_samples := n } } :
            SumpState) with input := rest }).1
        = (get_uint32 { st with input := rest }).1 := get_uint32_fst _ _ rfl
    refine ⟨_, _, sump_read_legacy_size st rest hin,
      sump_read_legacy_size _ rest hin, ?_, ?_⟩
    · simp only at hv ⊢
      rw [hv]
    · simp only at hv ⊢
      rw [hv]

/-- C11 on the payload `0x0003000F` after other sample counts were stored: 64 samples in
all, 48 of them before the trigger. -/
theorem legacy_size_command_witness :
    (∃ st' : SumpState,
      sump_read (size_request 1000 900 [some 0x81, some 0x0F, some 0, some 3, some 0])
        = Except.ok (command_t.COMMAND_NONE, st') ∧
      st'.capture_config_.total_samples = 64 ∧
      st'.capture_config_.pre_trigger_samples = 48) ∧
    (get_uint32 { size_request 1000 900 [] with input := [some 0x0F, some 0, some 3, some 0] }).1
      = 0x0003000F :=
  ⟨by
    obtain ⟨st', h1, h2, h3, -⟩ :=
      (legacy_size_command (size_request 1000 900 [some 0x81, some 0x0F, some 0, some 3, some 0])
        [some 0x0F, some 0, some 3, some 0] rfl).1
    exact ⟨st', h1, h2.trans (by decide), h3.trans (by decide)⟩,
   by decide⟩

theorem lor_bytes (b0 b1 b2 b3 : Nat) (h0 : b0 < 256) (h1 : b1 < 256) (h2 : b2 < 256) :
    b0 ||| b1 * 256 ||| b2 * 65536 ||| b3 * 16777216
      = b0 + 256 * b1 + 65536 * b2 + 16777216 * b3 := by
  have e1 : b0 ||| b1 * 256 = b0 + 256 * b1 := by
    have h := Nat.mul_add_lt_is_or (i := 8) (b := b0) (by norm_num; exact h0) b1
    rw [Nat.lor_comm, Nat.mul_comm b1 256]
    norm_num at h
    omega
  have e2 : (b0 + 256 * b1) ||| b2 * 65536 = b0 + 256 * b1 + 65536 * b2 := by
    have h := Nat.mul_add_lt_is_or (i := 16) (b := b0 + 256 * b1) (by norm_num; omega) b2
    rw [Nat.lor_comm, Nat.mul_comm b2 65536]
    norm_num at h
    omega
  have e3 : (b0 + 256 * b1 + 65536 * b2) ||| b3 * 16777216
      = b0 + 256 * b1 + 65536 * b2 + 16777216 * b3 := by
    have h := Nat.mul_add_lt_is_or (i := 24) (b := b0 + 256 * b1 + 65536 * b2)
      (by norm_num; omega) b3
    rw [Nat.lor_comm, Nat.mul_comm b3 16777216]
    norm_num at h
    omega
  rw [e1, e2, e3]

/-- On four bytes `get_uint32` returns the little-endian value. -/
theorem get_uint32_bytes (st : SumpState) (b0 b1 b2 b3 : Nat) (rest : List (Option Nat))
    (h : st.input = some b0 :: some b1 :: some b2 :: some b3 :: rest)
    (h0 : b0 < 256) (h1 : b1 < 256) (h2 : b2 < 256) (h3 : b3 < 256) :
    get_uint32 st
      = (b0 + 256 * b1 + 65536 * b2 + 16777216 * b3, { st with input := rest }) := by
  have g0 := getchar_timeout_us_some st b0 _ h
  have g1 := getchar_timeout_us_some
    { st with input := some b1 :: some b2 :: some b3 :: rest } b1 _ rfl
  have g2 := getchar_timeout_us_some { st with input := some b2 :: some b3 :: rest } b2 _ rfl
  have g3 := getchar_timeout_us_some { st with input := some b3 :: rest } b3 _ rfl
  have u0 : u32 ((b0 % 256 : Nat) : Int) = b0 := by
    unfold u32
    omega
  have u1 : u32 (((b1 % 256 : Nat) : Int) * 2 ^ 8) = b1 * 256 := by
    unfold u32
    omega
  have u2 : u32 (((b2 % 256 : Nat) : Int) * 2 ^ 16) = b2 * 65536 := by
    unfold u32
    omega
  have u3 : u32 (((b3 % 256 : Nat) : Int) * 2 ^ 24) = b3 * 16777216 := by
    unfold u32
    omega
  unfold get_uint32
  simp only [g0, g1, g2, g3, u0, u1, u2, u3]
  rw [lor_bytes b0 b1 b2 b3 h0 h1 h2]

/-- C12 (defect): `get_uint32` makes its four reads, but a read that times out returns -1,
which is shifted and OR-ed into the value like a byte.  After the byte `0x12` and three
timeouts the value is `0xFFFFFF12`, where a timed-out byte counted as 0 gives `0x12`;
four timeouts give `0xFFFFFFFF`, not 0. -/
theorem get_uint32_timeout :
    (get_uint32 { idle_sump with input := [some 0x12, none, none, none, some 7] }).1
      = 0xFFFFFF12 ∧
    (get_uint32 { idle_sump with input := [some 0x12, none, none, none, some 7] }).2.input
      = [some 7] ∧
    0x12 + 256 * 0 + 65536 * 0 + 16777216 * 0 = 0x12 ∧
    (get_uint32 { idle_sump with input := [] }).1 = 0xFFFFFFFF ∧
    (get_uint32 { idle_sump with input := [some 0x12, some 0x34, some 0x56, some 0x78] }).1
      = 0x12 + 256 * 0x34 + 65536 * 0x56 + 16777216 * 0x78 := by
  decide

/-- C13, as amended: on the command 0x04 `sump_read` sends the tagged fields in the order
device name, firmware version, sample memory, maximum sample rate, channel count,
protocol version, then the byte 0; the strings are null-terminated, the sample memory
and the maximum sample rate take four bytes each, least significant first, the channel
count and the protocol version one byte each. -/
theorem metadata_response (st : SumpState) (rest : List (Option Nat))
    (hin : st.input = some 0x04 :: rest) :
    sump_read st = Except.ok (command_t.COMMAND_NONE,
      { st with
        input := rest,
        output := st.output ++ metadata_bytes st.capture_config_.channels }) := by
  unfold sump_read
  rw [getchar_timeout_us_some st 0x04 rest hin]
  simp [PICO_ERROR_TIMEOUT, send_metadata, putchar, put_string, put_uint32, metadata_bytes,
    le32, MAX_TOTAL_SAMPLES, MAX_SAMPLE_RATE, PROTOCOL_VERSION, Nat.shiftRight_eq_div_pow]

/-- C13 on the protocol state after start-up: the 29 bytes of the response. -/
theorem metadata_response_witness :
    sump_read { idle_sump with input := [some 0x04] } = Except.ok (command_t.COMMAND_NONE,
      { ({ idle_sump with input := [some 0x04] } : SumpState) with
        input := [],
        output := ({ idle_sump with input := [some 0x04] } : SumpState).output ++
          metadata_bytes ({ idle_sump with input := [some 0x04] } : SumpState).capture_config_.channels }) ∧
    metadata_bytes 16 =
      [0x01, 0x52, 0x50, 0x32, 0x30, 0x34, 0x30, 0x00,
       0x02, 0x76, 0x30, 0x2E, 0x31, 0x00,
       0x21, 0x40, 0x0D, 0x03, 0x00,
       0x23, 0x00, 0xC2, 0xEB, 0x0B,
       0x40, 0x10,
       0x41, 0x02,
       0x00] :=
  ⟨metadata_response { idle_sump with input := [some 0x04] } [] rfl, by decide⟩

/-- C13 fails as stated: the channel count and the protocol version go out as one byte
each, so the response to 0x04 has 29 bytes and differs from the 35 bytes of the format
with four bytes in every numeric field. -/
theorem metadata_short_fields :
    Except.map (fun r => r.2.output) (sump_read { idle_sump with input := [some 0x04] })
      = Except.ok
        [0x01, 0x52, 0x50, 0x32, 0x30, 0x34, 0x30, 0x00,
         0x02, 0x76, 0x30, 0x2E, 0x31, 0x00,
         0x21, 0x40, 0x0D, 0x03, 0x00,
         0x23, 0x00, 0xC2, 0xEB, 0x0B,
         0x40, 0x10,
         0x41, 0x02,
         0x00] ∧
    metadata_bytes_wide 16 =
        [0x01, 0x52, 0x50, 0x32, 0x30, 0x34, 0x30, 0x00,
         0x02, 0x76, 0x30, 0x2E, 0x31, 0x00,
         0x21, 0x40, 0x0D, 0x03, 0x00,
         0x23, 0x00, 0xC2, 0xEB, 0x0B,
         0x40, 0x10, 0x00, 0x00, 0x00,
         0x41, 0x02, 0x00, 0x00, 0x00,
         0x00] ∧
    Except.map (fun r => r.2.output) (sump_read { idle_sump with input := [some 0x04] })
      ≠ Except.ok (metadata_bytes_wide 16) := by
  refine ⟨rfl, by decide, ?_⟩
  have h : Except.map (fun r => r.2.output) (sump_read { idle_sump with input := [some 0x04] })
      = Except.ok (metadata_bytes 16) := rfl
  rw [h]
  intro hc
  have h2 : metadata_bytes 16 = metadata_bytes_wide 16 := by
    injection hc
  revert h2
  decide

theorem sump_reset_stages (st : SumpState) (h : st.sump_trigger_.length = 4) :
    sump_reset st =
      { st with
        sump_trigger_ := List.replicate 4 { mask := 0, values := 0, configuration := 0 } } := by
  obtain ⟨d, f, sg, cc, cfg, inp, out⟩ := st
  simp only at h
  rcases sg with _ | ⟨a, _ | ⟨b, _ | ⟨c, _ | ⟨e, _ | ⟨g, l⟩⟩⟩⟩⟩
  · simp at h
  · simp at h
  · simp at h
  · simp at h
  · rfl
  · simp at h

/-- The command "reset" is returned to the main loop without a change of the state. -/
theorem sump_read_reset (st : SumpState) (rest : List (Option Nat))
    (h : st.input = some 0x00 :: rest) :
    sump_read st = Except.ok (command_t.COMMAND_RESET, { st with input := rest }) := by
  unfold sump_read
  rw [getchar_timeout_us_some st 0x00 rest h]
  simp [PICO_ERROR_TIMEOUT]

/-- C14, as amended: after a reset command (byte 0x00 read by `sump_read`, then
`sump_reset` called by the main loop) the mask, the values and the configuration of each
of the four stages are zero; the divisor and the flags keep their values. -/
theorem reset_clears_stages (cap : CaptureState) (st : SumpState) (rest : List (Option Nat))
    (hin : st.input = some 0x00 :: rest) (hlen : st.sump_trigger_.length = STAGES_COUNT) :
    ∃ (cap' : CaptureState) (st' : SumpState),
      main_poll cap st = Except.ok (cap', st') ∧
      st'.sump_trigger_ = List.replicate 4 { mask := 0, values := 0, configuration := 0 } ∧
      st'.divisor_ = st.divisor_ ∧ st'.flags_ = st.flags_ ∧
      capture_is_busy cap' = false := by
  unfold main_poll
  rw [sump_read_reset st rest hin]
  simp only [main_dispatch, reduceCtorEq, if_false, if_true]
  rw [sump_reset_stages { st with input := rest } hlen]
  refine ⟨_, _, rfl, rfl, rfl, rfl, ?_⟩
  unfold capture_is_busy
  by_cases hb : cap.is_capturing_ = true
  · simp only [hb, if_true]
    unfold capture_abort capture_stop
    rfl
  · simp only [hb]
    simpa using hb

/-- C14 on a protocol state with divisor 5, flags `0x100` and non-zero stage registers. -/
theorem reset_clears_stages_witness :
    ∃ (cap' : CaptureState) (st' : SumpState),
      main_poll idle_capture
          { idle_sump with
            divisor_ := 5, flags_ := 0x100,
            sump_trigger_ := List.replicate 4 { mask := 1, values := 2, configuration := 3 },
            input := [some 0x00] }
        = Except.ok (cap', st') ∧
      st'.sump_trigger_ = List.replicate 4 { mask := 0, values := 0, configuration := 0 } ∧
      st'.divisor_ = 5 ∧ st'.flags_ = 0x100 ∧
      capture_is_busy cap' = false :=
  reset_clears_stages idle_capture
    { idle_sump with
      divisor_ := 5, flags_ := 0x100,
      sump_trigger_ := List.replicate 4 { mask := 1, values := 2, configuration := 3 },
      input := [some 0x00] } [] rfl rfl

/-- C14 fails as stated: the reset leaves the divisor and the flags as they were; after
divisor 5 and flags `0x100` they are still 5 and `0x100`, not 0. -/
theorem reset_keeps_divisor_and_flags :
    Except.map (fun r => (r.2.divisor_, r.2.flags_))
        (main_poll idle_capture
          { idle_sump with
            divisor_ := 5, flags_ := 0x100,
            sump_trigger_ := List.replicate 4 { mask := 1, values := 2, configuration := 3 },
            input := [some 0x00] })
      = Except.ok (5, 0x100) :=
  rfl

/-! ## Arming, abort and completion -/

theorem set_sample_counts_eq (samples rate pre : Nat) (s : CaptureState) :
    (set_sample_counts samples rate pre s).pre_trigger_samples_ = min pre 1024 ∧
    (set_sample_counts samples rate pre s).post_trigger_samples_
      = min (u32 ((samples : Int) - (pre : Int))) 100000 := by
  unfold set_sample_counts
  simp only [PRE_TRIGGER_BUFFER_SIZE_eq, POST_TRIGGER_BUFFER_SIZE]
  by_cases h1 : pre > 1024 <;> by_cases h2 : u32 ((samples : Int) - (pre : Int)) > 100000 <;>
    simp only [h1, h2, if_true, if_false] <;> constructor <;> omega

theorem set_sys_clock_counts (rate : Nat) (s : CaptureState) :
    (set_sys_clock rate s).pre_trigger_samples_ = s.pre_trigger_samples_ ∧
    (set_sys_clock rate s).post_trigger_samples_ = s.post_trigger_samples_ := by
  unfold set_sys_clock
  by_cases h : rate > RATE_CHANGE_CLK
  · rw [if_pos h]
    by_cases hc : s.clk_sys = 200000000 <;> simp [hc]
  · rw [if_neg h]
    by_cases hc : s.clk_sys = 100000000 <;> simp [hc]

theorem set_trigger_counts (s : CaptureState) (t : trigger_t) :
    (set_trigger s t).pre_trigger_samples_ = s.pre_trigger_samples_ ∧
    (set_trigger s t).post_trigger_samples_ = s.post_trigger_samples_ := by
  unfold set_trigger
  split <;> exact ⟨rfl, rfl⟩

theorem init_triggers_counts (l : List trigger_t) :
    ∀ s s' : CaptureState, init_triggers l s = Except.ok s' →
      s'.pre_trigger_samples_ = s.pre_trigger_samples_ ∧
      s'.post_trigger_samples_ = s.post_trigger_samples_ := by
  induction l with
  | nil =>
    intro s s' h
    simp [init_triggers] at h
  | cons t rest ih =>
    intro s s' h
    unfold init_triggers at h
    by_cases ht : t.is_enabled = true
    · rw [if_pos ht] at h
      obtain ⟨a, b⟩ := ih _ _ h
      obtain ⟨c, d⟩ := set_trigger_counts s t
      exact ⟨a.trans c, b.trans d⟩
    · rw [if_neg ht] at h
      cases h
      exact ⟨rfl, rfl⟩

/-- The sample counts `capture_start` leaves are those of its head. -/
theorem capture_start_counts (cc : capture_config_t) (samples rate pre : Nat)
    (s s' : CaptureState) (h : capture_start cc samples rate pre s = Except.ok s') :
    s'.pre_trigger_samples_ = (set_sample_counts samples rate pre s).pre_trigger_samples_ ∧
    s'.post_trigger_samples_ = (set_sample_counts samples rate pre s).post_trigger_samples_ := by
  unfold capture_start at h
  simp only at h
  split at h
  · cases h
  · rename_i s2 heq
    cases h
    obtain ⟨a, b⟩ := init_triggers_counts _ _ _ heq
    obtain ⟨c, d⟩ := set_sys_clock_counts rate (set_sample_counts samples rate pre s)
    simp only at a b ⊢
    exact ⟨a.trans c, b.trans d⟩

/-- C15: for 32-bit `samples` and `pre_trigger_samples`, `capture_start` (which returns
whenever a trigger slot is disabled) arms `min(pre_trigger_samples, 1024)` pre-trigger
samples and `min(samples - pre_trigger_samples, 100000)` post-trigger samples, the
difference taken modulo `2^32`; so the first is at most 1024, the second at most 100000,
and when neither bound is exceeded the second is `samples` minus the first. -/
theorem clamp_at_arm (cc : capture_config_t) (samples rate pre : Nat) (s : CaptureState)
    (hs : samples < 4294967296) (hp : pre < 4294967296)
    (hdis : ∃ t ∈ cc.trigger, t.is_enabled = false) :
    ∃ s' : CaptureState, capture_start cc samples rate pre s = Except.ok s' ∧
      s'.pre_trigger_samples_ = min pre PRE_TRIGGER_BUFFER_SIZE ∧
      s'.post_trigger_samples_
        = min ((samples + 4294967296 - pre) % 4294967296) POST_TRIGGER_BUFFER_SIZE ∧
      (pre ≤ samples →
        s'.post_trigger_samples_ = min (samples - pre) POST_TRIGGER_BUFFER_SIZE) ∧
      s'.pre_trigger_samples_ ≤ PRE_TRIGGER_BUFFER_SIZE ∧
      s'.post_trigger_samples_ ≤ POST_TRIGGER_BUFFER_SIZE ∧
      (pre ≤ PRE_TRIGGER_BUFFER_SIZE →
        (samples + 4294967296 - pre) % 4294967296 ≤ POST_TRIGGER_BUFFER_SIZE →
        s'.pre_trigger_samples_ ≤ samples ∧
        s'.post_trigger_samples_ = samples - s'.pre_trigger_samples_) := by
  obtain ⟨s', hs'⟩ := capture_start_returns cc samples rate pre s hdis
  obtain ⟨a, b⟩ := capture_start_counts cc samples rate pre s s' hs'
  obtain ⟨c, d⟩ := set_sample_counts_eq samples rate pre s
  rw [c] at a
  rw [d] at b
  have hu : u32 ((samples : Int) - (pre : Int)) = (samples + 4294967296 - pre) % 4294967296 := by
    unfold u32
    omega
  rw [hu] at b
  simp only [PRE_TRIGGER_BUFFER_SIZE_eq, POST_TRIGGER_BUFFER_SIZE]
  refine ⟨s', hs', a, b, ?_, ?_, ?_, ?_⟩
  · intro hle
    rw [b]
    congr 1
    omega
  · rw [a]
    omega
  · rw [b]
    omega
  · intro h1 h2
    rw [a, b]
    omega

/-- C15 on a request beyond both buffers: 300000 samples, 3000 of them before the
trigger. -/
theorem clamp_at_arm_witness :
    ∃ s' : CaptureState,
      capture_start idle_sump.capture_config_ 300000 1000 3000 idle_capture = Except.ok s' ∧
      s'.pre_trigger_samples_ = min 3000 PRE_TRIGGER_BUFFER_SIZE ∧
      s'.post_trigger_samples_
        = min ((300000 + 4294967296 - 3000) % 4294967296) POST_TRIGGER_BUFFER_SIZE ∧
      (3000 ≤ 300000 →
        s'.post_trigger_samples_ = min (300000 - 3000) POST_TRIGGER_BUFFER_SIZE) ∧
      s'.pre_trigger_samples_ ≤ PRE_TRIGGER_BUFFER_SIZE ∧
      s'.post_trigger_samples_ ≤ POST_TRIGGER_BUFFER_SIZE ∧
      (3000 ≤ PRE_TRIGGER_BUFFER_SIZE →
        (300000 + 4294967296 - 3000) % 4294967296 ≤ POST_TRIGGER_BUFFER_SIZE →
        s'.pre_trigger_samples_ ≤ 300000 ∧
        s'.post_trigger_samples_ = 300000 - s'.pre_trigger_samples_) :=
  clamp_at_arm idle_sump.capture_config_ 300000 1000 3000 idle_capture (by decide) (by decide)
    ⟨{ is_enabled := false, pin := 0, match_ := trigger_match_t.TRIGGER_TYPE_LEVEL_LOW },
      by decide, rfl⟩

/-- C16: `capture_abort` leaves the engine not busy and does not call the completion
callback; the completion interrupt that follows it does not call the callback either,
and leaves the busy flag and the pre-trigger window as the abort left them. -/
theorem abort_defused (s : CaptureState) :
    capture_is_busy (capture_abort s) = false ∧
    (capture_abort s).handler_calls = s.handler_calls ∧
    (capture_abort s).pre_trigger_first_ = s.pre_trigger_first_ ∧
    (capture_abort s).pre_trigger_count_ = s.pre_trigger_count_ ∧
    (capture_complete_handler (capture_abort s)).handler_calls = s.handler_calls ∧
    capture_is_busy (capture_complete_handler (capture_abort s)) = false ∧
    (capture_complete_handler (capture_abort s)).pre_trigger_first_ = s.pre_trigger_first_ ∧
    (capture_complete_handler (capture_abort s)).pre_trigger_count_ = s.pre_trigger_count_ := by
  obtain ⟨pts, post, cnt, fst, tc, mask, rate, clk, pre, postb, cap, ab, sys, tcount, sm,
    armed, calls⟩ := s
  unfold capture_is_busy capture_complete_handler capture_abort capture_stop
  by_cases hc : sys = 100000000
  · simp [hc]
  · simp [hc]

/-- C17 (defect): `capture_abort` sets `is_aborting_` and only a completion interrupt
clears it; `capture_start` does not.  A capture started directly after an abort therefore
has its own completion interrupt taken for the one of the aborted capture: the callback
is not called and the engine stays busy.  The same capture completes with one call of the
callback when an interrupt came between the abort and the start, or after a completed
capture. -/
theorem completion_lost_after_abort :
    Except.map (fun s => (s.handler_calls, capture_is_busy s, s.is_aborting_))
        (engine_run [start_event, engine_event.abort, start_event] idle_capture)
      = Except.ok (0, true, true) ∧
    Except.map (fun s => (s.handler_calls, capture_is_busy s, s.is_aborting_))
        (engine_run [start_event, engine_event.abort, start_event, engine_event.complete]
          idle_capture)
      = Except.ok (0, true, false) ∧
    Except.map (fun s => (s.handler_calls, capture_is_busy s, s.is_aborting_))
        (engine_run [start_event, engine_event.abort, engine_event.complete, start_event,
          engine_event.complete] idle_capture)
      = Except.ok (1, false, false) ∧
    Except.map (fun s => (s.handler_calls, capture_is_busy s, s.is_aborting_))
        (engine_run [start_event, engine_event.complete, start_event] idle_capture)
      = Except.ok (1, true, false) ∧
    Except.map (fun s => (s.handler_calls, capture_is_busy s, s.is_aborting_))
        (engine_run [start_event, engine_event.complete, start_event, engine_event.complete]
          idle_capture)
      = Except.ok (2, false, false) :=
  ⟨rfl, rfl, rfl, rfl, rfl⟩

theorem update_slot_get {α : Type} (l : List α) (i : Nat) (f : α → α) :
    (update_slot l i f)[i]? = l[i]?.map f := by
  induction l generalizing i with
  | nil => rfl
  | cons x xs ih =>
    cases i with
    | zero => simp [update_slot]
    | succ i => simp [update_slot, ih]

/-- The stage loop has executed a `return` exactly when it holds four triggers. -/
theorem prepare_stages_returned (cfg : config_t) (sgs : List sump_trigger_t) :
    ∀ p : prepare_state, p.trigger.length = 4 → p.trigger_count < 4 → p.returned = false →
      ((prepare_stages cfg sgs p).returned = true ↔ 3 < (prepare_stages cfg sgs p).trigger_count) := by
  induction sgs with
  | nil =>
    intro p _ ht hr
    simp only [prepare_stages, hr]
    constructor
    · intro h
      cases h
    · intro h
      omega
  | cons sg rest ih =>
    intro p hl ht hr
    obtain ⟨a, b, _, d⟩ := prepare_stage_spec cfg sg p hl ht hr
    simp only [prepare_stages]
    by_cases hret : (prepare_stage cfg sg p).returned = true
    · rw [if_pos hret]
      exact d
    · rw [if_neg hret]
      have h3 : ¬ 3 < (prepare_stage cfg sg p).trigger_count := fun h => hret (d.mpr h)
      exact ih _ a (by omega) (by simpa using hret)

/-- The stage loop over the stages `sgs` followed by one more stage. -/
theorem prepare_stages_append (cfg : config_t) (sgs : List sump_trigger_t)
    (last : sump_trigger_t) :
    ∀ p : prepare_state, p.returned = false →
      prepare_stages cfg (sgs ++ [last]) p
        = if (prepare_stages cfg sgs p).returned then prepare_stages cfg sgs p
          else prepare_stage cfg last (prepare_stages cfg sgs p) := by
  induction sgs with
  | nil =>
    intro p hr
    simp [prepare_stages, hr]
  | cons sg rest ih =>
    intro p _
    simp only [List.cons_append, prepare_stages]
    by_cases hret : (prepare_stage cfg sg p).returned = true
    · simp only [hret, if_true]
    · simp only [hret]
      exact ih _ (by simpa using hret)

/-- When the last stage is not active (zero mask, no start bit or a trigger level other
than 0) and fewer than four triggers were produced, the slot after the last trigger is
disabled at the end of `prepare_adquisition`: the iteration of the last stage cleared it. -/
theorem last_stage_inactive_clears (st : SumpState) (sgs : List sump_trigger_t)
    (last : sump_trigger_t) (hl : st.capture_config_.trigger.length = 4)
    (hs : st.sump_trigger_ = sgs ++ [last])
    (hin : ¬ (last.mask ≠ 0 ∧ (last.configuration &&& TRIGGER_START ≠ 0 ∧
      last.configuration &&& TRIGGER_LEVEL_MASK = 0)))
    (hk : (prepare_run st).trigger_count < 4) :
    ∃ t : trigger_t,
      (prepare_adquisition st).capture_config_.trigger[(prepare_run st).trigger_count]? = some t ∧
      t.is_enabled = false := by
  unfold prepare_adquisition
  simp only
  unfold prepare_run at hk ⊢
  rw [hs] at hk ⊢
  have hret := prepare_stages_returned st.config_ sgs
    { trigger := st.capture_config_.trigger, trigger_count := 0, returned := false }
    hl (Nat.zero_lt_succ 3) rfl
  obtain ⟨hlen, _, _⟩ := prepare_stages_spec st.config_ sgs
    { trigger := st.capture_config_.trigger, trigger_count := 0, returned := false }
    hl (Nat.zero_lt_succ 3) rfl
  rw [prepare_stages_append st.config_ sgs last _ rfl] at hk ⊢
  generalize prepare_stages st.config_ sgs
    { trigger := st.capture_config_.trigger, trigger_count := 0, returned := false } = q
    at hk hret hlen ⊢
  by_cases hq : q.returned = true
  · rw [if_pos hq] at hk
    have := hret.mp hq
    omega
  · rw [if_neg hq] at hk ⊢
    unfold prepare_stage at hk ⊢
    simp only [hin, if_false] at hk ⊢
    rw [update_slot_get]
    have hlt : q.trigger_count < q.trigger.length := by omega
    refine ⟨{ q.trigger[q.trigger_count] with is_enabled := false }, ?_, rfl⟩
    rw [List.getElem?_eq_getElem hlt]
    rfl

/-- C21 (defect): `prepare_adquisition` clears slot `trigger_count` at the top of each
stage iteration and nowhere else, so the slot after the triggers of the last stage keeps
what an earlier run left there.  After a run with two parallel triggers (pins 0 and 1), a
run whose only active stage is stage 3, with one mask bit (pin 2), produces one trigger,
but slot 1 is still enabled and `capture_start` arms the stale trigger on pin 1 as well.
With the same registers on stage 2 the iteration of stage 3 clears slot 1. -/
theorem stale_trigger_after_last_stage :
    (prepare_adquisition two_bit_request).capture_config_.trigger
      = [{ is_enabled := true, pin := 0, match_ := trigger_match_t.TRIGGER_TYPE_LEVEL_HIGH },
         { is_enabled := true, pin := 1, match_ := trigger_match_t.TRIGGER_TYPE_LEVEL_LOW },
         { is_enabled := false, pin := 0, match_ := trigger_match_t.TRIGGER_TYPE_LEVEL_LOW },
         { is_enabled := false, pin := 0, match_ := trigger_match_t.TRIGGER_TYPE_LEVEL_LOW }] ∧
    all_candidates (second_run_request 3)
      = [{ is_enabled := true, pin := 2, match_ := trigger_match_t.TRIGGER_TYPE_LEVEL_LOW }] ∧
    (prepare_run (second_run_request 3)).trigger_count = 1 ∧
    (prepare_adquisition (second_run_request 3)).capture_config_.trigger
      = [{ is_enabled := true, pin := 2, match_ := trigger_match_t.TRIGGER_TYPE_LEVEL_LOW },
         { is_enabled := true, pin := 1, match_ := trigger_match_t.TRIGGER_TYPE_LEVEL_LOW },
         { is_enabled := false, pin := 0, match_ := trigger_match_t.TRIGGER_TYPE_LEVEL_LOW },
         { is_enabled := false, pin := 0, match_ := trigger_match_t.TRIGGER_TYPE_LEVEL_LOW }] ∧
    Except.map CaptureState.armed
        (capture (prepare_adquisition (second_run_request 3)) idle_capture)
      = Except.ok
        [{ is_enabled := true, pin := 2, match_ := trigger_match_t.TRIGGER_TYPE_LEVEL_LOW },
         { is_enabled := true, pin := 1, match_ := trigger_match_t.TRIGGER_TYPE_LEVEL_LOW }] ∧
    (prepare_run (second_run_request 2)).trigger_count = 1 ∧
    (prepare_adquisition (second_run_request 2)).capture_config_.trigger
      = [{ is_enabled := true, pin := 2, match_ := trigger_match_t.TRIGGER_TYPE_LEVEL_LOW },
         { is_enabled := false, pin := 1, match_ := trigger_match_t.TRIGGER_TYPE_LEVEL_LOW },
         { is_enabled := false, pin := 0, match_ := trigger_match_t.TRIGGER_TYPE_LEVEL_LOW },
         { is_enabled := false, pin := 0, match_ := trigger_match_t.TRIGGER_TYPE_LEVEL_LOW }] ∧
    Except.map CaptureState.armed
        (capture (prepare_adquisition (second_run_request 2)) idle_capture)
      = Except.ok
        [{ is_enabled := true, pin := 2, match_ := trigger_match_t.TRIGGER_TYPE_LEVEL_LOW }] :=
  ⟨by decide, by decide, by decide, by decide, rfl, by decide, by decide, rfl⟩

/-- C22 (defect): the loop `while (capture_config_.trigger[i].is_enabled)` of
`capture_start` has no bound on `i`.  With the four slots enabled, whatever their pins
and matches, it loads four triggers and then reads `trigger[4]`, past the array; the run
command on a parallel stage with four set mask bits produces such an array. -/
theorem trigger_walk_past_array (cc : capture_config_t) (t0 t1 t2 t3 : trigger_t)
    (samples rate pre : Nat) (s : CaptureState) :
    capture_start
        { cc with trigger := [{ t0 with is_enabled := true }, { t1 with is_enabled := true },
                              { t2 with is_enabled := true }, { t3 with is_enabled := true }] }
        samples rate pre s
      = Except.error Fault.out_of_bounds ∧
    Except.map (fun r => r.2.capture_config_.trigger.map trigger_t.is_enabled)
        (sump_read four_bit_run)
      = Except.ok [true, true, true, true] ∧
    Except.map (fun r => capture_is_busy r.1) (main_poll idle_capture four_bit_run)
      = Except.error Fault.out_of_bounds := by
  refine ⟨?_, rfl, rfl⟩
  simp [capture_start, init_triggers]

/-- C23 (defect): the divisor command (0x80) stores the payload `0xFFFFFFFF` like any
other, and with that divisor the flags command (0x82) computes the denominator
`divisor_ + 1 = 0` in unsigned 32-bit arithmetic and divides by it, whatever the flags
payload and the rest of the state: the command does not complete and stores no rate. -/
theorem flags_division_by_zero (st : SumpState) (rest : List (Option Nat)) :
    sump_read { st with
        input := some 0x80 :: some 0xFF :: some 0xFF :: some 0xFF :: some 0xFF :: rest }
      = Except.ok (command_t.COMMAND_NONE, { st with divisor_ := 0xFFFFFFFF, input := rest }) ∧
    ((0xFFFFFFFF : Nat) + 1) % 4294967296 = 0 ∧
    sump_read { st with divisor_ := 0xFFFFFFFF, input := some 0x82 :: rest }
      = Except.error Fault.division_by_zero := by
  refine ⟨?_, by decide, ?_⟩
  · rw [sump_read_divisor _ (some 0xFF :: some 0xFF :: some 0xFF :: some 0xFF :: rest) rfl]
    rw [get_uint32_bytes _ 0xFF 0xFF 0xFF 0xFF rest rfl (by decide) (by decide) (by decide)
      (by decide)]
    rfl
  · rw [sump_read_flags _ rest rfl]
    simp [read_flags, get_uint32_snd]

/-! ## Parallel stages through the run command -/

theorem take_prefix_append {α : Type} (A B C : List α) (j : Nat) :
    (A ++ (B ++ C).take j).take (A.length + min j B.length) = A ++ B.take j := by
  rw [List.take_append, List.take_take]
  congr 1
  have h : min (min j B.length) j = min j B.length := by omega
  rw [h, List.take_append_of_le_length (by omega)]
  by_cases hj : j ≤ B.length
  · rw [Nat.min_eq_left hj]
  · rw [Nat.min_eq_right (by omega), List.take_of_length_le (by omega),
      List.take_of_length_le (by omega)]

/-- The stage loop over the stages `a` followed by the stages `b`. -/
theorem prepare_stages_concat (cfg : config_t) (a b : List sump_trigger_t) :
    ∀ p : prepare_state, p.returned = false →
      prepare_stages cfg (a ++ b) p
        = if (prepare_stages cfg a p).returned then prepare_stages cfg a p
          else prepare_stages cfg b (prepare_stages cfg a p) := by
  induction a with
  | nil =>
    intro p hr
    simp [prepare_stages, hr]
  | cons sg rest ih =>
    intro p _
    simp only [List.cons_append, prepare_stages]
    by_cases hret : (prepare_stage cfg sg p).returned = true
    · simp only [hret, if_true]
    · simp only [hret]
      exact ih _ (by simpa using hret)

/-- C7: when the stage loop of `prepare_adquisition` reaches a parallel stage (non-zero
mask, start bit, trigger level 0, serial bit clear) with `k < 4` triggers produced by the
stages before it, the trigger array `prepare_adquisition` leaves holds, after these `k`
triggers, one trigger per set mask bit `c < 16` of the stage, in ascending `c`, on pin
`c`, level-high or level-low after bit `c` of `values` when the edge override is
disabled and edge-high or edge-low when it is enabled, up to four triggers in all; the
stages after it do not change them. -/
theorem parallel_stage_triggers (st : SumpState) (before after : List sump_trigger_t)
    (sg : sump_trigger_t) (hch : st.config_.channels = CHANNEL_COUNT)
    (hl : st.capture_config_.trigger.length = 4)
    (hs : st.sump_trigger_ = before ++ sg :: after)
    (hmask : sg.mask ≠ 0) (hstart : sg.configuration &&& TRIGGER_START ≠ 0)
    (hlevel : sg.configuration &&& TRIGGER_LEVEL_MASK = 0)
    (hser : sg.configuration &&& TRIGGER_SERIAL = 0)
    (hk : (prepare_upto st before).trigger_count < 4) :
    (prepare_adquisition st).capture_config_.trigger.take
        (min 4 ((prepare_upto st before).trigger_count
          + ((List.range 16).filter (fun c => sg.mask.testBit c)).length))
      = (prepare_upto st before).trigger.take (prepare_upto st before).trigger_count ++
        (((List.range 16).filter (fun c => sg.mask.testBit c)).map
          (fun c =>
            ({ is_enabled := true, pin := c,
               match_ :=
                if st.config_.trigger_edge then
                  (if sg.values.testBit c then trigger_match_t.TRIGGER_TYPE_EDGE_HIGH
                   else trigger_match_t.TRIGGER_TYPE_EDGE_LOW)
                else
                  (if sg.values.testBit c then trigger_match_t.TRIGGER_TYPE_LEVEL_HIGH
                   else trigger_match_t.TRIGGER_TYPE_LEVEL_LOW) } : trigger_t))).take
          (4 - (prepare_upto st before).trigger_count) ∧
    min 4 ((prepare_upto st before).trigger_count
        + ((List.range 16).filter (fun c => sg.mask.testBit c)).length)
      ≤ (prepare_run st).trigger_count := by
  have hc : stage_candidates st.config_ sg
      = ((List.range 16).filter (fun c => sg.mask.testBit c)).map
          (parallel_trigger st.config_.trigger_edge sg.values) := by
    unfold stage_candidates
    rw [if_pos ⟨hmask, hstart, hlevel⟩, if_pos hser, hch]
    unfold parallel_candidates
    rw [← List.range_eq_range']
    rfl
  obtain ⟨hlq, _, _⟩ := prepare_stages_spec st.config_ before
    { trigger := st.capture_config_.trigger, trigger_count := 0, returned := false }
    hl (Nat.zero_lt_succ 3) rfl
  have hret := prepare_stages_returned st.config_ before
    { trigger := st.capture_config_.trigger, trigger_count := 0, returned := false }
    hl (Nat.zero_lt_succ 3) rfl
  unfold prepare_adquisition prepare_run
  unfold prepare_upto at hk ⊢
  simp only
  rw [hs, prepare_stages_concat st.config_ before (sg :: after) _ rfl]
  generalize prepare_stages st.config_ before
    { trigger := st.capture_config_.trigger, trigger_count := 0, returned := false } = q
    at hk hret hlq ⊢
  have hq : ¬ q.returned = true := fun h => by
    have := hret.mp h
    omega
  rw [if_neg hq]
  obtain ⟨_, b, c⟩ := prepare_stages_spec st.config_ (sg :: after) q hlq hk (by simpa using hq)
  rw [List.flatMap_cons, hc] at b c
  rw [List.length_append, List.length_map] at b
  generalize prepare_stages st.config_ (sg :: after) q = r at b c ⊢
  generalize hcands : (List.filter (fun c => sg.mask.testBit c) (List.range 16)) = bits at b c ⊢
  have hlen : (q.trigger.take q.trigger_count).length = q.trigger_count := by
    rw [List.length_take]
    omega
  have hmin : min 4 (q.trigger_count + bits.length)
      = (q.trigger.take q.trigger_count).length
        + min (4 - q.trigger_count)
            (bits.map (parallel_trigger st.config_.trigger_edge sg.values)).length := by
    rw [hlen, List.length_map]
    omega
  refine ⟨?_, by omega⟩
  have hle : min 4 (q.trigger_count + bits.length) ≤ r.trigger_count := by omega
  have h1 : r.trigger.take (min 4 (q.trigger_count + bits.length))
      = (r.trigger.take r.trigger_count).take (min 4 (q.trigger_count + bits.length)) := by
    rw [List.take_take, Nat.min_eq_left hle]
  rw [h1, c, hmin, take_prefix_append]
  rfl

/-- C7 on the stage registers with mask `0b111`, values `0b101` on stage 0 and mask
`0b11000`, values `0b01000` on stage 2: stage 2 is reached with three triggers produced,
and the trigger array after the run command holds the trigger of its channel 3, level
high, in slot 3. -/
theorem parallel_stage_triggers_witness :
    (prepare_upto five_bit_request
        [{ mask := 0b111, values := 0b101, configuration := TRIGGER_START },
         { mask := 0, values := 0, configuration := 0 }]).trigger_count = 3 ∧
    (prepare_adquisition five_bit_request).capture_config_.trigger
      = [{ is_enabled := true, pin := 0, match_ := trigger_match_t.TRIGGER_TYPE_LEVEL_HIGH },
         { is_enabled := true, pin := 1, match_ := trigger_match_t.TRIGGER_TYPE_LEVEL_LOW },
         { is_enabled := true, pin := 2, match_ := trigger_match_t.TRIGGER_TYPE_LEVEL_HIGH },
         { is_enabled := true, pin := 3, match_ := trigger_match_t.TRIGGER_TYPE_LEVEL_HIGH }] ∧
    (prepare_adquisition five_bit_request).capture_config_.trigger.take
        (min 4 ((prepare_upto five_bit_request
            [{ mask := 0b111, values := 0b101, configuration := TRIGGER_START },
             { mask := 0, values := 0, configuration := 0 }]).trigger_count
          + ((List.range 16).filter (fun c => (0b11000 : Nat).testBit c)).length))
      = (prepare_upto five_bit_request
            [{ mask := 0b111, values := 0b101, configuration := TRIGGER_START },
             { mask := 0, values := 0, configuration := 0 }]).trigger.take
          (prepare_upto five_bit_request
            [{ mask := 0b111, values := 0b101, configuration := TRIGGER_START },
             { mask := 0, values := 0, configuration := 0 }]).trigger_count ++
        (((List.range 16).filter (fun c => (0b11000 : Nat).testBit c)).map
          (fun c =>
            ({ is_enabled := true, pin := c,
               match_ :=
                if five_bit_request.config_.trigger_edge then
                  (if (0b01000 : Nat).testBit c then trigger_match_t.TRIGGER_TYPE_EDGE_HIGH
                   else trigger_match_t.TRIGGER_TYPE_EDGE_LOW)
                else
                  (if (0b01000 : Nat).testBit c then trigger_match_t.TRIGGER_TYPE_LEVEL_HIGH
                   else trigger_match_t.TRIGGER_TYPE_LEVEL_LOW) } : trigger_t))).take
          (4 - (prepare_upto five_bit_request
            [{ mask := 0b111, values := 0b101, configuration := TRIGGER_START },
             { mask := 0, values := 0, configuration := 0 }]).trigger_count) :=
  ⟨by decide, by decide,
    (parallel_stage_triggers five_bit_request
      [{ mask := 0b111, values := 0b101, configuration := TRIGGER_START },
       { mask := 0, values := 0, configuration := 0 }]
      [{ mask := 0, values := 0, configuration := 0 }]
      { mask := 0b11000, values := 0b01000, configuration := TRIGGER_START }
      rfl rfl rfl (by decide) (by decide) (by decide) (by decide) (by decide)).1⟩

end LogicAnalyzer
